import Mathlib

/-!
# Roster admin pages: member sorting, grouping, duplicate detection, bulk tag parsing
and the drag-and-drop request sequences

A shallow embedding of the browser-side code under `static/roster/`.

Conventions of the embedding

* A JavaScript value read from a JSON member object is a `JSVal`.  A number the host prints
  as decimal digits, that is, an integer of magnitude below 10^21 (`townhall`, `trophies`,
  hero levels, timestamps), is `num`; any other number (a hit rate such as 79.5) is `dec`,
  with its value and the text the host prints for it.  The comparator only uses the sign of
  a difference of two numbers.
* `String.prototype.toLowerCase` and `String.prototype.localeCompare` depend on the Unicode
  and locale data of the browser; they are fields of `JSEnv` and every statement about the
  comparator holds for all of them.
* A JavaScript string is a Lean `String`; the text-processing functions work on its list of
  characters.
* An `async` handler is a function from the behaviour of the REST backend to the list of
  effects (requests, alerts, re-renders) it performs, in order.
-/

namespace ClashKing

/-! ## JavaScript values -/

/-- A value stored under a property of a JSON object, or `undefined` when the property is
absent. -/
inductive JSVal where
  | undefined : JSVal
  | null : JSVal
  | str (s : String) : JSVal
  | num (n : Int) : JSVal
  | bool (b : Bool) : JSVal
  /-- A number that is not an integer of magnitude below 10^21: its value, and the text
  `String(v)` the host prints for it, such as `79.5` or `1e+21`. -/
  | dec (value : ℚ) (text : String) : JSVal
deriving DecidableEq, Repr

namespace JSVal

/-- The test `v == null`: true exactly for `null` and `undefined`. -/
def isNullish : JSVal → Bool
  | undefined => true
  | null => true
  | _ => false

/-- The truthiness of a value, as used by `!v`, `v || w` and `if (v)`. -/
def truthy : JSVal → Bool
  | undefined => false
  | null => false
  | str s => s != ""
  | num n => n != 0
  | bool b => b
  | dec value _ => value != 0

/-- The conversion `String(v)`, which is also the property key a value is turned into when it
indexes an object. -/
def toJSString : JSVal → String
  | undefined => "undefined"
  | null => "null"
  | str s => s
  | num n => toString n
  | bool true => "true"
  | bool false => "false"
  | dec _ text => text

/-- The test `typeof v === 'number'`. -/
def isNumber : JSVal → Bool
  | num _ => true
  | dec _ _ => true
  | _ => false

/-- The value of a number. -/
def number? : JSVal → Option ℚ
  | num n => some n
  | dec value _ => some value
  | _ => none

end JSVal

/-- The sign of the difference `x - y` of two numbers of which one is not an integer; `sort`
reads nothing but the sign of what the comparator returns. -/
def differenceSign (x y : ℚ) : Int :=
  if x < y then -1 else if y < x then 1 else 0

/-- The string operations of the host that depend on its Unicode and locale tables. -/
structure JSEnv where
  /-- The call `s.toLowerCase()`. -/
  toLowerCase : String → String
  /-- The call `s.localeCompare(t)`: negative, zero or positive. -/
  localeCompare : String → String → Int

/-- The test `s.includes(sub)` on character lists: `sub` occurs in `s` as a contiguous block. -/
def includesChars : List Char → List Char → Bool
  | [], sub => sub.isEmpty
  | c :: cs, sub => sub.isPrefixOf (c :: cs) || includesChars cs sub

/-- The test `s.includes(sub)`. -/
def includes (s sub : String) : Bool := includesChars s.data sub.data

/-! ## Members -/

/-- A roster member as delivered by the API: the player tag, which is always a string, and the
other properties of the JSON object (`undefined` when absent). -/
structure Member where
  tag : String
  props : String → JSVal

/-- The property read `member[field]`. -/
def Member.get (m : Member) (field : String) : JSVal :=
  if field = "tag" then JSVal.str m.tag else m.props field

/-! ## The sort comparator of `loadMembersDisplay` (member-display.js, lines 32-70) -/

/-- The flag `isDateField` of the comparator:
`field === 'added_at' || field.includes('date') || field.includes('time')`. -/
def isDateField (field : String) : Bool :=
  field == "added_at" || includes field "date" || includes field "time"

/-- The comparator passed to `sort` in `loadMembersDisplay`: the loop over `sortConfig`, each
`continue` being the recursive call on the remaining fields. -/
def compareMembers (env : JSEnv) : List String → Member → Member → Int
  | [], _, _ => 0
  | field :: rest, a, b =>
    if field = "" then compareMembers env rest a b
    else
      let valueA := a.get field
      let valueB := b.get field
      if valueA.isNullish && valueB.isNullish then compareMembers env rest a b
      else if valueA.isNullish then 1
      else if valueB.isNullish then -1
      else
        match valueA, valueB with
        | JSVal.str sa, JSVal.str sb =>
          let comparison :=
            if isDateField field then
              env.localeCompare (env.toLowerCase sa) (env.toLowerCase sb)
            else
              env.localeCompare (env.toLowerCase sb) (env.toLowerCase sa)
          if comparison ≠ 0 then comparison else compareMembers env rest a b
        | JSVal.num na, JSVal.num nb =>
          if na ≠ nb then (if isDateField field then na - nb else nb - na)
          else compareMembers env rest a b
        | JSVal.num na, JSVal.dec qb _ =>
          if (na : ℚ) ≠ qb then
            (if isDateField field then differenceSign na qb else differenceSign qb na)
          else compareMembers env rest a b
        | JSVal.dec qa _, JSVal.num nb =>
          if qa ≠ (nb : ℚ) then
            (if isDateField field then differenceSign qa nb else differenceSign nb qa)
          else compareMembers env rest a b
        | JSVal.dec qa _, JSVal.dec qb _ =>
          if qa ≠ qb then
            (if isDateField field then differenceSign qa qb else differenceSign qb qa)
          else compareMembers env rest a b
        | _, _ =>
          let strA := env.toLowerCase valueA.toJSString
          let strB := env.toLowerCase valueB.toJSString
          let comparison :=
            if isDateField field then env.localeCompare strA strB
            else env.localeCompare strB strA
          if comparison ≠ 0 then comparison else compareMembers env rest a b

/-- The call `[...xs].sort(cmp)` of the JavaScript runtime, as the stable insertion sort under
`cmp(a, b) <= 0`.  The language requires `sort` to be stable, and for a comparator that is a
consistent total preorder every stable sort returns the list computed here.  For an
inconsistent comparator the language leaves the order to the implementation; the statements
below that do not assume consistency hold for this insertion sort. -/
def arraySort {α : Type} (cmp : α → α → Int) (xs : List α) : List α :=
  xs.insertionSort (fun a b => cmp a b ≤ 0)

/-- The list `sortedMembers` of `loadMembersDisplay`. -/
def sortMembers (env : JSEnv) (sortConfig : List String) (members : List Member) :
    List Member :=
  arraySort (compareMembers env sortConfig) members

/-- The nine display and sort fields: the keys of `columnMapping` in
`saveDisplayConfiguration` (member-display.js, lines 372-382). -/
def displayFields : List String :=
  ["townhall", "name", "tag", "hitrate", "current_clan_tag", "discord", "hero_lvs",
   "war_pref", "trophies"]

/-! ## Grouping by signup category (member-display.js, lines 72-85; the same loop is
main.js, lines 546-559) -/

/-- The property names every plain object `{}` inherits from `Object.prototype`.  Reading one
of them from an object that has no own property of that name yields a function (or, for
`__proto__`, the prototype object): a truthy value that is neither a number nor an array. -/
def objectPrototypeKeys : List String :=
  ["constructor", "__defineGetter__", "__defineSetter__", "hasOwnProperty",
   "__lookupGetter__", "__lookupSetter__", "isPrototypeOf", "propertyIsEnumerable",
   "toString", "valueOf", "__proto__", "toLocaleString"]

/-- The two results of the grouping loop: the array `uncategorizedMembers` and the own
properties of the object `membersByCategory`, in the order they were created. -/
structure Grouping where
  uncategorizedMembers : List Member
  membersByCategory : List (String × List Member)

/-- The statements `if (!obj[key]) obj[key] = []; obj[key].push(member)` for a key that is not
inherited. -/
def pushMember (key : String) (member : Member) :
    List (String × List Member) → List (String × List Member)
  | [] => [(key, [member])]
  | (k, ms) :: rest =>
    if k = key then (k, ms ++ [member]) :: rest else (k, ms) :: pushMember key member rest

/-- The own property `obj[key]`, if there is one. -/
def ownProperty (key : String) : List (String × List Member) → Option (List Member)
  | [] => none
  | (k, ms) :: rest => if k = key then some ms else ownProperty key rest

/-- The body of the `forEach` of the grouping step.  For a truthy `signup_group` naming an
inherited property, `membersByCategory[...]` is truthy, no array is created and the call of
its missing `push` throws. -/
def groupStep (g : Grouping) (member : Member) : Except String Grouping :=
  let group := member.get "signup_group"
  if !group.truthy then
    Except.ok { g with uncategorizedMembers := g.uncategorizedMembers ++ [member] }
  else
    let key := group.toJSString
    if key ∈ objectPrototypeKeys then
      Except.error "TypeError: membersByCategory[member.signup_group].push is not a function"
    else
      Except.ok { g with membersByCategory := pushMember key member g.membersByCategory }

/-- The grouping step of `loadMembersDisplay` and of `loadMembersTableInContainer`. -/
def groupMembers (sortedMembers : List Member) : Except String Grouping :=
  sortedMembers.foldlM groupStep ⟨[], []⟩

/-- The members filed under `key`: `membersByCategory[key] || []` for a key that is not
inherited. -/
def Grouping.categoryMembers (g : Grouping) (key : String) : List Member :=
  (ownProperty key g.membersByCategory).getD []

/-- The tags held by a grouping: those of the uncategorized list, and those of each
category list with its key. -/
def Grouping.tags (g : Grouping) : List String × List (String × List String) :=
  (g.uncategorizedMembers.map Member.tag,
   g.membersByCategory.map (fun p => (p.1, p.2.map Member.tag)))

/-! ## Rosters and duplicate detection (main.js, lines 402-421) -/

/-- A roster as delivered by `GET /roster/{id}`; a property that is absent or null is
`none`. -/
structure Roster where
  id : Option String := none
  custom_id : Option String := none
  aliasName : String := ""
  clan_tag : Option String := none
  columns : Option (List String) := none
  sort : Option (List String) := none
  members : Option (List Member) := none

/-- The state of the scan in `getDuplicateMembers`: the number-valued own properties of the
object `memberCounts`, and the elements of the set `duplicates` in insertion order. -/
structure DuplicateScan where
  memberCounts : List (String × Nat)
  duplicates : List String

/-- The read `memberCounts[tag] || 0` for a tag that is not an inherited property name. -/
def lookupCount (tag : String) : List (String × Nat) → Nat
  | [] => 0
  | (k, n) :: rest => if k = tag then n else lookupCount tag rest

/-- The write `memberCounts[tag] = n`. -/
def setCount (tag : String) (n : Nat) : List (String × Nat) → List (String × Nat)
  | [] => [(tag, n)]
  | (k, c) :: rest => if k = tag then (k, n) :: rest else (k, c) :: setCount tag n rest

/-- The call `duplicates.add(tag)` on a `Set`. -/
def setAdd (tag : String) (s : List String) : List String :=
  if tag ∈ s then s else s ++ [tag]

/-- The body of the inner `forEach` of `getDuplicateMembers`.  For a tag naming an inherited
property, `(memberCounts[tag] || 0) + 1` is a string concatenation; the value stored is never
a number, `memberCounts[tag] > 1` is false each time, and no other key is touched. -/
def countMember (st : DuplicateScan) (member : Member) : DuplicateScan :=
  let tag := member.tag
  if tag ∈ objectPrototypeKeys then st
  else
    let count := lookupCount tag st.memberCounts + 1
    let memberCounts := setCount tag count st.memberCounts
    if count > 1 then ⟨memberCounts, setAdd tag st.duplicates⟩
    else ⟨memberCounts, st.duplicates⟩

/-- The body of the outer `forEach`, with its guard `roster && roster.members`. -/
def countRoster (st : DuplicateScan) (roster : Option Roster) : DuplicateScan :=
  match roster with
  | some r =>
    match r.members with
    | some members => members.foldl countMember st
    | none => st
  | none => st

/-- The function `getDuplicateMembers`, reading the globals `currentRosterData` and
`comparisonRosters`; the result lists the elements of the returned set. -/
def getDuplicateMembers (currentRosterData : Option Roster)
    (comparisonRosters : List (Option Roster)) : List String :=
  ((currentRosterData :: comparisonRosters).foldl countRoster ⟨[], []⟩).duplicates

/-- The tags of the member list of a held roster; a roster that is null or has no member list
contributes none. -/
def memberTags : Option Roster → List String
  | some r => (r.members.getD []).map Member.tag
  | none => []

/-- The invariant of the scan after the tags `seen` have been processed: each count is the
number of occurrences so far, and the set holds the tags that occurred at least twice. -/
def ScanInv (st : DuplicateScan) (seen : List String) : Prop :=
  (∀ t, t ∉ objectPrototypeKeys → lookupCount t st.memberCounts = seen.count t) ∧
  (∀ t, t ∈ st.duplicates ↔ t ∉ objectPrototypeKeys ∧ 2 ≤ seen.count t) ∧
  st.duplicates.Nodup

/-! ## Bulk tag parsing (member-search.js, lines 128-225) -/

/-- The character class `[A-Z0-9]` of the validity test `/^#[A-Z0-9]{3,}$/`. -/
def isTagChar (c : Char) : Bool :=
  (65 ≤ c.toNat && c.toNat ≤ 90) || (48 ≤ c.toNat && c.toNat ≤ 57)

/-- The character class `[A-Z0-9]` under the flag `i` (without the flag `u`): the ASCII
letters of both cases and the digits. -/
def isTagCharI (c : Char) : Bool :=
  isTagChar c || (97 ≤ c.toNat && c.toNat ≤ 122)

/-- The code points removed by `String.prototype.trim`: the ECMAScript white space and line
terminator characters. -/
def jsWhitespaceCodes : List Nat :=
  [9, 10, 11, 12, 13, 32, 160, 5760, 8192, 8193, 8194, 8195, 8196, 8197, 8198, 8199, 8200,
   8201, 8202, 8232, 8233, 8239, 8287, 12288, 65279]

/-- Whether `trim` removes the character. -/
def isJSWhitespace (c : Char) : Bool := decide (c.toNat ∈ jsWhitespaceCodes)

/-- The call `s.trim()` on a character list. -/
def jsTrim (s : List Char) : List Char :=
  ((s.dropWhile isJSWhitespace).reverse.dropWhile isJSWhitespace).reverse

/-- The call `text.split('\n')` on a character list; the empty text gives one empty line. -/
def splitLines : List Char → List (List Char)
  | [] => [[]]
  | c :: cs =>
    if c = '\n' then [] :: splitLines cs
    else
      match splitLines cs with
      | [] => [[c]]
      | line :: lines => (c :: line) :: lines

/-- One attempt to match `/#?[A-Z0-9]{3,}/i` at the start of `s`, returning the matched text.
The quantifiers are greedy: after an optional `#` the whole run of class characters is taken;
when `s` starts with `#` and fewer than three class characters follow, backtracking to an
empty `#?` fails as well, since `#` is not in the class. -/
def matchTagAt (s : List Char) : Option (List Char) :=
  let hash := decide (s.head? = some '#')
  let run := (if hash then s.tail else s).takeWhile isTagCharI
  if 3 ≤ run.length then some (if hash then '#' :: run else run) else none

/-- The call `line.match(/#?[A-Z0-9]{3,}/gi)`: the matches from left to right.  `skip` is the
number of characters still covered by the previous match (the distance to `lastIndex`); the
search resumes right after it.  No match gives the empty list, where `match` gives `null`. -/
def matchAllTags : Nat → List Char → List (List Char)
  | _, [] => []
  | skip + 1, _ :: cs => matchAllTags skip cs
  | 0, c :: cs =>
    match matchTagAt (c :: cs) with
    | some m => m :: matchAllTags (m.length - 1) cs
    | none => matchAllTags 0 cs

/-- The body of the inner loop of `extractTagsFromText`: a leading `#` is added when missing
and the match is uppercased.  A match holds only `#`, ASCII letters and digits, on which
`toUpperCase` is the ASCII uppercasing. -/
def normalizeTag (m : List Char) : List Char :=
  (if m.head? = some '#' then m else '#' :: m).map Char.toUpper

/-- The tags pushed for one line of the text. -/
def lineTags (line : List Char) : List (List Char) :=
  let trimmedLine := jsTrim line
  if trimmedLine = [] then []
  else (matchAllTags 0 trimmedLine).map normalizeTag

/-- The expression `[...new Set(tags)]`: the first occurrence of each element, in order. -/
def dedupe {α : Type} [DecidableEq α] (xs : List α) : List α :=
  xs.foldl (fun seen x => if x ∈ seen then seen else seen ++ [x]) []

/-- The function `extractTagsFromText` on character lists. -/
def extractTagsChars (text : List Char) : List (List Char) :=
  dedupe ((splitLines text).flatMap lineTags)

/-- The function `extractTagsFromText`. -/
def extractTagsFromText (text : String) : List String :=
  (extractTagsChars text.data).map String.mk

/-- The call `tags.join("\n")` on character lists. -/
def joinChars : List (List Char) → List Char
  | [] => []
  | [t] => t
  | t :: ts => t ++ '\n' :: joinChars ts

/-- The call `tags.join("\n")`. -/
def joinLines (tags : List String) : String :=
  String.mk (joinChars (tags.map String.data))

/-- The test `/^#[A-Z0-9]{3,}$/.test(tag)` on a character list. -/
def isValidTagChars : List Char → Bool
  | '#' :: rest => decide (3 ≤ rest.length) && rest.all isTagChar
  | _ => false

/-- The test `/^#[A-Z0-9]{3,}$/.test(tag)` of `validateBulkTags` and `addBulkMembers`. -/
def isValidTag (tag : String) : Bool := isValidTagChars tag.data

/-! ## Requests, effects and the page state -/

/-- The HTTP method of an `apiCall`. -/
inductive Method where
  | GET | POST | PUT | PATCH | DELETE
deriving DecidableEq, Repr

/-- The endpoints the handlers call, each below `API_BASE` and with the query
`?server_id=$serverId`; the strings are the values interpolated into the URL. -/
inductive Endpoint where
  /-- The path `/roster/$rosterId`. -/
  | roster (rosterId : String) : Endpoint
  /-- The path `/roster/$rosterId/members`. -/
  | members (rosterId : String) : Endpoint
  /-- The path `/roster/$rosterId/members/$tag`, the tag passed through
  `encodeURIComponent`. -/
  | member (rosterId : String) (memberTag : String) : Endpoint
deriving DecidableEq, Repr

/-- One entry of an add request, with its properties `tag` and `signup_group`. -/
structure AddEntry where
  tag : JSVal
  signup_group : JSVal
deriving DecidableEq, Repr

/-- The JSON body handed to `apiCall`. -/
inductive Body where
  /-- No body. -/
  | none : Body
  /-- The body with the one property `add`, a list of entries. -/
  | add (entries : List AddEntry) : Body
  /-- The body with the one property `remove`, a list of tags. -/
  | remove (tags : List String) : Body
  /-- The body with the one property `signup_group`. -/
  | signupGroup (value : JSVal) : Body
  /-- The body with the two properties `columns` and `sort`. -/
  | displaySettings (columns : List String) (sort : List String) : Body
deriving DecidableEq, Repr

/-- One call `apiCall(endpoint, method, data)`. -/
structure Request where
  method : Method
  endpoint : Endpoint
  body : Body := Body.none
deriving DecidableEq, Repr

/-- The error `apiCall` throws: the message (`detail` of the response, `HTTP <status>`, or the
message of a network failure), the HTTP status when there is one, and `data.detail`, a
string when the response has one. -/
structure ApiError where
  message : String
  status : Option Nat := none
  detail : Option String := none

/-- The parsed JSON of a successful response; `roster` is `response.roster`. -/
structure ApiResponse where
  roster : Option Roster := none

/-- The outcome of an awaited `apiCall`. -/
abbrev ApiResult := Except ApiError ApiResponse

/-- The REST backend as seen from the page: its answer to a request, given the requests the
page has made before.  Every statement quantifies over all backends. -/
abbrev Backend := List Request → Request → ApiResult

/-- What a handler does to the outside, in order. -/
inductive Effect where
  /-- A call of `apiCall`. -/
  | request (r : Request) : Effect
  /-- A call `showAlert(message, type)`. -/
  | alert (message : String) (type : String) : Effect
  /-- The rest of the `try` block of `loadMembersDisplay`: from `currentRosterData` the
  Members tab is rebuilt or its empty state shown, or a failure on the way is alerted by the
  `catch` clause; no request is issued. -/
  | renderMembersTab : Effect
  /-- The call `loadComparisonMembersWithTables()` and the statements after it in the same
  `try` block; a failure on the way is alerted by the enclosing `catch` clause; no request is
  issued. -/
  | renderComparison : Effect
  /-- An update of a form control or panel. -/
  | dom (what : String) : Effect
deriving DecidableEq, Repr

/-- A signup category. -/
structure Category where
  custom_id : String
  aliasName : String

/-- The page-level globals the handlers read and write, and the effects performed so far. -/
structure Page where
  currentRosterId : String := ""
  currentRosterData : Option Roster := none
  comparisonRosters : List (Option Roster) := []
  categories : List Category := []
  log : List Effect := []

/-- The request of an effect, if it is one. -/
def Effect.request? : Effect → Option Request
  | Effect.request r => some r
  | _ => none

/-- The `apiCall`s made so far, in order. -/
def Page.requests (p : Page) : List Request := p.log.filterMap Effect.request?

/-- Record an effect. -/
def Page.emit (p : Page) (e : Effect) : Page := { p with log := p.log ++ [e] }

/-- The call `showAlert(message, type)`; the type defaults to `success`. -/
def Page.showAlert (p : Page) (message : String) (type : String) : Page :=
  p.emit (Effect.alert message type)

/-- The awaited call `apiCall(endpoint, method, data)` (api-utils.js, lines 6-42): the request
is recorded and the backend's answer returned; a failure is the thrown error. -/
def apiCall (backend : Backend) (p : Page) (req : Request) : Page × ApiResult :=
  (p.emit (Effect.request req), backend p.requests req)

/-- The expression `value || null` for a string `value`. -/
def orNull (value : String) : JSVal :=
  if value = "" then JSVal.null else JSVal.str value

/-- The label computed as
`categoryId ? categories.find(c => c.custom_id === categoryId)?.alias || 'Unknown' :
'Uncategorized'`. -/
def categoryName (categories : List Category) (categoryId : JSVal) : String :=
  if categoryId.truthy then
    match categories.find? (fun c => decide (JSVal.str c.custom_id = categoryId)) with
    | some c => if c.aliasName = "" then "Unknown" else c.aliasName
    | none => "Unknown"
  else "Uncategorized"

/-- The function `loadMembersDisplay` (member-display.js, lines 6-140) as far as requests and
globals go: nothing without a current roster id; otherwise one GET of the roster, after which
`currentRosterData` is replaced and the tab rebuilt, or the failure is alerted. -/
def loadMembersDisplay (backend : Backend) (p : Page) : Page :=
  if p.currentRosterId = "" then p
  else
    let (p, res) := apiCall backend p ⟨Method.GET, Endpoint.roster p.currentRosterId, Body.none⟩
    match res with
    | Except.error e => p.showAlert ("Failed to load members: " ++ e.message) "error"
    | Except.ok response =>
      ({ p with currentRosterData := response.roster }).emit Effect.renderMembersTab

/-- The function `handleMemberAddError` (api-utils.js, lines 86-106): one error alert, chosen
by the status of the error. -/
def handleMemberAddError (p : Page) (error : ApiError) (memberTags : List String) : Page :=
  if error.status = some 400 then p.showAlert "Invalid player tag format" "error"
  else if error.status = some 404 then p.showAlert "Player not found or not accessible" "error"
  else if error.status = some 422 then
    match error.detail with
    | some detail =>
      if detail ≠ "" then
        if includes detail "already exists" then
          p.showAlert "Player is already in the roster" "error"
        else p.showAlert detail "error"
      else p.showAlert "Unable to add player - validation error" "error"
    | none => p.showAlert "Unable to add player - validation error" "error"
  else
    p.showAlert ("Failed to add " ++ ", ".intercalate memberTags ++ ": " ++ error.message)
      "error"

/-- The function `addBulkMembers` (member-search.js, lines 183-225); `textareaValue` and
`categoryValue` are the values of the text area and of the category selector. -/
def addBulkMembers (backend : Backend) (p : Page) (textareaValue categoryValue : String) :
    Page :=
  let text := String.mk (jsTrim textareaValue.data)
  if text = "" then p.showAlert "Please enter player tags" "error"
  else
    let tags := extractTagsFromText text
    let validTags := tags.filter isValidTag
    if validTags.length = 0 then p.showAlert "No valid tags found" "error"
    else
      let selectedCategory := orNull categoryValue
      let membersToAdd := validTags.map (fun tag => AddEntry.mk (JSVal.str tag) selectedCategory)
      let (p, res) := apiCall backend p
        ⟨Method.POST, Endpoint.members p.currentRosterId, Body.add membersToAdd⟩
      match res with
      | Except.error error => handleMemberAddError p error validTags
      | Except.ok _ =>
        let p := p.showAlert ("Successfully added " ++ toString validTags.length ++ " members!")
          "success"
        let p := p.emit (Effect.dom "bulk-tags-input cleared, tag counter reset")
        let p := loadMembersDisplay backend p
        p.emit (Effect.dom "bulk-add-section toggled")

/-- The function `transferMemberBetweenRosters` (drag-drop.js, lines 449-477).  The result is
the message of the error it throws, if it throws; `categoryId` defaults to null. -/
def transferMemberBetweenRosters (backend : Backend) (p : Page)
    (memberTag sourceRosterId targetRosterId : JSVal) (categoryId : JSVal) :
    Page × Except String Unit :=
  let categoryId := if categoryId = JSVal.undefined then JSVal.null else categoryId
  if !memberTag.truthy || !sourceRosterId.truthy || !targetRosterId.truthy then
    (p, Except.error ("Transfer failed: Missing required parameters - member: " ++
      memberTag.toJSString ++ ", source: " ++ sourceRosterId.toJSString ++ ", target: " ++
      targetRosterId.toJSString))
  else
    let (p, removed) := apiCall backend p
      ⟨Method.DELETE, Endpoint.member sourceRosterId.toJSString memberTag.toJSString, Body.none⟩
    match removed with
    | Except.error error => (p, Except.error ("Transfer failed: " ++ error.message))
    | Except.ok _ =>
      let (p, added) := apiCall backend p
        ⟨Method.POST, Endpoint.members targetRosterId.toJSString,
          Body.add [⟨memberTag, categoryId⟩]⟩
      match added with
      | Except.error error => (p, Except.error ("Transfer failed: " ++ error.message))
      | Except.ok _ =>
        (p.showAlert ("Successfully transferred " ++ memberTag.toJSString ++ " to " ++
          categoryName p.categories categoryId ++ "!") "success", Except.ok ())

/-- The drag payload read by the drop handlers: the properties of the parsed JSON. -/
structure DragData where
  type : JSVal := JSVal.undefined
  memberTag : JSVal := JSVal.undefined
  sourceRoster : JSVal := JSVal.undefined

/-- What `handleCategoryDrop` reads from its event: the `data-category-id` of the drop zone,
the outcome of `JSON.parse(event.dataTransfer.getData('text/plain'))` (the message of the
error when that throws), and the `data-roster-id` of the enclosing container, if any. -/
structure CategoryDropEvent where
  categoryId : String
  payload : Except String DragData
  targetRosterId : Option String

/-- The function `handleCategoryDrop` (main.js, lines 821-872). -/
def handleCategoryDrop (backend : Backend) (p : Page) (event : CategoryDropEvent) : Page :=
  let categoryId := event.categoryId
  let name := categoryName p.categories (JSVal.str categoryId)
  let failed := fun (q : Page) (message : String) =>
    q.showAlert ("Failed to transfer member: " ++ message) "error"
  let reload := fun (q : Page) =>
    if q.comparisonRosters.length > 0 then q.emit Effect.renderComparison else q
  match event.payload with
  | Except.error message => failed p message
  | Except.ok data =>
    if data.type ≠ JSVal.str "cross-roster" then p
    else
      match event.targetRosterId with
      | none => failed p "Could not determine target roster"
      | some targetRosterId =>
        if targetRosterId = "" then failed p "Could not determine target roster"
        else
          let sourceRosterId :=
            if data.sourceRoster.truthy then data.sourceRoster else JSVal.str targetRosterId
          if sourceRosterId = JSVal.str targetRosterId then
            let (p, res) := apiCall backend p
              ⟨Method.PATCH, Endpoint.member targetRosterId data.memberTag.toJSString,
                Body.signupGroup (orNull categoryId)⟩
            match res with
            | Except.error error => failed p error.message
            | Except.ok _ =>
              reload (p.showAlert
                ("Moved " ++ data.memberTag.toJSString ++ " to " ++ name ++ "!") "success")
          else
            let (p, res) := transferMemberBetweenRosters backend p data.memberTag
              sourceRosterId (JSVal.str targetRosterId) (JSVal.str categoryId)
            match res with
            | Except.error message => failed p message
            | Except.ok _ => reload p

/-! ## Intra-roster drops, removal and the comparison reload -/

/-- The function `moveMemberToCategory` (drag-drop.js, lines 163-181). -/
def moveMemberToCategory (backend : Backend) (p : Page) (memberTag newCategoryId : String) :
    Page :=
  let (p, res) := apiCall backend p
    ⟨Method.PATCH, Endpoint.member p.currentRosterId memberTag,
      Body.signupGroup (orNull newCategoryId)⟩
  match res with
  | Except.error error =>
    p.showAlert ("Failed to move " ++ memberTag ++ ": " ++ error.message) "error"
  | Except.ok _ =>
    let p := p.showAlert ("Moved " ++ memberTag ++ " to " ++
      categoryName p.categories (JSVal.str newCategoryId) ++ "!") "success"
    loadMembersDisplay backend p

/-- The function `handleDrop` (drag-drop.js, lines 150-160); `memberTag` is the text the drag
carries, `event.dataTransfer.getData('text/plain')`, empty when there is none. -/
def handleDrop (backend : Backend) (p : Page) (memberTag categoryId : String) : Page :=
  if memberTag = "" then p
  else moveMemberToCategory backend p memberTag categoryId

/-- The id interpolated into the URL for a comparison roster, `roster.id || roster.custom_id`;
when both are absent the text is `undefined` (it is `null` when `custom_id` is null, which
`Roster` does not tell from absent). -/
def rosterUrlId (roster : Roster) : String :=
  match roster.id with
  | some id => if id ≠ "" then id else roster.custom_id.getD "undefined"
  | none => roster.custom_id.getD "undefined"

/-- The `for` loop of `reloadComparisonData` over the comparison rosters still to reload;
`reloaded` are the entries already replaced.  The result is the page, with `comparisonRosters`
as the loop left it, and the message of the exception when one stopped the loop: a failed
GET, or the read of `id` on an entry that is undefined. -/
def reloadComparisonRosters (backend : Backend) (p : Page) (reloaded : List (Option Roster)) :
    List (Option Roster) → Page × Option String
  | [] => ({ p with comparisonRosters := reloaded }, none)
  | none :: rest =>
    ({ p with comparisonRosters := reloaded ++ none :: rest },
      some "TypeError: cannot read properties of undefined (reading 'id')")
  | some roster :: rest =>
    let (p, res) := apiCall backend p
      ⟨Method.GET, Endpoint.roster (rosterUrlId roster), Body.none⟩
    match res with
    | Except.error error =>
      ({ p with comparisonRosters := reloaded ++ some roster :: rest }, some error.message)
    | Except.ok response =>
      reloadComparisonRosters backend p (reloaded ++ [response.roster]) rest

/-- The function `reloadComparisonData` (main.js, lines 424-453): the current roster and then
each comparison roster is fetched again, after which the comparison tables are rebuilt; the
first failure is alerted instead. -/
def reloadComparisonData (backend : Backend) (p : Page) : Page :=
  let (p, res) := apiCall backend p ⟨Method.GET, Endpoint.roster p.currentRosterId, Body.none⟩
  match res with
  | Except.error error => p.showAlert ("Failed to refresh display: " ++ error.message) "error"
  | Except.ok response =>
    match reloadComparisonRosters backend { p with currentRosterData := response.roster } []
        p.comparisonRosters with
    | (p, some message) => p.showAlert ("Failed to refresh display: " ++ message) "error"
    | (p, none) => p.emit Effect.renderComparison

/-- The function `removeMemberFromRoster` (main.js, lines 785-805); `confirmed` is the answer
to the `confirm` dialog. -/
def removeMemberFromRoster (backend : Backend) (p : Page) (confirmed : Bool)
    (memberTag rosterId : String) : Page :=
  if !confirmed then p
  else
    let (p, res) := apiCall backend p
      ⟨Method.DELETE, Endpoint.member rosterId memberTag, Body.none⟩
    match res with
    | Except.error error =>
      p.showAlert ("Failed to remove " ++ memberTag ++ ": " ++ error.message) "error"
    | Except.ok _ =>
      let p := p.showAlert ("Removed " ++ memberTag ++ " from roster!") "success"
      if p.comparisonRosters.length > 0 then reloadComparisonData backend p
      else loadMembersDisplay backend p

/-! ## The cross-roster drop with its category selection (drag-drop.js, lines 324-447) -/

/-- How the user leaves the category-selection modal: the Cancel button, a click on the
background, or the Transfer button with the value of the checked radio button (empty for
`Uncategorized`). -/
inductive ModalChoice where
  | cancelButton : ModalChoice
  | backgroundClick : ModalChoice
  | confirm (categoryValue : String) : ModalChoice
deriving DecidableEq, Repr

/-- The function `showCategorySelectionModal` (drag-drop.js, lines 385-447) with the user's
choice: the promise is rejected with `Transfer cancelled` on either way of cancelling, and
otherwise settles as `transferMemberBetweenRosters` does. -/
def showCategorySelectionModal (backend : Backend) (p : Page) (choice : ModalChoice)
    (memberTag sourceRosterId targetRosterId : JSVal) : Page × Except String Unit :=
  let p := p.emit (Effect.dom "category selection modal shown")
  match choice with
  | ModalChoice.cancelButton =>
    (p.emit (Effect.dom "category selection modal removed"), Except.error "Transfer cancelled")
  | ModalChoice.backgroundClick =>
    (p.emit (Effect.dom "category selection modal removed"), Except.error "Transfer cancelled")
  | ModalChoice.confirm categoryValue =>
    transferMemberBetweenRosters backend
      (p.emit (Effect.dom "category selection modal removed"))
      memberTag sourceRosterId targetRosterId (orNull categoryValue)

/-- What `handleCrossRosterDrop` reads from its arguments: the id of the container, the
outcome of parsing the drag payload (the message of the error when `JSON.parse` throws), and
the `data-roster-id` of the container, if the container exists and has one. -/
structure CrossRosterDropEvent where
  containerId : String
  payload : Except String DragData
  containerRosterId : Option String

/-- The function `handleCrossRosterDrop` (drag-drop.js, lines 324-376); `choice` is how the
user leaves the modal, if it is shown. -/
def handleCrossRosterDrop (backend : Backend) (p : Page) (event : CrossRosterDropEvent)
    (choice : ModalChoice) : Page :=
  let cleanup := fun (q : Page) =>
    q.emit (Effect.dom "drop zones removed, dragged row opacity reset")
  let failed := fun (q : Page) (message : String) =>
    cleanup (q.showAlert ("Failed to transfer member: " ++ message) "error")
  match event.payload with
  | Except.error message => failed p message
  | Except.ok data =>
    if data.type ≠ JSVal.str "cross-roster" then cleanup p
    else
      let targetRosterId :=
        if event.containerRosterId.getD "" = "" ∧ event.containerId = "main-roster-content" then
          p.currentRosterId
        else event.containerRosterId.getD ""
      if targetRosterId = "" then
        failed p ("Could not determine target roster ID for container: " ++ event.containerId)
      else if !data.sourceRoster.truthy then
        failed p ("Invalid roster IDs - source: " ++ data.sourceRoster.toJSString ++
          ", target: " ++ targetRosterId)
      else
        let (p, res) := showCategorySelectionModal backend p choice data.memberTag
          data.sourceRoster (JSVal.str targetRosterId)
        match res with
        | Except.error message => failed p message
        | Except.ok _ => cleanup (reloadComparisonData backend p)

/-! ## Table rendering (member-display.js, lines 87-313)

The markup built by string concatenation is kept as structured rows and cells: a cell is the
`class` attribute and the inner markup of a `td`, a row is one `tr`. -/

/-- A clan of the server, an element of the global `serverClans`. -/
structure Clan where
  tag : String
deriving DecidableEq, Repr

/-- One `td` of a member row: a data cell with its `class` attribute and inner markup, or the
cell holding the remove button, with the function its `onclick` calls and the arguments. -/
inductive Cell where
  | data (cls : String) (content : String) : Cell
  | remove (call : String) (args : List String) : Cell
deriving DecidableEq, Repr

/-- The initial value of `cellContent`: the placeholder dash cell. -/
def placeholderCell : Cell :=
  Cell.data "px-3 py-2 text-xs text-muted-foreground text-center" "-"

/-- The string form of the value an object inherits under `key`: a built-in function, or the
prototype object for `__proto__`.  The text of a built-in function depends on the engine (the
form given is that of V8); no statement depends on it. -/
def inheritedText (key : String) : String :=
  if key = "__proto__" then "[object Object]"
  else if key = "constructor" then "function Object() \x7b [native code] \x7d"
  else "function " ++ key ++ "() \x7b [native code] \x7d"

/-- The lookup `mapping[key] || key` in an object literal whose values are non-empty strings.
For an inherited key the result is the inherited value, which later only meets string
conversions and comparisons with field names; it is kept as its string form. -/
def mapOrSelf (mapping : List (String × String)) (key : String) : String :=
  match mapping.lookup key with
  | some v => v
  | none => if key ∈ objectPrototypeKeys then inheritedText key else key

/-- The object `reverseColumnMapping` of `getCurrentDisplayColumns`. -/
def reverseColumnMapping : List (String × String) :=
  [("Name", "name"), ("Townhall Level", "townhall"), ("Tag", "tag"),
   ("30 Day Hitrate", "hitrate"), ("Clan Tag", "current_clan_tag"), ("Discord", "discord"),
   ("Heroes", "hero_lvs"), ("War Opt", "war_pref"), ("Trophies", "trophies")]

/-- The function `getCurrentDisplayColumns` (member-display.js, lines 419-438), reading the
global `currentRosterData`. -/
def getCurrentDisplayColumns (currentRosterData : Option Roster) : List String :=
  match currentRosterData with
  | none => ["townhall", "name", "tag", "hitrate"]
  | some roster =>
    match roster.columns with
    | none => ["townhall", "name", "tag", "hitrate"]
    | some columns => columns.map (mapOrSelf reverseColumnMapping)

/-- The object `columnNames` of `getColumnDisplayName`. -/
def columnNames : List (String × String) :=
  [("townhall", "TH"), ("name", "Name"), ("tag", "Tag"), ("hitrate", "Hit Rate"),
   ("current_clan_tag", "Clan"), ("discord", "Discord"), ("hero_lvs", "Heroes"),
   ("war_pref", "War Status"), ("trophies", "Trophies")]

/-- The function `getColumnDisplayName` (member-display.js, lines 300-313). -/
def getColumnDisplayName (col : String) : String := mapOrSelf columnNames col

/-- The function `createTableHeader` (member-display.js, lines 143-158): the texts of the `th`
cells, in order. -/
def createTableHeader (displayColumns : List String) : List String :=
  displayColumns.map getColumnDisplayName ++ ["Actions"]

/-- The comparison `v >= k` of a value with an integer.  A string is first converted to a
number by the host (`toNumber`, where `none` stands for NaN); a comparison with NaN is
false. -/
def jsGe (toNumber : String → Option ℚ) (v : JSVal) (k : Int) : Bool :=
  match v with
  | JSVal.num n => decide (k ≤ n)
  | JSVal.dec value _ => decide ((k : ℚ) ≤ value)
  | JSVal.bool b => decide (k ≤ (if b then 1 else 0))
  | JSVal.str s =>
    match toNumber s with
    | some n => decide (k ≤ n)
    | none => false
  | JSVal.null => decide (k ≤ 0)
  | JSVal.undefined => false

/-- The call `s.replace(/[<>@!]/g, '')`. -/
def stripMention (s : String) : String :=
  String.mk (s.data.filter (fun c => !(c = '<' || c = '>' || c = '@' || c = '!')))

/-- The body of the `forEach` over `displayColumns` in `createMemberCard` (member-display.js,
lines 173-241): the cell pushed for column `col`.  The only statement that can throw is the
call of `replace` on a `discord` value that is truthy but not a string. -/
def memberCell (currentRosterData : Option Roster) (serverClans : Option (List Clan))
    (toNumber : String → Option ℚ) (member : Member) (col : String) : Except String Cell :=
  match col with
  | "townhall" =>
    if !(member.get "townhall").isNullish then
      Except.ok (Cell.data "px-3 py-2 text-xs text-orange-400 font-medium text-center"
        ("TH" ++ (member.get "townhall").toJSString))
    else Except.ok placeholderCell
  | "name" =>
    if (member.get "name").truthy then
      let nameWithSub :=
        if (member.get "sub").truthy then
          (member.get "name").toJSString ++
            " <span class=\"text-xs text-yellow-600\">(Sub)</span>"
        else (member.get "name").toJSString
      Except.ok (Cell.data "px-3 py-2 text-xs text-white font-medium text-center" nameWithSub)
    else Except.ok placeholderCell
  | "tag" =>
    if (member.get "tag").truthy then
      Except.ok (Cell.data "px-3 py-2 text-xs text-muted-foreground font-mono text-center"
        (member.get "tag").toJSString)
    else Except.ok placeholderCell
  | "hitrate" =>
    if !(member.get "hitrate").isNullish then
      let hitColor :=
        if jsGe toNumber (member.get "hitrate") 80 then "text-green-400"
        else if jsGe toNumber (member.get "hitrate") 60 then "text-yellow-400"
        else "text-red-400"
      Except.ok (Cell.data ("px-3 py-2 text-xs " ++ hitColor ++ " font-medium text-center")
        ((member.get "hitrate").toJSString ++ "%"))
    else Except.ok placeholderCell
  | "current_clan_tag" =>
    if (member.get "current_clan_tag").truthy &&
        decide (member.get "current_clan_tag" ≠ JSVal.str "#") then
      let colorClass :=
        match currentRosterData with
        | some roster =>
          if roster.clan_tag.map JSVal.str = some (member.get "current_clan_tag") then
            "text-green-400"
          else if (serverClans.getD []).any
              (fun clan => decide (JSVal.str clan.tag = member.get "current_clan_tag")) then
            "text-yellow-400"
          else "text-red-400"
        | none =>
          if (serverClans.getD []).any
              (fun clan => decide (JSVal.str clan.tag = member.get "current_clan_tag")) then
            "text-yellow-400"
          else "text-red-400"
      Except.ok (Cell.data ("px-3 py-2 text-xs " ++ colorClass ++ " font-mono text-center")
        (member.get "current_clan_tag").toJSString)
    else Except.ok placeholderCell
  | "discord" =>
    if (member.get "discord").truthy &&
        decide (member.get "discord" ≠ JSVal.str "No User") then
      match member.get "discord" with
      | JSVal.str s =>
        Except.ok (Cell.data "px-3 py-2 text-xs text-blue-400 text-center"
          ("@" ++ stripMention s))
      | _ => Except.error "TypeError: member.discord.replace is not a function"
    else Except.ok placeholderCell
  | "hero_lvs" =>
    if !(member.get "hero_lvs").isNullish then
      Except.ok (Cell.data "px-3 py-2 text-xs text-purple-400 text-center"
        (member.get "hero_lvs").toJSString)
    else Except.ok placeholderCell
  | "war_pref" =>
    let warStatus := if (member.get "war_pref").truthy then "⚔️ In" else "🚫 Out"
    let warColor := if (member.get "war_pref").truthy then "text-green-400" else "text-red-400"
    Except.ok (Cell.data ("px-3 py-2 text-xs " ++ warColor ++ " text-center") warStatus)
  | "trophies" =>
    if !(member.get "trophies").isNullish then
      Except.ok (Cell.data "px-3 py-2 text-xs text-yellow-400 text-center"
        ((member.get "trophies").toJSString ++ " 🏆"))
    else Except.ok placeholderCell
  | _ => Except.ok placeholderCell

/-- One `tr` of class `member-row`: its `data-member-tag`, its cells, and for a row of a
comparison table its `data-source-roster` and whether it is marked as a duplicate. -/
structure MemberRow where
  memberTag : String
  cells : List Cell
  sourceRoster : Option String := none
  duplicate : Bool := false
deriving DecidableEq, Repr

/-- The function `createMemberCard` (member-display.js, lines 169-258): the cells of the
columns in order, then the cell with the remove button. -/
def createMemberCard (currentRosterData : Option Roster) (serverClans : Option (List Clan))
    (toNumber : String → Option ℚ) (member : Member) (displayColumns : List String) :
    Except String MemberRow :=
  match displayColumns.mapM (memberCell currentRosterData serverClans toNumber member) with
  | Except.error e => Except.error e
  | Except.ok columnData =>
    Except.ok
      { memberTag := member.tag,
        cells := columnData ++ [Cell.remove "removeMember" [member.tag]] }

/-- One `tr` of the table body. -/
inductive TableRow where
  /-- A row of class `group-separator`: the name in its `h4`, the count it shows and its
  `colspan`. -/
  | separator (categoryName : String) (categoryCount : Nat) (colspan : Nat) : TableRow
  /-- A hidden row of class `empty-drop-row`: the category id passed to `handleDrop`, its
  `colspan` and the name in its text. -/
  | emptyDrop (categoryId : String) (colspan : Nat) (target : String) : TableRow
  /-- A member row. -/
  | member (row : MemberRow) : TableRow
deriving DecidableEq, Repr

/-- The text of the count in a separator row:
the count, then `member`, then `s` unless the count is 1. -/
def memberCountText (categoryCount : Nat) : String :=
  toString categoryCount ++ " member" ++ (if categoryCount ≠ 1 then "s" else "")

/-- The function `createGroupSeparator` (member-display.js, lines 261-276); the `colspan` is
one more than the number of columns of `getCurrentDisplayColumns()`. -/
def createGroupSeparator (currentRosterData : Option Roster) (categoryName : String)
    (categoryCount : Nat) : TableRow :=
  TableRow.separator categoryName categoryCount
    ((getCurrentDisplayColumns currentRosterData).length + 1)

/-- The function `createEmptyDropRow` (member-display.js, lines 279-297). -/
def createEmptyDropRow (currentRosterData : Option Roster) (categories : List Category)
    (categoryId : String) : TableRow :=
  TableRow.emptyDrop categoryId ((getCurrentDisplayColumns currentRosterData).length + 1)
    (if categoryId ≠ "" then
      match categories.find? (fun c => decide (c.custom_id = categoryId)) with
      | some c => if c.aliasName = "" then "category" else c.aliasName
      | none => "category"
    else "uncategorized")

/-- The table built by `loadMembersDisplay`: the header cells and the rows of the body. -/
structure MembersTable where
  header : List String
  body : List TableRow
deriving DecidableEq, Repr

/-- The rows added for the uncategorized members (member-display.js, lines 96-102). -/
def uncategorizedRows (currentRosterData : Option Roster) (serverClans : Option (List Clan))
    (toNumber : String → Option ℚ) (categories : List Category)
    (uncategorizedMembers : List Member) : Except String (List TableRow) :=
  if uncategorizedMembers.length > 0 then
    match uncategorizedMembers.mapM (fun member =>
      createMemberCard currentRosterData serverClans toNumber member
        (getCurrentDisplayColumns currentRosterData)) with
    | Except.error e => Except.error e
    | Except.ok rows =>
      Except.ok (createGroupSeparator currentRosterData "Uncategorized"
          uncategorizedMembers.length ::
        createEmptyDropRow currentRosterData categories "" :: rows.map TableRow.member)
  else Except.ok []

/-- The rows added for one category (member-display.js, lines 105-112).  For a `custom_id`
naming an inherited property, `membersByCategory[category.custom_id] || []` is the inherited
value and the call of its missing `forEach` throws. -/
def categoryRows (currentRosterData : Option Roster) (serverClans : Option (List Clan))
    (toNumber : String → Option ℚ) (categories : List Category) (g : Grouping)
    (category : Category) : Except String (List TableRow) :=
  if category.custom_id ∈ objectPrototypeKeys then
    Except.error "TypeError: categoryMembers.forEach is not a function"
  else
    let categoryMembers := g.categoryMembers category.custom_id
    match categoryMembers.mapM (fun member =>
      createMemberCard currentRosterData serverClans toNumber member
        (getCurrentDisplayColumns currentRosterData)) with
    | Except.error e => Except.error e
    | Except.ok rows =>
      Except.ok (createGroupSeparator currentRosterData category.aliasName
          categoryMembers.length ::
        createEmptyDropRow currentRosterData categories category.custom_id ::
        rows.map TableRow.member)

/-- The table `loadMembersDisplay` builds from `sortedMembers` (member-display.js, lines
72-114): grouping, header, the uncategorized rows when there are any, then the rows of each
category of the global `categories` in order.  An error is the exception that sends the
function to its `catch` clause. -/
def membersTable (currentRosterData : Option Roster) (serverClans : Option (List Clan))
    (toNumber : String → Option ℚ) (categories : List Category)
    (sortedMembers : List Member) : Except String MembersTable :=
  match groupMembers sortedMembers with
  | Except.error e => Except.error e
  | Except.ok g =>
    match uncategorizedRows currentRosterData serverClans toNumber categories
        g.uncategorizedMembers with
    | Except.error e => Except.error e
    | Except.ok first =>
      match categories.mapM
          (categoryRows currentRosterData serverClans toNumber categories g) with
      | Except.error e => Except.error e
      | Except.ok sections =>
        Except.ok
          { header := createTableHeader (getCurrentDisplayColumns currentRosterData),
            body := first ++ sections.flatten }

/-- The number of columns a row of the body takes: its `colspan`, or its number of cells. -/
def TableRow.width : TableRow → Nat
  | TableRow.separator _ _ colspan => colspan
  | TableRow.emptyDrop _ colspan _ => colspan
  | TableRow.member row => row.cells.length

/-- The members on whose `discord` value the call of `replace` cannot throw: the value is
falsy (missing, null, empty) or it is a string. -/
def discordRenders (member : Member) : Prop :=
  (member.get "discord").truthy = false ∨ ∃ s, member.get "discord" = JSVal.str s

/-! ## Member rows of the comparison tables (main.js, lines 675-760) -/

/-- The body of the `forEach` over `displayColumns` in `createMemberCardForComparison`
(main.js, lines 677-737).  The texts of the `war_pref` and `trophies` cells are those of the
source file. -/
def memberCellForComparison (currentRosterData : Option Roster)
    (serverClans : Option (List Clan)) (toNumber : String → Option ℚ) (member : Member)
    (col : String) : Except String Cell :=
  match col with
  | "townhall" =>
    if !(member.get "townhall").isNullish then
      Except.ok (Cell.data "px-3 py-2 text-xs text-orange-400 font-medium text-center"
        ("TH" ++ (member.get "townhall").toJSString))
    else Except.ok placeholderCell
  | "name" =>
    if (member.get "name").truthy then
      let nameWithSub :=
        if (member.get "sub").truthy then
          (member.get "name").toJSString ++
            " <span class=\"text-xs text-yellow-600\">(Sub)</span>"
        else (member.get "name").toJSString
      Except.ok (Cell.data "px-3 py-2 text-xs text-white font-medium text-center" nameWithSub)
    else Except.ok placeholderCell
  | "tag" =>
    if (member.get "tag").truthy then
      Except.ok (Cell.data "px-3 py-2 text-xs text-muted-foreground font-mono text-center"
        (member.get "tag").toJSString)
    else Except.ok placeholderCell
  | "hitrate" =>
    if !(member.get "hitrate").isNullish then
      let hitColor :=
        if jsGe toNumber (member.get "hitrate") 80 then "text-green-400"
        else if jsGe toNumber (member.get "hitrate") 60 then "text-yellow-400"
        else "text-red-400"
      Except.ok (Cell.data ("px-3 py-2 text-xs " ++ hitColor ++ " font-medium text-center")
        ((member.get "hitrate").toJSString ++ "%"))
    else Except.ok placeholderCell
  | "current_clan_tag" =>
    if (member.get "current_clan_tag").truthy &&
        decide (member.get "current_clan_tag" ≠ JSVal.str "#") then
      let colorClass :=
        match currentRosterData with
        | some roster =>
          if roster.clan_tag.map JSVal.str = some (member.get "current_clan_tag") then
            "text-green-400"
          else if (serverClans.getD []).any
              (fun clan => decide (JSVal.str clan.tag = member.get "current_clan_tag")) then
            "text-yellow-400"
          else "text-red-400"
        | none =>
          if (serverClans.getD []).any
              (fun clan => decide (JSVal.str clan.tag = member.get "current_clan_tag")) then
            "text-yellow-400"
          else "text-red-400"
      Except.ok (Cell.data ("px-3 py-2 text-xs " ++ colorClass ++ " font-mono text-center")
        (member.get "current_clan_tag").toJSString)
    else Except.ok placeholderCell
  | "discord" =>
    if (member.get "discord").truthy &&
        decide (member.get "discord" ≠ JSVal.str "No User") then
      match member.get "discord" with
      | JSVal.str s =>
        Except.ok (Cell.data "px-3 py-2 text-xs text-blue-400 text-center"
          ("@" ++ stripMention s))
      | _ => Except.error "TypeError: member.discord.replace is not a function"
    else Except.ok placeholderCell
  | "hero_lvs" =>
    if !(member.get "hero_lvs").isNullish then
      Except.ok (Cell.data "px-3 py-2 text-xs text-purple-400 text-center"
        (member.get "hero_lvs").toJSString)
    else Except.ok placeholderCell
  | "war_pref" =>
    let warStatus :=
      if (member.get "war_pref").truthy then "‚öîÔ∏è In"
      else "üö´ Out"
    let warColor := if (member.get "war_pref").truthy then "text-green-400" else "text-red-400"
    Except.ok (Cell.data ("px-3 py-2 text-xs " ++ warColor ++ " text-center") warStatus)
  | "trophies" =>
    if !(member.get "trophies").isNullish then
      Except.ok (Cell.data "px-3 py-2 text-xs text-yellow-400 text-center"
        ((member.get "trophies").toJSString ++ " üèÜ"))
    else Except.ok placeholderCell
  | _ => Except.ok placeholderCell

/-- The function `createMemberCardForComparison` (main.js, lines 675-760); `duplicateMembers`
is the set of duplicate tags, or `none` when the argument is null. -/
def createMemberCardForComparison (currentRosterData : Option Roster)
    (serverClans : Option (List Clan)) (toNumber : String → Option ℚ) (member : Member)
    (displayColumns : List String) (sourceRosterId : String)
    (duplicateMembers : Option (List String)) : Except String MemberRow :=
  match displayColumns.mapM
      (memberCellForComparison currentRosterData serverClans toNumber member) with
  | Except.error e => Except.error e
  | Except.ok columnData =>
    Except.ok
      { memberTag := member.tag,
        cells := columnData ++
          [Cell.remove "removeMemberFromRoster" [member.tag, sourceRosterId]],
        sourceRoster := some sourceRosterId,
        duplicate := decide (member.tag ∈ duplicateMembers.getD []) }

/-- Between the page states `p` and `q` requests were only added, and no GET among them. -/
def NoNewGet (p q : Page) : Prop :=
  ∃ extra, q.requests = p.requests ++ extra ∧ ∀ r ∈ extra, r.method ≠ Method.GET

/-! ## The display configuration (member-display.js, lines 352-458) -/

/-- The four `select` elements `column-1` to `column-4`, or `sort-1` to `sort-4`: the value of
each, or `none` when the element is not in the document. -/
structure SelectorSlots where
  slot1 : Option String
  slot2 : Option String
  slot3 : Option String
  slot4 : Option String

/-- The values of the four slots in the order of the loop `for (let i = 1; i <= 4; i++)`. -/
def SelectorSlots.values (slots : SelectorSlots) : List (Option String) :=
  [slots.slot1, slots.slot2, slots.slot3, slots.slot4]

/-- The array filled by one loop of `saveDisplayConfiguration`: the value of each slot for
which `select && select.value` holds, in slot order. -/
def selectedValues (slots : SelectorSlots) : List String :=
  slots.values.filterMap (fun select =>
    match select with
    | some value => if value ≠ "" then some value else none
    | none => none)

/-- The object `columnMapping` of `saveDisplayConfiguration`. -/
def columnMapping : List (String × String) :=
  [("townhall", "townhall"), ("name", "name"), ("tag", "tag"), ("hitrate", "hitrate"),
   ("current_clan_tag", "current_clan_tag"), ("discord", "discord"), ("hero_lvs", "hero_lvs"),
   ("war_pref", "war_pref"), ("trophies", "trophies")]

/-- The function `saveDisplayConfiguration` (member-display.js, lines 352-403), up to its
return.  The function is not `async`: it stores the two lists in `currentRosterData` when
there is one, issues the PATCH of `saveRosterDisplaySettings` and the GET of
`loadMembersDisplay` (none without a current roster id) without waiting for either, closes
the panel and shows the alert; the two answers are handled after it has returned.  A selector
value naming an inherited object property is replaced by the inherited value, kept as its
string form (see `mapOrSelf`). -/
def saveDisplayConfiguration (p : Page) (columnSlots sortSlots : SelectorSlots) : Page :=
  let selectedColumns := selectedValues columnSlots
  let sortConfig := selectedValues sortSlots
  let apiColumns := selectedColumns.map (mapOrSelf columnMapping)
  let apiSort := sortConfig.map (mapOrSelf columnMapping)
  let p := { p with
    currentRosterData := p.currentRosterData.map (fun (roster : Roster) =>
      { roster with columns := some apiColumns, sort := some apiSort }) }
  let p := p.emit (Effect.request
    ⟨Method.PATCH, Endpoint.roster p.currentRosterId, Body.displaySettings apiColumns apiSort⟩)
  let p :=
    if p.currentRosterId = "" then p
    else p.emit (Effect.request ⟨Method.GET, Endpoint.roster p.currentRosterId, Body.none⟩)
  let p := p.emit (Effect.dom "display-config-content toggled")
  p.showAlert "Display configuration saved!" "success"

/-- The object `reverseSortMapping` of `getCurrentSortConfig`. -/
def reverseSortMapping : List (String × String) :=
  [("Townhall Level", "townhall"), ("Name", "name"), ("Tag", "tag"), ("Heroes", "hero_lvs"),
   ("Trophies", "trophies"), ("30 Day Hitrate", "hitrate"), ("Clan Tag", "current_clan_tag"),
   ("Added At", "added_at")]

/-- The function `getCurrentSortConfig` (member-display.js, lines 440-458), reading the global
`currentRosterData`. -/
def getCurrentSortConfig (currentRosterData : Option Roster) : List String :=
  match currentRosterData with
  | none => ["townhall", "name"]
  | some roster =>
    match roster.sort with
    | none => ["townhall", "name"]
    | some sort => sort.map (mapOrSelf reverseSortMapping)

/-! ## Sorting in the comparison tables (main.js, lines 507-632) -/

/-- The object `reverseSortMapping` of `getCurrentSortConfigForRoster`. -/
def reverseSortMappingForRoster : List (String × String) :=
  [("Townhall Level", "townhall"), ("Name", "name"), ("Tag", "tag"), ("Heroes", "hero_lvs"),
   ("Trophies", "trophies"), ("30 Day Hitrate", "hitrate"), ("Clan Tag", "current_clan_tag"),
   ("Added At", "added_at")]

/-- The function `getCurrentSortConfigForRoster` (main.js, lines 615-632). -/
def getCurrentSortConfigForRoster (roster : Roster) : List String :=
  match roster.sort with
  | none => ["townhall", "name"]
  | some sort => sort.map (mapOrSelf reverseSortMappingForRoster)

/-- The comparator passed to `sort` in `loadMembersTableInContainer` (main.js, lines
509-543). -/
def compareMembersInContainer (env : JSEnv) : List String → Member → Member → Int
  | [], _, _ => 0
  | field :: rest, a, b =>
    if field = "" then compareMembersInContainer env rest a b
    else
      let valueA := a.get field
      let valueB := b.get field
      if valueA.isNullish && valueB.isNullish then compareMembersInContainer env rest a b
      else if valueA.isNullish then 1
      else if valueB.isNullish then -1
      else
        let isDate := field == "added_at" || includes field "date" || includes field "time"
        match valueA, valueB with
        | JSVal.str sa, JSVal.str sb =>
          let comparison :=
            if isDate then env.localeCompare (env.toLowerCase sa) (env.toLowerCase sb)
            else env.localeCompare (env.toLowerCase sb) (env.toLowerCase sa)
          if comparison ≠ 0 then comparison else compareMembersInContainer env rest a b
        | JSVal.num na, JSVal.num nb =>
          if na ≠ nb then (if isDate then na - nb else nb - na)
          else compareMembersInContainer env rest a b
        | JSVal.num na, JSVal.dec qb _ =>
          if (na : ℚ) ≠ qb then
            (if isDate then differenceSign na qb else differenceSign qb na)
          else compareMembersInContainer env rest a b
        | JSVal.dec qa _, JSVal.num nb =>
          if qa ≠ (nb : ℚ) then
            (if isDate then differenceSign qa nb else differenceSign nb qa)
          else compareMembersInContainer env rest a b
        | JSVal.dec qa _, JSVal.dec qb _ =>
          if qa ≠ qb then
            (if isDate then differenceSign qa qb else differenceSign qb qa)
          else compareMembersInContainer env rest a b
        | _, _ =>
          let strA := env.toLowerCase valueA.toJSString
          let strB := env.toLowerCase valueB.toJSString
          let comparison :=
            if isDate then env.localeCompare strA strB else env.localeCompare strB strA
          if comparison ≠ 0 then comparison else compareMembersInContainer env rest a b

/-- The list `sortedMembers` of `loadMembersTableInContainer` for a roster with members. -/
def sortMembersInContainer (env : JSEnv) (roster : Roster) (members : List Member) :
    List Member :=
  arraySort (compareMembersInContainer env (getCurrentSortConfigForRoster roster)) members

/-! ## Starting and leaving a comparison (main.js, lines 236-279) -/

/-- The function `cancelComparison` (main.js, lines 237-242): it clears the flags and the
property `window.comparisonRosters`, removes the panel and reloads the page.  The variable
`comparisonRosters`, declared with `let`, is not that property and keeps its value until the
page is gone. -/
def cancelComparison (p : Page) : Page :=
  p.emit (Effect.dom "comparison panel removed, page reload requested")

/-- The function `startComparison` (main.js, lines 245-279); `roster1Id` and `roster2Id` are
the values of the two selectors, and `layout` is the outcome of the call
`showComparisonLayout()`: the message of the exception when it throws. -/
def startComparison (backend : Backend) (p : Page) (roster1Id roster2Id : String)
    (layout : Except String Unit) : Page :=
  let failed := fun (q : Page) (message : String) =>
    cancelComparison (q.showAlert ("Failed to load comparison rosters: " ++ message) "error")
  let showComparisonLayout := fun (q : Page) =>
    match layout with
    | Except.ok _ => q.emit (Effect.dom "comparison layout shown")
    | Except.error message => failed q message
  if roster1Id = "" then
    p.showAlert "Please select at least one roster for comparison" "error"
  else
    let p := p.emit (Effect.dom "comparison-panel removed")
    let p := { p with comparisonRosters := [] }
    let (p, res1) := apiCall backend p ⟨Method.GET, Endpoint.roster roster1Id, Body.none⟩
    match res1 with
    | Except.error error => failed p error.message
    | Except.ok response1 =>
      let p := { p with comparisonRosters := p.comparisonRosters ++ [response1.roster] }
      if roster2Id ≠ "" then
        let (p, res2) := apiCall backend p ⟨Method.GET, Endpoint.roster roster2Id, Body.none⟩
        match res2 with
        | Except.error error => failed p error.message
        | Except.ok response2 =>
          showComparisonLayout
            { p with comparisonRosters := p.comparisonRosters ++ [response2.roster] }
      else showComparisonLayout p

/-- The rosters held in memory: the array `[currentRosterData, ...comparisonRosters]`. -/
def heldRosters (p : Page) : List (Option Roster) :=
  p.currentRosterData :: p.comparisonRosters

/-- The page states reached from a freshly loaded page, where `comparisonRosters` is the empty
array of its declaration, by calls of `startComparison`, `reloadComparisonData` and
`cancelComparison`, each run to its end before the next begins, with any backend and any
selector values. -/
inductive ComparisonReachable : Page → Prop where
  | loaded (p : Page) (h : p.comparisonRosters = []) : ComparisonReachable p
  | started (backend : Backend) (p : Page) (roster1Id roster2Id : String)
      (layout : Except String Unit) (h : ComparisonReachable p) :
      ComparisonReachable (startComparison backend p roster1Id roster2Id layout)
  | reloaded (backend : Backend) (p : Page) (h : ComparisonReachable p) :
      ComparisonReachable (reloadComparisonData backend p)
  | cancelled (p : Page) (h : ComparisonReachable p) :
      ComparisonReachable (cancelComparison p)

/-! ## Handlers between their `await`s (main.js, lines 245-279 and 424-453)

An `async` handler runs without interruption from one `await` to the next.  While it waits
for an answer the page stays live: a click can start another handler, and the answers resume
the waiting handlers in the order they arrive.  All of them read and write the one variable
`comparisonRosters`. -/

/-- A run of `startComparison` or `reloadComparisonData` waiting for the answer to the request
it has issued. -/
inductive Suspended where
  /-- A run of `startComparison` waiting for the first roster; `roster2Id` is the value it has
  read from the second selector. -/
  | startFirst (roster2Id : String) : Suspended
  /-- A run of `startComparison` waiting for the second roster. -/
  | startSecond : Suspended
  /-- A run of `reloadComparisonData` waiting for the current roster. -/
  | reloadMain : Suspended
  /-- A run of `reloadComparisonData` waiting for the roster of index `i`. -/
  | reloadEntry (i : Nat) : Suspended
deriving DecidableEq, Repr

/-- The assignment `comparisonRosters[i] = roster`: an index at or beyond the length lengthens
the array, the entries skipped being empty. -/
def setIndex (rosters : List (Option Roster)) (i : Nat) (roster : Option Roster) :
    List (Option Roster) :=
  if i < rosters.length then rosters.set i roster
  else rosters ++ List.replicate (i - rosters.length) none ++ [roster]

/-- The run of `startComparison` up to its first `await` (main.js, lines 246-263). -/
def startComparisonBegin (p : Page) (roster1Id roster2Id : String) :
    Page × Option Suspended :=
  if roster1Id = "" then
    (p.showAlert "Please select at least one roster for comparison" "error", none)
  else
    let p := p.emit (Effect.dom "comparison-panel removed")
    let p := { p with comparisonRosters := [] }
    (p.emit (Effect.request ⟨Method.GET, Endpoint.roster roster1Id, Body.none⟩),
      some (Suspended.startFirst roster2Id))

/-- The run of `reloadComparisonData` up to its first `await` (main.js, lines 425-429). -/
def reloadComparisonDataBegin (p : Page) : Page × Option Suspended :=
  (p.emit (Effect.request ⟨Method.GET, Endpoint.roster p.currentRosterId, Body.none⟩),
    some Suspended.reloadMain)

/-- The loop of `reloadComparisonData` from its test at index `i` to the next `await` or to
the end of the function (main.js, lines 433-442). -/
def reloadComparisonLoop (p : Page) (i : Nat) : Page × Option Suspended :=
  if i < p.comparisonRosters.length then
    match p.comparisonRosters.getD i none with
    | none =>
      (p.showAlert ("Failed to refresh display: " ++
        "TypeError: cannot read properties of undefined (reading 'id')") "error", none)
    | some roster =>
      (p.emit (Effect.request ⟨Method.GET, Endpoint.roster (rosterUrlId roster), Body.none⟩),
        some (Suspended.reloadEntry i))
  else (p.emit Effect.renderComparison, none)

/-- A waiting run is resumed by the answer to its request and runs to its next `await` or to
its end; `layout` is the outcome of `showComparisonLayout()` if the run calls it. -/
def resume (p : Page) (run : Suspended) (answer : ApiResult) (layout : Except String Unit) :
    Page × Option Suspended :=
  let failed := fun (q : Page) (message : String) =>
    cancelComparison (q.showAlert ("Failed to load comparison rosters: " ++ message) "error")
  let showComparisonLayout := fun (q : Page) =>
    match layout with
    | Except.ok _ => q.emit (Effect.dom "comparison layout shown")
    | Except.error message => failed q message
  match run, answer with
  | Suspended.startFirst _, Except.error error => (failed p error.message, none)
  | Suspended.startFirst roster2Id, Except.ok response1 =>
    let p := { p with comparisonRosters := p.comparisonRosters ++ [response1.roster] }
    if roster2Id ≠ "" then
      (p.emit (Effect.request ⟨Method.GET, Endpoint.roster roster2Id, Body.none⟩),
        some Suspended.startSecond)
    else (showComparisonLayout p, none)
  | Suspended.startSecond, Except.error error => (failed p error.message, none)
  | Suspended.startSecond, Except.ok response2 =>
    (showComparisonLayout
      { p with comparisonRosters := p.comparisonRosters ++ [response2.roster] }, none)
  | Suspended.reloadMain, Except.error error =>
    (p.showAlert ("Failed to refresh display: " ++ error.message) "error", none)
  | Suspended.reloadMain, Except.ok response =>
    reloadComparisonLoop { p with currentRosterData := response.roster } 0
  | Suspended.reloadEntry _, Except.error error =>
    (p.showAlert ("Failed to refresh display: " ++ error.message) "error", none)
  | Suspended.reloadEntry i, Except.ok response =>
    reloadComparisonLoop
      { p with comparisonRosters := setIndex p.comparisonRosters i response.roster } (i + 1)

/-- The page states, each with the runs that are waiting, reached from a freshly loaded page
when a click starts `startComparison` or `reloadComparisonData` at any moment and each
arriving answer resumes the run that waits for it; `cancelComparison` reloads the page, which
ends the waiting runs. -/
inductive InterleavedReachable : Page → List Suspended → Prop where
  | loaded (p : Page) (h : p.comparisonRosters = []) : InterleavedReachable p []
  | started (p : Page) (runs : List Suspended) (roster1Id roster2Id : String)
      (h : InterleavedReachable p runs) :
      InterleavedReachable (startComparisonBegin p roster1Id roster2Id).1
        (runs ++ (startComparisonBegin p roster1Id roster2Id).2.toList)
  | reloading (p : Page) (runs : List Suspended) (h : InterleavedReachable p runs) :
      InterleavedReachable (reloadComparisonDataBegin p).1
        (runs ++ (reloadComparisonDataBegin p).2.toList)
  | answered (p : Page) (before after : List Suspended) (run : Suspended)
      (answer : ApiResult) (layout : Except String Unit)
      (h : InterleavedReachable p (before ++ run :: after)) :
      InterleavedReachable (resume p run answer layout).1
        (before ++ after ++ (resume p run answer layout).2.toList)
  | cancelled (p : Page) (runs : List Suspended) (h : InterleavedReachable p runs) :
      InterleavedReachable (cancelComparison p) []

/-! ## The tag counter of the bulk form (member-search.js, lines 128-153) -/

/-- What `validateBulkTags` writes: the text of `bulk-tags-count`, whether the class
`text-yellow-600` is added (`some true`), removed (`some false`) or left as it is, and
whether the add button is disabled. -/
structure BulkTagsStatus where
  countText : String
  warning : Option Bool
  addDisabled : Bool
deriving DecidableEq, Repr

/-- The function `validateBulkTags` (member-search.js, lines 128-153) for the given value of
the text area. -/
def validateBulkTags (textareaValue : String) : BulkTagsStatus :=
  let text := String.mk (jsTrim textareaValue.data)
  if text = "" then ⟨"0 tags detected", none, true⟩
  else
    let tags := extractTagsFromText text
    let validTags := tags.filter isValidTag
    if tags.length > validTags.length then
      ⟨toString validTags.length ++ " valid tags detected" ++
        " (" ++ toString (tags.length - validTags.length) ++ " invalid)",
        some true, decide (validTags.length = 0)⟩
    else
      ⟨toString validTags.length ++ " valid tags detected", some false,
        decide (validTags.length = 0)⟩

/-! ## The counts of the roster summary (roster-utils.js, lines 45-68) -/

/-- The array `members` of `createRosterInfoDisplay`: `roster.members || []`. -/
def rosterMembers (roster : Roster) : List Member := roster.members.getD []

/-- The test `roster.clan_tag && m.current_clan_tag === roster.clan_tag`. -/
def inRosterClan (roster : Roster) (m : Member) : Bool :=
  match roster.clan_tag with
  | some clanTag => clanTag != "" && decide (m.get "current_clan_tag" = JSVal.str clanTag)
  | none => false

/-- The value `clanCount` of `createRosterInfoDisplay`. -/
def clanCount (roster : Roster) : Nat :=
  match roster.clan_tag with
  | some clanTag =>
    if clanTag ≠ "" then
      ((rosterMembers roster).filter
        (fun m => decide (m.get "current_clan_tag" = JSVal.str clanTag))).length
    else 0
  | none => 0

/-- The value `familyCount` of `createRosterInfoDisplay`, reading the global `serverClans`
(`none` when it is null or undefined). -/
def familyCount (serverClans : Option (List Clan)) (roster : Roster) : Nat :=
  ((rosterMembers roster).filter (fun m =>
    if !(m.get "current_clan_tag").truthy || decide (m.get "current_clan_tag" = JSVal.str "#")
    then false
    else if inRosterClan roster m then false
    else
      match serverClans with
      | some clans =>
        clans.any (fun clan => decide (JSVal.str clan.tag = m.get "current_clan_tag"))
      | none => false)).length

/-- The value `externalCount` of `createRosterInfoDisplay`: a difference of numbers, which
nothing in the function keeps from being negative. -/
def externalCount (serverClans : Option (List Clan)) (roster : Roster) : Int :=
  ((rosterMembers roster).length : Int) - (clanCount roster : Int)
    - (familyCount serverClans roster : Int)

/-! ## Adding one member from the search field (member-search.js, lines 54-111) -/

/-- The function `selectMember` (member-search.js, lines 55-59): the text it writes into the
search field. -/
def selectMember (tag name : String) : String :=
  name ++ " (" ++ tag ++ ")"

/-- The line terminators, which `.` does not match in a pattern without the flag `s`. -/
def isLineTerminator (c : Char) : Bool :=
  decide (c.toNat ∈ [10, 13, 8232, 8233])

/-- A match of the tail `\s*\((#[A-Z0-9]+)\)$` of the pattern at the start of `s`, returning
the second group.  The quantifiers are greedy, and neither can give a character back: `(` is
not white space and `)` is not in the class. -/
def matchTagSuffix (s : List Char) : Option (List Char) :=
  match s.dropWhile isJSWhitespace with
  | '(' :: '#' :: rest =>
    if 1 ≤ (rest.takeWhile isTagChar).length ∧ rest.dropWhile isTagChar = [')'] then
      some ('#' :: rest.takeWhile isTagChar)
    else none
  | _ => none

/-- The call `searchValue.match(/^(.+?)\s*\((#[A-Z0-9]+)\)$/)`, returning the second group of
the match.  The first group is lazy: it takes one character that is not a line terminator,
and one more each time the tail of the pattern does not match what follows. -/
def searchTagMatch : List Char → Option (List Char)
  | [] => none
  | c :: cs =>
    if isLineTerminator c then none
    else
      match matchTagSuffix cs with
      | some tag => some tag
      | none => searchTagMatch cs

/-- The value of `playerTag` in `addMemberDirectly` for a non-empty `searchValue`;
`toUpperCase` is the host function of that name. -/
def playerTagOf (toUpperCase : String → String) (searchValue : String) : String :=
  match searchTagMatch searchValue.data with
  | some tag => String.mk tag
  | none =>
    if searchValue.data.head? = some '#' then searchValue
    else "#" ++ toUpperCase searchValue

/-- The function `addMemberDirectly` (member-search.js, lines 70-111); `inputValue` and
`categoryValue` are the values of the search field and of the category selector. -/
def addMemberDirectly (backend : Backend) (toUpperCase : String → String) (p : Page)
    (inputValue categoryValue : String) : Page :=
  let searchValue := String.mk (jsTrim inputValue.data)
  if searchValue = "" then p.showAlert "Please enter a player name or tag" "error"
  else
    let playerTag := playerTagOf toUpperCase searchValue
    let selectedCategory := orNull categoryValue
    let (p, res) := apiCall backend p
      ⟨Method.POST, Endpoint.members p.currentRosterId,
        Body.add [⟨JSVal.str playerTag, selectedCategory⟩]⟩
    match res with
    | Except.error error => handleMemberAddError p error [playerTag]
    | Except.ok _ =>
      let p := p.showAlert ("Successfully added " ++ playerTag ++ "!") "success"
      let p := p.emit (Effect.dom "member-search cleared")
      loadMembersDisplay backend p

/-! ## Consistency of the host string comparison -/

/-- The host comparison orders strings consistently: swapping the arguments swaps the sign,
and `<= 0` is transitive. -/
def ConsistentCompare (env : JSEnv) : Prop :=
  (∀ s t, (env.localeCompare s t < 0 ↔ 0 < env.localeCompare t s)) ∧
  (∀ s t u, env.localeCompare s t ≤ 0 → env.localeCompare t u ≤ 0 →
    env.localeCompare s u ≤ 0)

/-- The values of `field` in the members `ms` are of one kind for the comparator: none of them
is a number, or each of them is a number, null or undefined. -/
def SameKind (field : String) (ms : List Member) : Prop :=
  (∀ m ∈ ms, (m.get field).isNumber = false) ∨
  (∀ m ∈ ms, (m.get field).isNullish = true ∨ (m.get field).isNumber = true)

/-! ## Concrete inputs of the examples -/

/-- The order of two character lists by code points: -1, 0 or 1. -/
def compareChars : List Char → List Char → Int
  | [], [] => 0
  | [], _ :: _ => -1
  | _ :: _, [] => 1
  | a :: as, b :: bs =>
    if a.toNat < b.toNat then -1
    else if b.toNat < a.toNat then 1
    else compareChars as bs

/-- A host with ASCII lower-casing and code-point comparison of strings. -/
def asciiEnv : JSEnv :=
  ⟨fun s => String.mk (s.data.map Char.toLower), fun s t => compareChars s.data t.data⟩

/-- A member with a tag, a name and, when given, a trophy count. -/
def namedMember (tag name : String) (trophies : Option Int) : Member :=
  ⟨tag, fun f =>
    if f = "name" then JSVal.str name
    else if f = "trophies" then (match trophies with
      | some n => JSVal.num n
      | none => JSVal.null)
    else JSVal.undefined⟩

/-- Four members; the first and the third have no trophy count. -/
def c1Members : List Member :=
  [namedMember "#AAA" "Ann" none, namedMember "#BBB" "Bob" (some 5),
   namedMember "#CCC" "Cid" none, namedMember "#DDD" "Dan" (some 7)]

/-- A host whose `toLowerCase` is the identity and whose `localeCompare` reports every pair of
strings as equal; used where only numbers are compared. -/
def trivialEnv : JSEnv := ⟨id, fun _ _ => 0⟩

/-- A member with the given tag whose only other property is `field`, holding the number
`n`. -/
def numMember (field tag : String) (n : Int) : Member :=
  ⟨tag, fun f => if f = field then JSVal.num n else JSVal.undefined⟩

/-- A member with the given tag and `signup_group`, and no other property. -/
def groupMember (tag : String) (group : JSVal) : Member :=
  ⟨tag, fun f => if f = "signup_group" then group else JSVal.undefined⟩

/-- Five members: two in category `c1`, one in `c2`, one with a null and one with an empty
`signup_group`. -/
def c4Members : List Member :=
  [groupMember "#A" (JSVal.str "c1"), groupMember "#B" JSVal.null,
   groupMember "#C" (JSVal.str ""), groupMember "#D" (JSVal.str "c2"),
   groupMember "#E" (JSVal.str "c1")]

/-- A member that has only its tag. -/
def tagMember (tag : String) : Member := ⟨tag, fun _ => JSVal.undefined⟩

/-- Roster A of the duplicate example, with tags `#X` and `#Y`. -/
def rosterA : Roster := { id := some "a", members := some [tagMember "#X", tagMember "#Y"] }

/-- Roster B of the duplicate example, with tags `#Y` and `#Z`. -/
def rosterB : Roster := { id := some "b", members := some [tagMember "#Y", tagMember "#Z"] }

/-- A backend that accepts every request and returns an empty JSON object. -/
def acceptAll : Backend := fun _ _ => Except.ok {}

/-- A page showing roster `r1`, with roster `r2` held for comparison. -/
def comparePage : Page :=
  { currentRosterId := "r1",
    comparisonRosters := [some { id := some "r2" }],
    categories := [⟨"c1", "Main"⟩] }

/-- The payload of a drag of member `#ABC` started in the table of roster `r2`. -/
def dragFromR2 : DragData :=
  { type := JSVal.str "cross-roster",
    memberTag := JSVal.str "#ABC",
    sourceRoster := JSVal.str "r2" }

/-- A drop of that payload on the zone of category `c1` in the table of roster `r2`. -/
def dropOnR2 : CategoryDropEvent :=
  { categoryId := "c1", payload := Except.ok dragFromR2, targetRosterId := some "r2" }

/-- A member of category `ghost`, which is not in the category list. -/
def ghostMember : Member := groupMember "#ZZZ" (JSVal.str "ghost")

/-- A roster whose only member is that member. -/
def ghostRoster : Roster := { id := some "r1", members := some [ghostMember] }

/-- The category list with the single category `c1`, named `Main`. -/
def oneCategory : List Category := [⟨"c1", "Main"⟩]

/-- A backend that accepts every request except a POST, which it answers with status 404. -/
def rejectAdds : Backend := fun _ req =>
  if req.method = Method.POST then
    Except.error { message := "Player not found", status := some 404 }
  else Except.ok {}

/-- The current roster of the colour example, of clan `#AAA`. -/
def mainRoster : Roster :=
  { id := some "r1", clan_tag := some "#AAA", members := some [] }

/-- A member whose current clan is `#BBB`. -/
def memberOfB : Member :=
  ⟨"#PLAYER", fun f => if f = "current_clan_tag" then JSVal.str "#BBB" else JSVal.undefined⟩

/-- The comparison roster of the colour example, of clan `#BBB`, holding that member. -/
def otherRoster : Roster :=
  { id := some "r2", clan_tag := some "#BBB", members := some [memberOfB] }

/-- The payload of a drag of member `#ABC` started in the table of roster `r1`. -/
def dragFromR1 : DragData :=
  { type := JSVal.str "cross-roster",
    memberTag := JSVal.str "#ABC",
    sourceRoster := JSVal.str "r1" }

/-- A drop of the payload from `r1` on the `Uncategorized` zone, whose category id is empty,
in the table of roster `r2`. -/
def dropUncategorizedOnR2 : CategoryDropEvent :=
  { categoryId := "", payload := Except.ok dragFromR1, targetRosterId := some "r2" }

/-- A drop of the payload from `r2` on the `Uncategorized` zone in the table of roster
`r2`. -/
def dropUncategorizedWithinR2 : CategoryDropEvent :=
  { categoryId := "", payload := Except.ok dragFromR2, targetRosterId := some "r2" }

/-- A member with the given tag whose only other property is `field`, holding the string
`s`. -/
def strMember (field tag s : String) : Member :=
  ⟨tag, fun f => if f = field then JSVal.str s else JSVal.undefined⟩

/-- A roster that has only its id. -/
def rosterWithId (id : String) : Roster := { id := some id }

/-- A freshly loaded page showing roster `r1`. -/
def freshPage : Page :=
  { currentRosterId := "r1", currentRosterData := some (rosterWithId "r1") }

/-- The answer carrying the roster of the given id. -/
def answerRoster (id : String) : ApiResult := Except.ok { roster := some (rosterWithId id) }

/-- Roster `r2` is loaded for comparison in one whole run of `startComparison`. -/
def comparingR2 : Page :=
  (resume (startComparisonBegin freshPage "r2" "").1 (Suspended.startFirst "")
    (answerRoster "r2") (Except.ok ())).1

/-- A run of `reloadComparisonData` has fetched the current roster and waits for roster `r2`
when `startComparison` is started for the rosters `r3` and `r4`. -/
def startedDuringReload : Page :=
  (startComparisonBegin
    (resume (reloadComparisonDataBegin comparingR2).1 Suspended.reloadMain (answerRoster "r1")
      (Except.ok ())).1 "r3" "r4").1

/-- The answers then arrive in the order they were requested: roster `r2` for the reload, and
the rosters `r3` and `r4` for `startComparison`. -/
def overlappedRuns : Page :=
  (resume
    (resume
      (resume startedDuringReload (Suspended.reloadEntry 0) (answerRoster "r2")
        (Except.ok ())).1
      (Suspended.startFirst "r4") (answerRoster "r3") (Except.ok ())).1
    Suspended.startSecond (answerRoster "r4") (Except.ok ())).1

/-- A member with the given tag whose only other property is `field`, holding a number that
is not an integer below 10^21, with its value and its text. -/
def decMember (field tag : String) (value : ℚ) (text : String) : Member :=
  ⟨tag, fun f => if f = field then JSVal.dec value text else JSVal.undefined⟩

/-! ## Theorems -/

/-! ### Helper lemmas: insertion sort under a comparator that need not be transitive -/

theorem pairwise_orderedInsert_of_separating {α : Type} (r : α → α → Prop) [DecidableRel r]
    (p : α → Prop) (h1 : ∀ a b, p a → ¬ p b → ¬ r a b) (h2 : ∀ a b, ¬ p a → p b → r a b)
    (a : α) (l : List α) (hl : l.Pairwise (fun x y => p x → p y)) :
    (l.orderedInsert r a).Pairwise (fun x y => p x → p y) := by
  induction l with
  | nil => simp
  | cons b l ih =>
    rw [List.pairwise_cons] at hl
    simp only [List.orderedInsert]
    split_ifs with hab
    · refine List.pairwise_cons.2 ⟨?_, List.pairwise_cons.2 hl⟩
      intro y hy hpa
      have hpb : p b := by
        by_contra hnb
        exact h1 a b hpa hnb hab
      rcases List.mem_cons.1 hy with rfl | hy
      · exact hpb
      · exact hl.1 y hy hpb
    · refine List.pairwise_cons.2 ⟨?_, ih hl.2⟩
      intro y hy hpb
      rcases (List.mem_orderedInsert r).1 hy with rfl | hy
      · by_contra hna
        exact hab (h2 _ b hna hpb)
      · exact hl.1 y hy hpb

theorem pairwise_insertionSort_of_separating {α : Type} (r : α → α → Prop) [DecidableRel r]
    (p : α → Prop) (h1 : ∀ a b, p a → ¬ p b → ¬ r a b) (h2 : ∀ a b, ¬ p a → p b → r a b)
    (l : List α) : (l.insertionSort r).Pairwise (fun x y => p x → p y) := by
  induction l with
  | nil => simp
  | cons a l ih =>
    simp only [List.insertionSort]
    exact pairwise_orderedInsert_of_separating r p h1 h2 a _ ih

theorem compareMembers_null_left (env : JSEnv) (f : String) (rest : List String)
    (a b : Member) (hf : f ≠ "") (ha : (a.get f).isNullish = true)
    (hb : (b.get f).isNullish = false) : compareMembers env (f :: rest) a b = 1 := by
  simp [compareMembers, hf, ha, hb]

theorem compareMembers_null_right (env : JSEnv) (f : String) (rest : List String)
    (a b : Member) (hf : f ≠ "") (ha : (a.get f).isNullish = false)
    (hb : (b.get f).isNullish = true) : compareMembers env (f :: rest) a b = -1 := by
  simp [compareMembers, hf, ha, hb]

/-- C1: with `f` the primary sort field (a non-empty name), the list sorted by
`loadMembersDisplay` is a rearrangement of the members in which no member whose `f` is null or
undefined stands before a member whose `f` is non-null, whatever the other sort fields and
whatever the host's string comparison. -/
theorem C1_nulls_sort_last (env : JSEnv) (f : String) (rest : List String)
    (members : List Member) (hf : f ≠ "") :
    (sortMembers env (f :: rest) members).Perm members ∧
    (sortMembers env (f :: rest) members).Pairwise
      (fun x y => ¬ ((x.get f).isNullish = true ∧ (y.get f).isNullish = false)) := by
  refine ⟨List.perm_insertionSort _ _, ?_⟩
  have h := pairwise_insertionSort_of_separating
    (fun a b : Member => compareMembers env (f :: rest) a b ≤ 0)
    (fun m => (m.get f).isNullish = true)
    (fun a b ha hb => by
      have hb' : (b.get f).isNullish = false := by simpa using hb
      simp [compareMembers_null_left env f rest a b hf ha hb'])
    (fun a b ha hb => by
      have ha' : (a.get f).isNullish = false := by simpa using ha
      simp [compareMembers_null_right env f rest a b hf ha' hb])
    members
  refine h.imp ?_
  intro x y hxy hcon
  have := hxy hcon.1
  simp [hcon.2] at this

theorem C1_nulls_sort_last_witness :
    "trophies" ≠ "" ∧
    (sortMembers asciiEnv ["trophies", "name"] c1Members).map Member.tag
      = ["#DDD", "#BBB", "#CCC", "#AAA"] ∧
    ((sortMembers asciiEnv ["trophies", "name"] c1Members).Perm c1Members ∧
     (sortMembers asciiEnv ["trophies", "name"] c1Members).Pairwise
      (fun x y => ¬ ((x.get "trophies").isNullish = true ∧
        (y.get "trophies").isNullish = false))) :=
  ⟨by decide, by decide,
    C1_nulls_sort_last asciiEnv "trophies" ["name"] c1Members (by decide)⟩

/-! ### Numeric fields -/

theorem pairwise_orderedInsert_on {α : Type} (r : α → α → Prop) [DecidableRel r]
    (S : α → Prop) (htot : ∀ a b, S a → S b → r a b ∨ r b a)
    (htrans : ∀ a b c, S a → S b → S c → r a b → r b c → r a c)
    (a : α) (l : List α) (ha : S a) (hS : ∀ x ∈ l, S x) (hl : l.Pairwise r) :
    (l.orderedInsert r a).Pairwise r := by
  induction l with
  | nil => simp
  | cons b l ih =>
    rw [List.pairwise_cons] at hl
    have hSb : S b := hS b (List.mem_cons_self _ _)
    have hSl : ∀ x ∈ l, S x := fun x hx => hS x (List.mem_cons_of_mem _ hx)
    simp only [List.orderedInsert]
    split_ifs with hab
    · refine List.pairwise_cons.2 ⟨?_, List.pairwise_cons.2 hl⟩
      intro y hy
      rcases List.mem_cons.1 hy with rfl | hy
      · exact hab
      · exact htrans a b y ha hSb (hSl y hy) hab (hl.1 y hy)
    · refine List.pairwise_cons.2 ⟨?_, ih hSl hl.2⟩
      intro y hy
      rcases (List.mem_orderedInsert r).1 hy with rfl | hy
      · rcases htot _ b ha hSb with h | h
        · exact absurd h hab
        · exact h
      · exact hl.1 y hy

theorem pairwise_insertionSort_on {α : Type} (r : α → α → Prop) [DecidableRel r]
    (S : α → Prop) (htot : ∀ a b, S a → S b → r a b ∨ r b a)
    (htrans : ∀ a b c, S a → S b → S c → r a b → r b c → r a c)
    (l : List α) (hS : ∀ x ∈ l, S x) : (l.insertionSort r).Pairwise r := by
  induction l with
  | nil => simp
  | cons a l ih =>
    have hSl : ∀ x ∈ l, S x := fun x hx => hS x (List.mem_cons_of_mem _ hx)
    simp only [List.insertionSort]
    exact pairwise_orderedInsert_on r S htot htrans a _ (hS a (List.mem_cons_self _ _))
      (fun x hx => hSl x ((List.mem_insertionSort r).1 hx)) (ih hSl)

theorem compareMembers_num (env : JSEnv) (f : String) (a b : Member) (na nb : Int)
    (hf : f ≠ "") (ha : a.get f = JSVal.num na) (hb : b.get f = JSVal.num nb) :
    compareMembers env [f] a b = if isDateField f then na - nb else nb - na := by
  by_cases h : na = nb
  · simp [compareMembers, hf, ha, hb, JSVal.isNullish, h]
  · simp [compareMembers, hf, ha, hb, JSVal.isNullish, h]

theorem isDateField_displayFields : ∀ g ∈ displayFields, isDateField g = false := by
  decide

theorem sortMembers_num_pairwise (env : JSEnv) (f : String) (members : List Member)
    (hf : f ≠ "") (hnum : ∀ m ∈ members, ∃ n, m.get f = JSVal.num n) :
    (sortMembers env [f] members).Pairwise
      (fun x y => ∀ nx ny, x.get f = JSVal.num nx → y.get f = JSVal.num ny →
        if isDateField f then nx ≤ ny else ny ≤ nx) := by
  have h := pairwise_insertionSort_on
    (fun a b : Member => compareMembers env [f] a b ≤ 0)
    (fun m => ∃ n, m.get f = JSVal.num n)
    (fun a b ⟨na, ha⟩ ⟨nb, hb⟩ => by
      simp only [compareMembers_num env f a b na nb hf ha hb,
        compareMembers_num env f b a nb na hf hb ha]
      split_ifs <;> omega)
    (fun a b c ⟨na, ha⟩ ⟨nb, hb⟩ ⟨nc, hc⟩ => by
      simp only [compareMembers_num env f a b na nb hf ha hb,
        compareMembers_num env f b c nb nc hf hb hc,
        compareMembers_num env f a c na nc hf ha hc]
      split_ifs <;> omega)
    members hnum
  refine h.imp ?_
  intro x y hxy nx ny hx hy
  simp only [compareMembers_num env f x y nx ny hf hx hy] at hxy
  split_ifs at hxy ⊢ <;> omega

/-- C2: when every member holds a number under the single sort field, the sorted list is
non-decreasing in that field for `added_at` and non-increasing for each of the nine display
fields; none of the nine is classified as a date field; `added_at` values 3, 1, 2 come out as
1, 2, 3 and `trophies` values 3, 1, 2 come out as 3, 2, 1. -/
theorem C2_numeric_sort_direction (env : JSEnv) (f : String) (members : List Member)
    (hnum : ∀ m ∈ members, ∃ n, m.get f = JSVal.num n) :
    (f = "added_at" →
      (sortMembers env [f] members).Pairwise
        (fun x y => ∀ nx ny, x.get f = JSVal.num nx → y.get f = JSVal.num ny → nx ≤ ny)) ∧
    (f ∈ displayFields →
      (sortMembers env [f] members).Pairwise
        (fun x y => ∀ nx ny, x.get f = JSVal.num nx → y.get f = JSVal.num ny → ny ≤ nx)) ∧
    (∀ g ∈ displayFields, isDateField g = false) ∧
    (sortMembers env ["added_at"]
        [numMember "added_at" "#A" 3, numMember "added_at" "#B" 1,
         numMember "added_at" "#C" 2]).map (fun m => m.get "added_at")
      = [JSVal.num 1, JSVal.num 2, JSVal.num 3] ∧
    (sortMembers env ["trophies"]
        [numMember "trophies" "#A" 3, numMember "trophies" "#B" 1,
         numMember "trophies" "#C" 2]).map (fun m => m.get "trophies")
      = [JSVal.num 3, JSVal.num 2, JSVal.num 1] := by
  have hd1 : isDateField "added_at" = true := by decide
  have hd2 : isDateField "trophies" = false := by decide
  refine ⟨?_, ?_, isDateField_displayFields, ?_, ?_⟩
  · intro hfa
    subst hfa
    have h := sortMembers_num_pairwise env "added_at" members (by decide) hnum
    simpa [hd1] using h
  · intro hfd
    have hf : f ≠ "" := by
      rintro rfl
      revert hfd
      decide
    have h := sortMembers_num_pairwise env f members hf hnum
    simpa [isDateField_displayFields f hfd] using h
  · simp [sortMembers, arraySort, List.insertionSort, List.orderedInsert, compareMembers,
      Member.get, numMember, JSVal.isNullish, hd1]
  · simp [sortMembers, arraySort, List.insertionSort, List.orderedInsert, compareMembers,
      Member.get, numMember, JSVal.isNullish, hd2]

theorem C2_numeric_sort_direction_witness :
    (∀ m ∈ [numMember "trophies" "#A" 3, numMember "trophies" "#B" 1,
        numMember "trophies" "#C" 2], ∃ n, m.get "trophies" = JSVal.num n) ∧
    ((sortMembers trivialEnv ["trophies"]
        [numMember "trophies" "#A" 3, numMember "trophies" "#B" 1,
         numMember "trophies" "#C" 2]).map Member.tag = ["#A", "#C", "#B"]) ∧
    (sortMembers trivialEnv ["trophies"]
        [numMember "trophies" "#A" 3, numMember "trophies" "#B" 1,
         numMember "trophies" "#C" 2]).Pairwise
      (fun x y => ∀ nx ny, x.get "trophies" = JSVal.num nx →
        y.get "trophies" = JSVal.num ny → ny ≤ nx) :=
  ⟨by simp [numMember, Member.get], by decide,
    (C2_numeric_sort_direction trivialEnv "trophies"
      [numMember "trophies" "#A" 3, numMember "trophies" "#B" 1, numMember "trophies" "#C" 2]
      (by simp [numMember, Member.get])).2.1 (by decide)⟩

/-! ### Multi-key comparison -/

theorem differenceSign_eq_zero_iff (x y : ℚ) : differenceSign x y = 0 ↔ x = y := by
  unfold differenceSign
  split_ifs with h1 h2
  · simp [h1.ne]
  · simp [h2.ne']
  · simp only [true_iff]
    exact le_antisymm (not_lt.1 h2) (not_lt.1 h1)

theorem differenceSign_neg_iff (x y : ℚ) : differenceSign x y < 0 ↔ x < y := by
  unfold differenceSign
  split_ifs with h1 h2
  · simp [h1]
  · simp [h1]
  · simp [h1]

theorem differenceSign_pos_iff (x y : ℚ) : 0 < differenceSign x y ↔ y < x := by
  unfold differenceSign
  split_ifs with h1 h2
  · simp [h1.le]
  · simp [h2]
  · simp [h2]

theorem compareMembers_cons (env : JSEnv) (f : String) (rest : List String) (a b : Member) :
    compareMembers env (f :: rest) a b
      = if compareMembers env [f] a b ≠ 0 then compareMembers env [f] a b
        else compareMembers env rest a b := by
  by_cases hf : f = ""
  · simp [compareMembers, hf]
  · by_cases ha : (a.get f).isNullish = true
    · by_cases hb : (b.get f).isNullish = true
      · simp [compareMembers, hf, ha, hb]
      · simp [compareMembers, hf, ha, hb]
    · by_cases hb : (b.get f).isNullish = true
      · simp [compareMembers, hf, ha, hb]
      · simp only [compareMembers, hf, ha, hb, if_false, Bool.false_and, Bool.false_eq_true]
        split <;> split_ifs <;>
          first
            | omega
            | (exfalso
               simp_all [differenceSign_eq_zero_iff])

/-- C3: the comparator returns the single-field comparison of the first field of the list on
which the two members compare non-zero, and 0 when there is none; an empty field name and a
field that is null or undefined in both members compare as zero. -/
theorem C3_first_nonzero_field_decides (env : JSEnv) (sortConfig : List String)
    (a b : Member) :
    compareMembers env sortConfig a b
      = ((sortConfig.map (fun f => compareMembers env [f] a b)).find? (fun c => c ≠ 0)).getD 0 ∧
    compareMembers env [""] a b = 0 ∧
    (∀ f, (a.get f).isNullish = true → (b.get f).isNullish = true →
      compareMembers env [f] a b = 0) := by
  refine ⟨?_, by simp [compareMembers], ?_⟩
  · induction sortConfig with
    | nil => simp [compareMembers]
    | cons f rest ih =>
      rw [compareMembers_cons, List.map_cons, List.find?_cons]
      by_cases h : compareMembers env [f] a b = 0
      · simp [h, ih]
      · simp [h]
  · intro f ha hb
    simp [compareMembers, ha, hb]

/-! ### Grouping -/

theorem ownProperty_pushMember_self (key : String) (m : Member)
    (l : List (String × List Member)) :
    ownProperty key (pushMember key m l) = some ((ownProperty key l).getD [] ++ [m]) := by
  induction l with
  | nil => simp [pushMember, ownProperty]
  | cons p l ih =>
    obtain ⟨k, ms⟩ := p
    by_cases h : k = key
    · simp [pushMember, ownProperty, h]
    · simp [pushMember, ownProperty, h, ih]

theorem ownProperty_pushMember_ne (key k : String) (m : Member)
    (l : List (String × List Member)) (hk : k ≠ key) :
    ownProperty k (pushMember key m l) = ownProperty k l := by
  induction l with
  | nil => simp [pushMember, ownProperty, Ne.symm hk]
  | cons p l ih =>
    obtain ⟨k', ms⟩ := p
    by_cases h : k' = key
    · subst h
      simp [pushMember, ownProperty, Ne.symm hk]
    · by_cases h' : k' = k
      · subst h'
        simp [pushMember, ownProperty, h]
      · simp [pushMember, ownProperty, h, h', ih]

theorem keys_pushMember (key : String) (m : Member) (l : List (String × List Member)) :
    (pushMember key m l).map Prod.fst
      = if key ∈ l.map Prod.fst then l.map Prod.fst else l.map Prod.fst ++ [key] := by
  induction l with
  | nil => simp [pushMember]
  | cons p l ih =>
    obtain ⟨k, ms⟩ := p
    by_cases h : k = key
    · simp [pushMember, h]
    · have h' : ¬ key = k := fun e => h e.symm
      simp only [pushMember, h, if_false, List.map_cons, ih, List.mem_cons, h', false_or]
      split_ifs <;> simp

theorem nodup_keys_pushMember (key : String) (m : Member) (l : List (String × List Member))
    (hl : (l.map Prod.fst).Nodup) : ((pushMember key m l).map Prod.fst).Nodup := by
  rw [keys_pushMember]
  split_ifs with h
  · exact hl
  · exact List.Nodup.append hl (List.nodup_singleton _) (by simpa using h)

theorem sum_lengths_pushMember (key : String) (m : Member) (l : List (String × List Member)) :
    ((pushMember key m l).map (fun p => p.2.length)).sum
      = (l.map (fun p => p.2.length)).sum + 1 := by
  induction l with
  | nil => simp [pushMember]
  | cons p l ih =>
    obtain ⟨k, ms⟩ := p
    by_cases h : k = key
    · simp [pushMember, h]; omega
    · simp [pushMember, h, ih]; omega

theorem foldlM_groupStep (members : List Member) (g0 : Grouping)
    (hkeys : ∀ m ∈ members, (m.get "signup_group").truthy = true →
      (m.get "signup_group").toJSString ∉ objectPrototypeKeys) :
    ∃ g, members.foldlM groupStep g0 = Except.ok g ∧
      g.uncategorizedMembers = g0.uncategorizedMembers ++
        members.filter (fun m => !(m.get "signup_group").truthy) ∧
      (∀ key, g.categoryMembers key = g0.categoryMembers key ++
        members.filter (fun m => (m.get "signup_group").truthy &&
          decide ((m.get "signup_group").toJSString = key))) ∧
      ((g0.membersByCategory.map Prod.fst).Nodup → (g.membersByCategory.map Prod.fst).Nodup) ∧
      g.uncategorizedMembers.length + (g.membersByCategory.map (fun p => p.2.length)).sum
        = g0.uncategorizedMembers.length + (g0.membersByCategory.map (fun p => p.2.length)).sum
          + members.length := by
  induction members generalizing g0 with
  | nil => exact ⟨g0, rfl, by simp, by simp, id, by simp⟩
  | cons m members ih =>
    have hrest : ∀ x ∈ members, (x.get "signup_group").truthy = true →
        (x.get "signup_group").toJSString ∉ objectPrototypeKeys :=
      fun x hx => hkeys x (List.mem_cons_of_mem _ hx)
    by_cases ht : (m.get "signup_group").truthy = true
    · have hk := hkeys m (List.mem_cons_self _ _) ht
      obtain ⟨g, hg, hu, hc, hn, hs⟩ := ih
        { g0 with membersByCategory :=
            pushMember (m.get "signup_group").toJSString m g0.membersByCategory } hrest
      refine ⟨g, ?_, ?_, ?_, ?_, ?_⟩
      · simp only [List.foldlM_cons, groupStep, ht, hk]
        simpa using hg
      · simpa [ht] using hu
      · intro key
        rw [hc key]
        by_cases hkey : (m.get "signup_group").toJSString = key
        · subst hkey
          simp [Grouping.categoryMembers, ownProperty_pushMember_self, ht]
        · simp [Grouping.categoryMembers, ownProperty_pushMember_ne _ _ _ _ (Ne.symm hkey),
            ht, hkey]
      · intro h0
        exact hn (nodup_keys_pushMember _ _ _ h0)
      · rw [hs]
        simp only [sum_lengths_pushMember, List.length_cons]
        omega
    · have ht' : (m.get "signup_group").truthy = false := by simpa using ht
      obtain ⟨g, hg, hu, hc, hn, hs⟩ := ih
        { g0 with uncategorizedMembers := g0.uncategorizedMembers ++ [m] } hrest
      refine ⟨g, ?_, ?_, ?_, hn, ?_⟩
      · simp only [List.foldlM_cons, groupStep, ht']
        simpa using hg
      · simpa [ht'] using hu
      · intro key
        rw [hc key]
        simp [Grouping.categoryMembers, ht']
      · rw [hs]
        simp only [List.length_append, List.length_cons, List.length_nil]
        omega

/-- C4 (as the code has it): when no `signup_group` names an inherited object property, the
grouping step succeeds; the uncategorized list holds exactly the members whose `signup_group`
is falsy (null, undefined, the empty string, 0 or false), the list under a key holds exactly
the members with a truthy `signup_group` turning into that key, both in their sorted order,
no key occurs twice, and the sizes of all lists add up to the number of members. -/
theorem C4_grouping_partitions_members (members : List Member)
    (hkeys : ∀ m ∈ members, (m.get "signup_group").truthy = true →
      (m.get "signup_group").toJSString ∉ objectPrototypeKeys) :
    ∃ g, groupMembers members = Except.ok g ∧
      g.uncategorizedMembers = members.filter (fun m => !(m.get "signup_group").truthy) ∧
      (∀ key, g.categoryMembers key =
        members.filter (fun m => (m.get "signup_group").truthy &&
          decide ((m.get "signup_group").toJSString = key))) ∧
      (g.membersByCategory.map Prod.fst).Nodup ∧
      g.uncategorizedMembers.length + (g.membersByCategory.map (fun p => p.2.length)).sum
        = members.length := by
  obtain ⟨g, hg, hu, hc, hn, hs⟩ := foldlM_groupStep members ⟨[], []⟩ hkeys
  refine ⟨g, hg, by simpa using hu, ?_, hn (by simp), by simpa using hs⟩
  intro key
  simpa [Grouping.categoryMembers, ownProperty] using hc key

theorem C4_grouping_partitions_members_witness :
    (∀ m ∈ c4Members, (m.get "signup_group").truthy = true →
      (m.get "signup_group").toJSString ∉ objectPrototypeKeys) ∧
    (groupMembers c4Members).toOption.map Grouping.tags
      = some (["#B", "#C"], [("c1", ["#A", "#E"]), ("c2", ["#D"])]) ∧
    (∃ g, groupMembers c4Members = Except.ok g ∧
      g.uncategorizedMembers = c4Members.filter (fun m => !(m.get "signup_group").truthy) ∧
      (∀ key, g.categoryMembers key =
        c4Members.filter (fun m => (m.get "signup_group").truthy &&
          decide ((m.get "signup_group").toJSString = key))) ∧
      (g.membersByCategory.map Prod.fst).Nodup ∧
      g.uncategorizedMembers.length + (g.membersByCategory.map (fun p => p.2.length)).sum
        = c4Members.length) :=
  ⟨by decide, by decide, C4_grouping_partitions_members c4Members (by decide)⟩

/-- C4 as stated fails: a member whose `signup_group` is the empty string, which is not
null, is put in the uncategorized list and no list is keyed by its `signup_group`. -/
theorem C4_counterexample_empty_signup_group :
    ((groupMember "#AAA" (JSVal.str "")).get "signup_group").isNullish = false ∧
    (groupMembers [groupMember "#AAA" (JSVal.str "")]).toOption.map Grouping.tags
      = some (["#AAA"], []) := by
  decide

/-! ### Duplicate detection -/

theorem lookupCount_setCount_self (t : String) (n : Nat) (l : List (String × Nat)) :
    lookupCount t (setCount t n l) = n := by
  induction l with
  | nil => simp [setCount, lookupCount]
  | cons p l ih =>
    obtain ⟨k, c⟩ := p
    by_cases h : k = t
    · simp [setCount, lookupCount, h]
    · simp [setCount, lookupCount, h, ih]

theorem lookupCount_setCount_ne (t k : String) (n : Nat) (l : List (String × Nat))
    (hk : k ≠ t) : lookupCount k (setCount t n l) = lookupCount k l := by
  induction l with
  | nil => simp [setCount, lookupCount, Ne.symm hk]
  | cons p l ih =>
    obtain ⟨k', c⟩ := p
    by_cases h : k' = t
    · subst h
      simp [setCount, lookupCount, Ne.symm hk]
    · by_cases h' : k' = k
      · subst h'
        simp [setCount, lookupCount, h]
      · simp [setCount, lookupCount, h, h', ih]

theorem mem_setAdd (x t : String) (s : List String) : x ∈ setAdd t s ↔ x = t ∨ x ∈ s := by
  unfold setAdd
  split_ifs with h
  · constructor
    · exact Or.inr
    · rintro (rfl | hx)
      · exact h
      · exact hx
  · simp [or_comm]

theorem nodup_setAdd (t : String) (s : List String) (hs : s.Nodup) : (setAdd t s).Nodup := by
  unfold setAdd
  split_ifs with h
  · exact hs
  · exact List.Nodup.append hs (List.nodup_singleton _) (by simpa using h)

theorem scanInv_countMember {st : DuplicateScan} {seen : List String} (h : ScanInv st seen)
    (m : Member) : ScanInv (countMember st m) (seen ++ [m.tag]) := by
  obtain ⟨hc, hd, hn⟩ := h
  unfold ClashKing.countMember
  by_cases hp : m.tag ∈ objectPrototypeKeys
  · simp only [hp, if_true]
    refine ⟨?_, ?_, hn⟩
    · intro t ht
      have hne : ¬ m.tag = t := fun e => ht (e ▸ hp)
      simp [hc t ht, List.count_append, List.count_singleton, hne]
    · intro t
      rw [hd t]
      by_cases hne : m.tag = t
      · subst hne
        simp [hp]
      · simp [List.count_append, List.count_singleton, hne]
  · simp only [hp, if_false]
    have hcm := hc m.tag hp
    split_ifs with hgt
    · refine ⟨?_, ?_, nodup_setAdd _ _ hn⟩
      · intro t ht
        by_cases hne : t = m.tag
        · subst hne
          simp [lookupCount_setCount_self, hcm, List.count_append]
        · have hne' : ¬ m.tag = t := fun e => hne e.symm
          simp [lookupCount_setCount_ne _ _ _ _ hne, hc t ht, List.count_append,
            List.count_singleton, hne']
      · intro t
        simp only [mem_setAdd, hd t]
        by_cases hne : t = m.tag
        · subst hne
          simp only [true_or, true_iff, List.count_append, List.count_singleton, beq_self_eq_true,
            if_true]
          exact ⟨hp, by omega⟩
        · have hne' : ¬ m.tag = t := fun e => hne e.symm
          simp [hne, List.count_append, List.count_singleton, hne']
    · refine ⟨?_, ?_, hn⟩
      · intro t ht
        by_cases hne : t = m.tag
        · subst hne
          simp [lookupCount_setCount_self, hcm, List.count_append]
        · have hne' : ¬ m.tag = t := fun e => hne e.symm
          simp [lookupCount_setCount_ne _ _ _ _ hne, hc t ht, List.count_append,
            List.count_singleton, hne']
      · intro t
        rw [hd t]
        by_cases hne : t = m.tag
        · subst hne
          simp only [List.count_append, List.count_singleton, beq_self_eq_true, if_true]
          constructor
          · rintro ⟨h1, h2⟩
            exact ⟨h1, by omega⟩
          · rintro ⟨h1, h2⟩
            exact ⟨h1, by omega⟩
        · have hne' : ¬ m.tag = t := fun e => hne e.symm
          simp [List.count_append, List.count_singleton, hne']

theorem scanInv_foldl_countMember (ms : List Member) {st : DuplicateScan} {seen : List String}
    (h : ScanInv st seen) : ScanInv (ms.foldl ClashKing.countMember st) (seen ++ ms.map Member.tag) := by
  induction ms generalizing st seen with
  | nil => simpa using h
  | cons m ms ih =>
    have := ih (scanInv_countMember h m)
    simpa [List.append_assoc] using this

theorem scanInv_countRoster {st : DuplicateScan} {seen : List String} (h : ScanInv st seen)
    (r : Option Roster) : ScanInv (countRoster st r) (seen ++ memberTags r) := by
  cases r with
  | none => simpa [ClashKing.countRoster, memberTags] using h
  | some r =>
    cases hm : r.members with
    | none => simpa [ClashKing.countRoster, memberTags, hm] using h
    | some ms => simpa [ClashKing.countRoster, memberTags, hm] using scanInv_foldl_countMember ms h

theorem scanInv_foldl_countRoster (rs : List (Option Roster)) {st : DuplicateScan}
    {seen : List String} (h : ScanInv st seen) :
    ScanInv (rs.foldl ClashKing.countRoster st) (seen ++ rs.flatMap memberTags) := by
  induction rs generalizing st seen with
  | nil => simpa using h
  | cons r rs ih =>
    have := ih (scanInv_countRoster h r)
    simpa [List.append_assoc] using this

theorem count_flatMap_memberTags (rs : List (Option Roster)) (tag : String)
    (hunique : ∀ r ∈ rs, (memberTags r).Nodup) :
    (rs.flatMap memberTags).count tag
      = (rs.filter (fun r => decide (tag ∈ memberTags r))).length := by
  induction rs with
  | nil => simp
  | cons r rs ih =>
    have hr := hunique r (List.mem_cons_self _ _)
    have ih' := ih (fun x hx => hunique x (List.mem_cons_of_mem _ hx))
    by_cases hmem : tag ∈ memberTags r
    · simp [List.flatMap_cons, List.count_append, ih', hmem, List.count_eq_one_of_mem hr hmem]
      omega
    · simp [List.flatMap_cons, List.count_append, ih', hmem,
        List.count_eq_zero_of_not_mem hmem]

/-- C5: with the tags of each held roster pairwise distinct, a tag (other than the name of an
inherited object property) is in the set returned by `getDuplicateMembers` exactly when it
is in the member list of two or more of the held rosters; the set has no repeated element;
and rosters with tags X, Y and Y, Z give the set holding Y alone. -/
theorem C5_duplicates_iff_in_two_rosters (currentRosterData : Option Roster)
    (comparisonRosters : List (Option Roster)) (tag : String)
    (hunique : ∀ r ∈ currentRosterData :: comparisonRosters, (memberTags r).Nodup)
    (htag : tag ∉ objectPrototypeKeys) :
    (tag ∈ getDuplicateMembers currentRosterData comparisonRosters ↔
      2 ≤ ((currentRosterData :: comparisonRosters).filter
            (fun r => decide (tag ∈ memberTags r))).length) ∧
    (getDuplicateMembers currentRosterData comparisonRosters).Nodup ∧
    getDuplicateMembers (some rosterA) [some rosterB] = ["#Y"] := by
  have hinit : ScanInv ⟨[], []⟩ [] := ⟨fun t _ => by simp [lookupCount], by simp, by simp⟩
  have h := scanInv_foldl_countRoster (currentRosterData :: comparisonRosters) hinit
  obtain ⟨_, hd, hn⟩ := h
  refine ⟨?_, hn, by decide⟩
  unfold getDuplicateMembers
  rw [hd tag, List.nil_append, count_flatMap_memberTags _ _ hunique]
  simp [htag]

theorem C5_duplicates_iff_in_two_rosters_witness :
    (∀ r ∈ [some rosterA, some rosterB], (memberTags r).Nodup) ∧
    "#Y" ∉ objectPrototypeKeys ∧
    (("#Y" ∈ getDuplicateMembers (some rosterA) [some rosterB] ↔
      2 ≤ ([some rosterA, some rosterB].filter
            (fun r => decide ("#Y" ∈ memberTags r))).length) ∧
     (getDuplicateMembers (some rosterA) [some rosterB]).Nodup ∧
     getDuplicateMembers (some rosterA) [some rosterB] = ["#Y"]) :=
  ⟨by decide, by decide,
    C5_duplicates_iff_in_two_rosters (some rosterA) [some rosterB] "#Y" (by decide)
      (by decide)⟩


theorem toNat_ofNat_upper (n : Nat) (h1 : 97 ≤ n) (h2 : n ≤ 122) :
    (Char.ofNat (n - 32)).toNat = n - 32 := by
  interval_cases n <;> decide

theorem isTagChar_toUpper (c : Char) (h : isTagCharI c = true) : isTagChar c.toUpper = true := by
  unfold Char.toUpper
  simp only [isTagCharI, isTagChar, Bool.or_eq_true, Bool.and_eq_true, decide_eq_true_eq] at h ⊢
  split_ifs with hc
  · rw [toNat_ofNat_upper _ hc.1 hc.2]
    omega
  · omega

theorem toUpper_of_isTagChar (c : Char) (h : isTagChar c = true) : c.toUpper = c := by
  unfold Char.toUpper
  simp only [isTagChar, Bool.or_eq_true, Bool.and_eq_true, decide_eq_true_eq] at h
  have hc : ¬ (c.toNat ≥ 97 ∧ c.toNat ≤ 122) := by omega
  simp only [hc, if_false]

theorem isTagChar_facts (c : Char) (h : isTagChar c = true) :
    c ≠ '\n' ∧ c ≠ '#' ∧ isJSWhitespace c = false ∧ isTagCharI c = true := by
  simp only [isTagChar, Bool.or_eq_true, Bool.and_eq_true, decide_eq_true_eq] at h
  refine ⟨?_, ?_, ?_, ?_⟩
  · rintro rfl
    revert h
    decide
  · rintro rfl
    revert h
    decide
  · simp only [isJSWhitespace, jsWhitespaceCodes, decide_eq_false_iff_not, List.mem_cons,
      List.mem_singleton, List.not_mem_nil, or_false]
    omega
  · simp only [isTagCharI, isTagChar, Bool.or_eq_true, Bool.and_eq_true, decide_eq_true_eq]
    omega

/-! ### The set conversion -/

theorem mem_foldl_dedupe {α : Type} [DecidableEq α] (xs acc : List α) (y : α) :
    y ∈ xs.foldl (fun seen x => if x ∈ seen then seen else seen ++ [x]) acc
      ↔ y ∈ acc ∨ y ∈ xs := by
  induction xs generalizing acc with
  | nil => simp
  | cons x xs ih =>
    rw [List.foldl_cons, ih]
    by_cases hx : x ∈ acc
    · simp only [hx, if_true, List.mem_cons]
      constructor
      · rintro (h | h)
        · exact Or.inl h
        · exact Or.inr (Or.inr h)
      · rintro (h | rfl | h)
        · exact Or.inl h
        · exact Or.inl hx
        · exact Or.inr h
    · simp only [hx, if_false, List.mem_append, List.mem_singleton, List.mem_cons]
      tauto

theorem nodup_foldl_dedupe {α : Type} [DecidableEq α] (xs acc : List α) (h : acc.Nodup) :
    (xs.foldl (fun seen x => if x ∈ seen then seen else seen ++ [x]) acc).Nodup := by
  induction xs generalizing acc with
  | nil => simpa using h
  | cons x xs ih =>
    rw [List.foldl_cons]
    apply ih
    split_ifs with hx
    · exact h
    · exact List.Nodup.append h (List.nodup_singleton _) (by simpa using hx)

theorem foldl_dedupe_of_nodup {α : Type} [DecidableEq α] (xs acc : List α)
    (h : (acc ++ xs).Nodup) :
    xs.foldl (fun seen x => if x ∈ seen then seen else seen ++ [x]) acc = acc ++ xs := by
  induction xs generalizing acc with
  | nil => simp
  | cons x xs ih =>
    have hx : x ∉ acc := by
      intro hx
      have := List.nodup_append.1 h
      exact this.2.2 hx (List.mem_cons_self _ _)
    rw [List.foldl_cons]
    simp only [hx, if_false]
    rw [ih]
    · simp
    · simpa using h

theorem nodup_dedupe {α : Type} [DecidableEq α] (xs : List α) : (dedupe xs).Nodup :=
  nodup_foldl_dedupe xs [] List.nodup_nil

theorem mem_dedupe {α : Type} [DecidableEq α] (xs : List α) (y : α) :
    y ∈ dedupe xs ↔ y ∈ xs := by
  simp [dedupe, mem_foldl_dedupe]

theorem dedupe_of_nodup {α : Type} [DecidableEq α] (xs : List α) (h : xs.Nodup) :
    dedupe xs = xs := by
  simpa [dedupe] using foldl_dedupe_of_nodup xs [] (by simpa using h)

/-! ### Every extracted tag has the submission form -/

theorem isValidTagChars_cons_map (run : List Char) (h3 : 3 ≤ run.length)
    (hrun : ∀ c ∈ run, isTagCharI c = true) :
    isValidTagChars ('#' :: run.map Char.toUpper) = true := by
  simp only [isValidTagChars, List.length_map, h3, decide_True, Bool.true_and, List.all_map,
    List.all_eq_true, Function.comp]
  intro c hc
  exact isTagChar_toUpper c (hrun c hc)

theorem isValidTagChars_normalizeTag (s m : List Char) (h : matchTagAt s = some m) :
    isValidTagChars (normalizeTag m) = true := by
  unfold matchTagAt at h
  by_cases hh : s.head? = some '#'
  · simp only [hh, decide_True, if_true] at h
    split_ifs at h with h3
    injection h with h
    subst h
    have : normalizeTag ('#' :: s.tail.takeWhile isTagCharI)
        = '#' :: (s.tail.takeWhile isTagCharI).map Char.toUpper := by
      simp [normalizeTag]
    rw [this]
    exact isValidTagChars_cons_map _ h3 (fun c hc => (List.mem_takeWhile_imp hc))
  · simp only [hh, decide_False, if_false, Bool.false_eq_true] at h
    split_ifs at h with h3
    injection h with h
    subst h
    have hhead : (s.takeWhile isTagCharI).head? ≠ some '#' := by
      intro hc
      have hmem : '#' ∈ s.takeWhile isTagCharI := List.mem_of_mem_head? hc
      have := List.mem_takeWhile_imp hmem
      revert this
      decide
    have : normalizeTag (s.takeWhile isTagCharI)
        = '#' :: (s.takeWhile isTagCharI).map Char.toUpper := by
      simp [normalizeTag, hhead]
    rw [this]
    exact isValidTagChars_cons_map _ h3 (fun c hc => (List.mem_takeWhile_imp hc))

theorem exists_matchTagAt_of_mem_matchAllTags (k : Nat) (s m : List Char)
    (h : m ∈ matchAllTags k s) : ∃ s', matchTagAt s' = some m := by
  induction s generalizing k with
  | nil => simp [matchAllTags] at h
  | cons c cs ih =>
    cases k with
    | succ k => exact ih k (by simpa [matchAllTags] using h)
    | zero =>
      simp only [matchAllTags] at h
      cases hm : matchTagAt (c :: cs) with
      | none =>
        rw [hm] at h
        exact ih 0 h
      | some m' =>
        rw [hm] at h
        rcases List.mem_cons.1 h with rfl | h
        · exact ⟨_, hm⟩
        · exact ih _ h

theorem isValidTagChars_of_mem_lineTags (line t : List Char) (h : t ∈ lineTags line) :
    isValidTagChars t = true := by
  unfold lineTags at h
  simp only at h
  split_ifs at h with he
  · simp at h
  · obtain ⟨m, hm, rfl⟩ := List.mem_map.1 h
    obtain ⟨s', hs'⟩ := exists_matchTagAt_of_mem_matchAllTags _ _ _ hm
    exact isValidTagChars_normalizeTag s' m hs'

theorem isValidTagChars_of_mem_extractTagsChars (text t : List Char)
    (h : t ∈ extractTagsChars text) : isValidTagChars t = true := by
  unfold extractTagsChars at h
  rw [mem_dedupe, List.mem_flatMap] at h
  obtain ⟨line, _, hl⟩ := h
  exact isValidTagChars_of_mem_lineTags line t hl

/-! ### Re-reading the joined tags -/

theorem isValidTagChars_iff (t : List Char) :
    isValidTagChars t = true ↔
      ∃ u, t = '#' :: u ∧ 3 ≤ u.length ∧ ∀ c ∈ u, isTagChar c = true := by
  constructor
  · intro h
    match t, h with
    | c :: u, h =>
      by_cases hc : c = '#'
      · subst hc
        simp only [isValidTagChars, Bool.and_eq_true, decide_eq_true_eq, List.all_eq_true] at h
        exact ⟨u, rfl, h.1, h.2⟩
      · exfalso
        unfold isValidTagChars at h
        split at h
        · rename_i heq
          injection heq with h1 h2
          exact hc h1
        · exact Bool.false_ne_true h
  · rintro ⟨u, rfl, h3, hu⟩
    simp only [isValidTagChars, h3, decide_True, Bool.true_and, List.all_eq_true]
    exact hu

theorem matchAllTags_of_length_le (k : Nat) (s : List Char) (h : s.length ≤ k) :
    matchAllTags k s = [] := by
  induction s generalizing k with
  | nil => simp [matchAllTags]
  | cons c cs ih =>
    cases k with
    | zero => simp at h
    | succ k =>
      simp only [matchAllTags]
      exact ih k (by simpa using h)

theorem jsTrim_of_valid (u : List Char) (h3 : 3 ≤ u.length)
    (hu : ∀ c ∈ u, isTagChar c = true) : jsTrim ('#' :: u) = '#' :: u := by
  have hne : u ≠ [] := by
    rintro rfl
    simp at h3
  have h1 : ('#' :: u).dropWhile isJSWhitespace = '#' :: u := by
    rw [List.dropWhile_cons_of_neg]
    decide
  have hlast : isJSWhitespace (u.getLast hne) = false :=
    (isTagChar_facts _ (hu _ (List.getLast_mem hne))).2.2.1
  have h2 : ('#' :: u).reverse = u.getLast hne :: ('#' :: u.dropLast).reverse := by
    conv_lhs => rw [← List.dropLast_append_getLast hne]
    simp
  unfold jsTrim
  rw [h1, h2, List.dropWhile_cons_of_neg (by simp [hlast]), ← h2, List.reverse_reverse]

theorem lineTags_of_valid (t : List Char) (h : isValidTagChars t = true) :
    lineTags t = [t] := by
  obtain ⟨u, rfl, h3, hu⟩ := (isValidTagChars_iff t).1 h
  have hrun : u.takeWhile isTagCharI = u := by
    rw [List.takeWhile_eq_self_iff]
    exact fun c hc => (isTagChar_facts c (hu c hc)).2.2.2
  have hmatch : matchTagAt ('#' :: u) = some ('#' :: u) := by
    simp [matchTagAt, hrun, h3]
  have hall : matchAllTags 0 ('#' :: u) = ['#' :: u] := by
    simp only [matchAllTags, hmatch]
    rw [matchAllTags_of_length_le _ _ (by simp)]
  have hnorm : normalizeTag ('#' :: u) = '#' :: u := by
    simp only [normalizeTag, List.head?_cons, if_true, List.map_cons]
    congr 1
    conv_rhs => rw [← List.map_id u]
    exact List.map_congr_left (fun c hc => toUpper_of_isTagChar c (hu c hc))
  unfold lineTags
  simp only [jsTrim_of_valid u h3 hu, hall]
  simp [hnorm]

theorem splitLines_ne_nil (s : List Char) : splitLines s ≠ [] := by
  induction s with
  | nil => simp [splitLines]
  | cons c cs ih =>
    simp only [splitLines]
    split_ifs
    · simp
    · split <;> simp

theorem splitLines_append_newline (t rest : List Char) (h : '\n' ∉ t) :
    splitLines (t ++ '\n' :: rest) = t :: splitLines rest := by
  induction t with
  | nil => simp [splitLines]
  | cons c cs ih =>
    have hc : c ≠ '\n' := fun e => h (e ▸ List.mem_cons_self _ _)
    have hcs : '\n' ∉ cs := fun e => h (List.mem_cons_of_mem _ e)
    have ih' := ih hcs
    simp only [List.cons_append, splitLines, hc, if_false, List.append_eq]
    rw [ih']

theorem splitLines_of_no_newline (t : List Char) (h : '\n' ∉ t) : splitLines t = [t] := by
  induction t with
  | nil => simp [splitLines]
  | cons c cs ih =>
    have hc : c ≠ '\n' := fun e => h (e ▸ List.mem_cons_self _ _)
    have hcs : '\n' ∉ cs := fun e => h (List.mem_cons_of_mem _ e)
    simp only [splitLines, hc, if_false, ih hcs]

theorem splitLines_joinChars (T : List (List Char)) (hT : T ≠ [])
    (h : ∀ t ∈ T, '\n' ∉ t) : splitLines (joinChars T) = T := by
  induction T with
  | nil => exact absurd rfl hT
  | cons t T ih =>
    cases T with
    | nil => simpa [joinChars] using splitLines_of_no_newline t (h t (List.mem_cons_self _ _))
    | cons t' T' =>
      simp only [joinChars]
      rw [splitLines_append_newline _ _ (h t (List.mem_cons_self _ _)),
        ih (by simp) (fun x hx => h x (List.mem_cons_of_mem _ hx))]

theorem not_newline_mem_of_valid (t : List Char) (h : isValidTagChars t = true) :
    '\n' ∉ t := by
  obtain ⟨u, rfl, _, hu⟩ := (isValidTagChars_iff t).1 h
  intro hmem
  rcases List.mem_cons.1 hmem with h1 | h1
  · revert h1
    decide
  · exact (isTagChar_facts _ (hu _ h1)).1 rfl

theorem extractTagsChars_joinChars (T : List (List Char)) (hn : T.Nodup)
    (hv : ∀ t ∈ T, isValidTagChars t = true) : extractTagsChars (joinChars T) = T := by
  by_cases hT : T = []
  · subst hT
    decide
  · unfold extractTagsChars
    rw [splitLines_joinChars T hT (fun t ht => not_newline_mem_of_valid t (hv t ht))]
    have : T.flatMap lineTags = T := by
      clear hn hT
      induction T with
      | nil => rfl
      | cons t T ih =>
        rw [List.flatMap_cons, lineTags_of_valid t (hv t (List.mem_cons_self _ _)),
          ih (fun x hx => hv x (List.mem_cons_of_mem _ hx))]
        rfl
    rw [this, dedupe_of_nodup T hn]

theorem extractTagsChars_idempotent (text : List Char) :
    extractTagsChars (joinChars (extractTagsChars text)) = extractTagsChars text :=
  extractTagsChars_joinChars _ (nodup_dedupe _)
    (fun t ht => isValidTagChars_of_mem_extractTagsChars text t ht)

/-- C6: reading the newline-joined output of `extractTagsFromText` again returns the same
list of tags, hence the same set. -/
theorem C6_extract_join_idempotent (text : String) :
    extractTagsFromText (joinLines (extractTagsFromText text)) = extractTagsFromText text := by
  unfold extractTagsFromText joinLines
  have : (List.map String.mk (extractTagsChars text.data)).map String.data
      = extractTagsChars text.data := by
    rw [List.map_map]
    conv_rhs => rw [← List.map_id (extractTagsChars text.data)]
    exact List.map_congr_left (fun _ _ => rfl)
  rw [this, extractTagsChars_idempotent]

/-- C7 (as the code has it): the input `abc #VALID1 xy` yields the tags `#ABC` and `#VALID1`
and no other; `xy` has fewer than three characters and is not matched. -/
theorem C7_extract_example :
    extractTagsFromText "abc #VALID1 xy" = ["#ABC", "#VALID1"] := by
  decide

/-- C7 as stated fails: the tags extracted from `abc #VALID1 xy` are not the set holding
`#ABC`, `#VALID1` and `#XY`, since `#XY` is not among them. -/
theorem C7_counterexample_xy_not_extracted :
    ¬ (∀ t, t ∈ extractTagsFromText "abc #VALID1 xy" ↔ t ∈ ["#ABC", "#VALID1", "#XY"]) := by
  intro h
  have hxy : "#XY" ∈ extractTagsFromText "abc #VALID1 xy" := (h "#XY").2 (by decide)
  revert hxy
  decide

/-! ### Requests issued by the handlers -/

theorem requests_emit_request (p : Page) (r : Request) :
    (p.emit (Effect.request r)).requests = p.requests ++ [r] := by
  simp [Page.emit, Page.requests, List.filterMap_append, Effect.request?]

theorem requests_emit_of_not_request (p : Page) (e : Effect) (h : e.request? = none) :
    (p.emit e).requests = p.requests := by
  simp [Page.emit, Page.requests, List.filterMap_append, h]

theorem requests_showAlert (p : Page) (message type : String) :
    (p.showAlert message type).requests = p.requests :=
  requests_emit_of_not_request p (Effect.alert message type) rfl

theorem requests_emit_renderMembersTab (p : Page) :
    (p.emit Effect.renderMembersTab).requests = p.requests :=
  requests_emit_of_not_request p Effect.renderMembersTab rfl

theorem requests_emit_renderComparison (p : Page) :
    (p.emit Effect.renderComparison).requests = p.requests :=
  requests_emit_of_not_request p Effect.renderComparison rfl

theorem requests_emit_dom (p : Page) (what : String) :
    (p.emit (Effect.dom what)).requests = p.requests :=
  requests_emit_of_not_request p (Effect.dom what) rfl

theorem requests_handleMemberAddError (p : Page) (error : ApiError) (tags : List String) :
    (handleMemberAddError p error tags).requests = p.requests := by
  unfold handleMemberAddError
  split_ifs
  · exact requests_showAlert _ _ _
  · exact requests_showAlert _ _ _
  · split
    · split_ifs <;> exact requests_showAlert _ _ _
    · exact requests_showAlert _ _ _
  · exact requests_showAlert _ _ _

theorem requests_loadMembersDisplay (backend : Backend) (p : Page) :
    (loadMembersDisplay backend p).requests
      = if p.currentRosterId = "" then p.requests
        else p.requests ++ [⟨Method.GET, Endpoint.roster p.currentRosterId, Body.none⟩] := by
  unfold loadMembersDisplay
  split_ifs with h
  · rfl
  · simp only [apiCall]
    split
    · rw [requests_showAlert, requests_emit_request]
    · rw [requests_emit_renderMembersTab]
      exact requests_emit_request p _

/-- C8: the tags `addBulkMembers` submits are the extracted tags of the form `#` plus three
or more of A-Z, 0-9, in extraction order, each with the selected category (null for the empty
selection), in one POST to the members endpoint of the current roster; the only request that
can follow is the GET that reloads the roster; with no tag of that form no request is
issued. -/
theorem C8_bulk_add_request (backend : Backend) (p : Page)
    (textareaValue categoryValue : String) :
    (((extractTagsFromText (String.mk (jsTrim textareaValue.data))).filter isValidTag ≠ [] →
      ∃ rest, (addBulkMembers backend p textareaValue categoryValue).requests
          = p.requests ++
            (⟨Method.POST, Endpoint.members p.currentRosterId,
              Body.add (((extractTagsFromText (String.mk (jsTrim textareaValue.data))).filter
                isValidTag).map (fun tag => AddEntry.mk (JSVal.str tag) (orNull categoryValue)))⟩
              :: rest) ∧
        (rest = [] ∨ rest = [⟨Method.GET, Endpoint.roster p.currentRosterId, Body.none⟩])) ∧
    ((extractTagsFromText (String.mk (jsTrim textareaValue.data))).filter isValidTag = [] →
      (addBulkMembers backend p textareaValue categoryValue).requests = p.requests)) := by
  constructor
  · intro hvalid
    have htext : String.mk (jsTrim textareaValue.data) ≠ "" := by
      intro h
      rw [h] at hvalid
      exact hvalid (by decide)
    unfold addBulkMembers
    simp only [htext, if_false, List.length_eq_zero, hvalid, apiCall]
    split
    · exact ⟨[], by rw [requests_handleMemberAddError, requests_emit_request], Or.inl rfl⟩
    · rw [requests_emit_dom, requests_loadMembersDisplay]
      split_ifs with hid
      · refine ⟨[], ?_, Or.inl rfl⟩
        rw [requests_emit_dom, requests_showAlert, requests_emit_request]
      · refine ⟨[⟨Method.GET, Endpoint.roster p.currentRosterId, Body.none⟩], ?_, Or.inr rfl⟩
        rw [requests_emit_dom, requests_showAlert, requests_emit_request]
        simp [Page.emit, Page.showAlert]
  · intro hvalid
    unfold addBulkMembers
    simp only [List.length_eq_zero, hvalid]
    split_ifs <;> exact requests_showAlert _ _ _

/-- C9: for a cross-roster payload dropped on a zone inside a container with a roster id, when
the payload's source roster id equals that id or is missing, the requests `handleCategoryDrop`
issues are exactly one PATCH of the member on that roster, setting `signup_group` to the
zone's category (null for the uncategorized zone); no DELETE and no add. -/
theorem C9_same_roster_drop_one_patch (backend : Backend) (p : Page)
    (event : CategoryDropEvent) (data : DragData) (targetRosterId : String)
    (hpayload : event.payload = Except.ok data)
    (htype : data.type = JSVal.str "cross-roster")
    (htarget : event.targetRosterId = some targetRosterId) (hne : targetRosterId ≠ "")
    (hsame : data.sourceRoster = JSVal.str targetRosterId ∨ data.sourceRoster.truthy = false) :
    (handleCategoryDrop backend p event).requests
      = p.requests ++
        [⟨Method.PATCH, Endpoint.member targetRosterId data.memberTag.toJSString,
          Body.signupGroup (orNull event.categoryId)⟩] := by
  have hsrc : (if data.sourceRoster.truthy = true then data.sourceRoster
      else JSVal.str targetRosterId) = JSVal.str targetRosterId := by
    rcases hsame with h | h
    · simp [h]
    · simp [h]
  unfold handleCategoryDrop
  simp only [hpayload, htype, htarget, hne, hsrc, if_true, if_false, ne_eq, not_true_eq_false,
    apiCall]
  split
  · rw [requests_showAlert, requests_emit_request]
  · split_ifs
    · rw [requests_emit_renderComparison, requests_showAlert, requests_emit_request]
    · rw [requests_showAlert, requests_emit_request]

theorem C9_same_roster_drop_one_patch_witness :
    dropOnR2.payload = Except.ok dragFromR2 ∧
    dragFromR2.type = JSVal.str "cross-roster" ∧
    dropOnR2.targetRosterId = some "r2" ∧ "r2" ≠ "" ∧
    (dragFromR2.sourceRoster = JSVal.str "r2" ∨ dragFromR2.sourceRoster.truthy = false) ∧
    (handleCategoryDrop acceptAll comparePage dropOnR2).requests
      = comparePage.requests ++
        [⟨Method.PATCH, Endpoint.member "r2" dragFromR2.memberTag.toJSString,
          Body.signupGroup (orNull dropOnR2.categoryId)⟩] :=
  ⟨rfl, rfl, rfl, by decide, Or.inl rfl,
    C9_same_roster_drop_one_patch acceptAll comparePage dropOnR2 dragFromR2 "r2" rfl rfl rfl
      (by decide) (Or.inl rfl)⟩

/-- C10: for a non-empty member tag and non-empty source and target roster ids, when the
backend accepts both calls, `transferMemberBetweenRosters` issues exactly two requests, the
DELETE of the member on the source roster and then the POST to the target roster with body
`add: [{tag, signup_group}]`, `signup_group` being the category passed (null when none is
passed), and it returns normally. -/
theorem C10_transfer_delete_then_add (backend : Backend) (p : Page)
    (memberTag sourceRosterId targetRosterId : String) (categoryId : JSVal)
    (removed added : ApiResponse)
    (hm : memberTag ≠ "") (hs : sourceRosterId ≠ "") (ht : targetRosterId ≠ "")
    (hremove : backend p.requests
      ⟨Method.DELETE, Endpoint.member sourceRosterId memberTag, Body.none⟩ = Except.ok removed)
    (hadd : backend
      (p.requests ++ [⟨Method.DELETE, Endpoint.member sourceRosterId memberTag, Body.none⟩])
      ⟨Method.POST, Endpoint.members targetRosterId,
        Body.add [⟨JSVal.str memberTag,
          if categoryId = JSVal.undefined then JSVal.null else categoryId⟩]⟩
      = Except.ok added) :
    (transferMemberBetweenRosters backend p (JSVal.str memberTag) (JSVal.str sourceRosterId)
        (JSVal.str targetRosterId) categoryId).1.requests
      = p.requests ++
        [⟨Method.DELETE, Endpoint.member sourceRosterId memberTag, Body.none⟩,
         ⟨Method.POST, Endpoint.members targetRosterId,
          Body.add [⟨JSVal.str memberTag,
            if categoryId = JSVal.undefined then JSVal.null else categoryId⟩]⟩] ∧
    (transferMemberBetweenRosters backend p (JSVal.str memberTag) (JSVal.str sourceRosterId)
        (JSVal.str targetRosterId) categoryId).2 = Except.ok () := by
  unfold transferMemberBetweenRosters
  simp [JSVal.truthy, JSVal.toJSString, hm, hs, ht, apiCall, hremove, requests_emit_request,
    hadd, requests_showAlert]

theorem C10_transfer_delete_then_add_witness :
    "#ABC" ≠ "" ∧ "r1" ≠ "" ∧ "r2" ≠ "" ∧
    ((transferMemberBetweenRosters acceptAll comparePage (JSVal.str "#ABC") (JSVal.str "r1")
        (JSVal.str "r2") (JSVal.str "c1")).1.requests
      = comparePage.requests ++
        [⟨Method.DELETE, Endpoint.member "r1" "#ABC", Body.none⟩,
         ⟨Method.POST, Endpoint.members "r2",
          Body.add [⟨JSVal.str "#ABC",
            if JSVal.str "c1" = JSVal.undefined then JSVal.null else JSVal.str "c1"⟩]⟩] ∧
     (transferMemberBetweenRosters acceptAll comparePage (JSVal.str "#ABC") (JSVal.str "r1")
        (JSVal.str "r2") (JSVal.str "c1")).2 = Except.ok ()) :=
  ⟨by decide, by decide, by decide,
    C10_transfer_delete_then_add acceptAll comparePage "#ABC" "r1" "r2" (JSVal.str "c1") {} {}
      (by decide) (by decide) (by decide) rfl rfl⟩


/-! ### Building a list of rows or cells with exceptions -/

theorem mapM_except_ok {α β ε : Type} (f : α → Except ε β) (g : α → β) (l : List α)
    (h : ∀ x ∈ l, f x = Except.ok (g x)) : l.mapM f = Except.ok (l.map g) := by
  induction l with
  | nil => rfl
  | cons a l ih =>
    rw [List.mapM_cons, h a (List.mem_cons_self _ _),
      ih (fun x hx => h x (List.mem_cons_of_mem _ hx))]
    rfl

theorem exists_of_forall₂_mem_right {α β : Type} {R : α → β → Prop} {xs : List α}
    {ys : List β} (h : List.Forall₂ R xs ys) (y : β) (hy : y ∈ ys) : ∃ x ∈ xs, R x y := by
  induction h with
  | nil => cases hy
  | cons hxy _ ih =>
    rcases List.mem_cons.1 hy with rfl | hy
    · exact ⟨_, List.mem_cons_self _ _, hxy⟩
    · obtain ⟨x, hx, hr⟩ := ih hy
      exact ⟨x, List.mem_cons_of_mem _ hx, hr⟩

theorem forall₂_of_mapM_except_ok {α β ε : Type} (f : α → Except ε β) (l : List α)
    (ys : List β) (h : l.mapM f = Except.ok ys) :
    List.Forall₂ (fun x y => f x = Except.ok y) l ys := by
  induction l generalizing ys with
  | nil =>
    have : ys = [] := by
      have h' : (Except.ok [] : Except ε (List β)) = Except.ok ys := h
      injection h' with h'
      exact h'.symm
    subst this
    exact List.Forall₂.nil
  | cons a l ih =>
    rw [List.mapM_cons] at h
    cases hfa : f a with
    | error e =>
      rw [hfa] at h
      cases h
    | ok b =>
      rw [hfa] at h
      cases hl : l.mapM f with
      | error e =>
        rw [hl] at h
        cases h
      | ok bs =>
        rw [hl] at h
        have h' : (Except.ok (b :: bs) : Except ε (List β)) = Except.ok ys := h
        injection h' with h'
        subst h'
        exact List.Forall₂.cons hfa (ih bs hl)

/-! ### Cells of a member row -/

theorem memberCell_ok (currentRosterData : Option Roster) (serverClans : Option (List Clan))
    (toNumber : String → Option ℚ) (member : Member) (col : String)
    (hd : discordRenders member) :
    ∃ cell, memberCell currentRosterData serverClans toNumber member col = Except.ok cell := by
  unfold memberCell
  split
  all_goals try (split_ifs <;> exact ⟨_, rfl⟩)
  all_goals try exact ⟨_, rfl⟩
  rcases hd with h | ⟨s, hs⟩
  · exact ⟨_, by simp [h]; rfl⟩
  · rw [hs]
    split_ifs <;> exact ⟨_, rfl⟩

theorem memberCell_hitrate (currentRosterData : Option Roster)
    (serverClans : Option (List Clan)) (toNumber : String → Option ℚ) (member : Member)
    (h : ℚ) (hh : (member.get "hitrate").number? = some h) :
    memberCell currentRosterData serverClans toNumber member "hitrate"
      = Except.ok (Cell.data
          ("px-3 py-2 text-xs " ++
            (if 80 ≤ h then "text-green-400"
             else if 60 ≤ h then "text-yellow-400" else "text-red-400") ++
            " font-medium text-center")
          ((member.get "hitrate").toJSString ++ "%")) := by
  cases hv : member.get "hitrate" with
  | num n =>
    rw [hv] at hh
    simp only [JSVal.number?, Option.some.injEq] at hh
    subst hh
    have e80 : ((80 : ℚ) ≤ (n : ℚ)) ↔ (80 : Int) ≤ n := by norm_cast
    have e60 : ((60 : ℚ) ≤ (n : ℚ)) ↔ (60 : Int) ≤ n := by norm_cast
    simp only [e80, e60]
    simp [memberCell, hv, jsGe, JSVal.isNullish, JSVal.toJSString]
  | dec value text =>
    rw [hv] at hh
    simp only [JSVal.number?, Option.some.injEq] at hh
    subst hh
    simp [memberCell, hv, jsGe, JSVal.isNullish, JSVal.toJSString]
  | undefined => rw [hv] at hh; cases hh
  | null => rw [hv] at hh; cases hh
  | str s => rw [hv] at hh; cases hh
  | bool b => rw [hv] at hh; cases hh

/-- C20: for a member whose `hitrate` is a number of value `h`, an integer or not, the
hitrate cell has the green class when `h >= 80`, the yellow class when `60 <= h < 80` and the
red class when `h < 60`; its text is the text of the number followed by `%`: the decimal
digits for an integer of magnitude below 10^21, and what the host prints for any other
number. -/
theorem C20_hitrate_cell_colour (currentRosterData : Option Roster)
    (serverClans : Option (List Clan)) (toNumber : String → Option ℚ) (member : Member)
    (h : ℚ) (hh : (member.get "hitrate").number? = some h) :
    ∃ content,
      (∀ n : Int, member.get "hitrate" = JSVal.num n → n.natAbs < 10 ^ 21 →
        content = toString n ++ "%") ∧
      (∀ value text, member.get "hitrate" = JSVal.dec value text → content = text ++ "%") ∧
      (80 ≤ h → memberCell currentRosterData serverClans toNumber member "hitrate"
        = Except.ok (Cell.data "px-3 py-2 text-xs text-green-400 font-medium text-center"
            content)) ∧
      (60 ≤ h → h < 80 → memberCell currentRosterData serverClans toNumber member "hitrate"
        = Except.ok (Cell.data "px-3 py-2 text-xs text-yellow-400 font-medium text-center"
            content)) ∧
      (h < 60 → memberCell currentRosterData serverClans toNumber member "hitrate"
        = Except.ok (Cell.data "px-3 py-2 text-xs text-red-400 font-medium text-center"
            content)) := by
  have hcell := memberCell_hitrate currentRosterData serverClans toNumber member h hh
  refine ⟨(member.get "hitrate").toJSString ++ "%", ?_, ?_, ?_, ?_, ?_⟩
  · intro n hn _
    rw [hn]
    rfl
  · intro value text hv
    rw [hv]
    rfl
  · intro h80
    rw [hcell, if_pos h80]
    rfl
  · intro h60 h80
    rw [hcell, if_neg (not_le.2 h80), if_pos h60]
    rfl
  · intro h60
    have h80 : ¬ 80 ≤ h := not_le.2 (lt_trans h60 (by norm_num))
    rw [hcell, if_neg h80, if_neg (not_le.2 h60)]
    rfl

theorem createMemberCard_ok (currentRosterData : Option Roster)
    (serverClans : Option (List Clan)) (toNumber : String → Option ℚ) (member : Member)
    (displayColumns : List String) (hd : discordRenders member) :
    ∃ cells, displayColumns.mapM (memberCell currentRosterData serverClans toNumber member)
        = Except.ok cells ∧
      createMemberCard currentRosterData serverClans toNumber member displayColumns
        = Except.ok { memberTag := member.tag,
                      cells := cells ++ [Cell.remove "removeMember" [member.tag]] } := by
  have hcells := mapM_except_ok (memberCell currentRosterData serverClans toNumber member)
    (fun col => ((memberCell currentRosterData serverClans toNumber member col).toOption).getD
      placeholderCell) displayColumns
    (fun col _ => by
      obtain ⟨cell, hc⟩ := memberCell_ok currentRosterData serverClans toNumber member col hd
      simp [hc, Except.toOption])
  refine ⟨_, hcells, ?_⟩
  unfold createMemberCard
  rw [hcells]

/-- C17, the case that breaks it: in the `switch` of `createMemberCard` the cases `townhall`,
`name`, `hitrate`, `current_clan_tag`, `discord`, `hero_lvs` and `trophies` leave the
placeholder dash cell for a null or undefined value, the case `tag` leaves it for an empty
tag and the `default` case for every other column name, but the case `war_pref` has no such
test: a member without `war_pref` gets the red `Out` cell, as the member that has only the tag
`#ABC` shows.  The row is built without an exception when `discord` is missing or a
string. -/
theorem C17_war_pref_cell_lacks_missing_guard (currentRosterData : Option Roster)
    (serverClans : Option (List Clan)) (toNumber : String → Option ℚ) (member : Member) :
    (∀ col ∈ ["townhall", "name", "hitrate", "current_clan_tag", "discord", "hero_lvs",
        "trophies"], (member.get col).isNullish = true →
      memberCell currentRosterData serverClans toNumber member col
        = Except.ok placeholderCell) ∧
    (member.tag = "" →
      memberCell currentRosterData serverClans toNumber member "tag"
        = Except.ok placeholderCell) ∧
    (∀ col, col ∉ displayFields →
      memberCell currentRosterData serverClans toNumber member col
        = Except.ok placeholderCell) ∧
    ((member.get "war_pref").isNullish = true →
      memberCell currentRosterData serverClans toNumber member "war_pref"
        = Except.ok (Cell.data "px-3 py-2 text-xs text-red-400 text-center" "🚫 Out")) ∧
    (discordRenders member → ∀ displayColumns, ∃ row,
      createMemberCard currentRosterData serverClans toNumber member displayColumns
        = Except.ok row) ∧
    ((tagMember "#ABC").get "war_pref").isNullish = true ∧
    (memberCell none none (fun _ => none) (tagMember "#ABC") "war_pref").toOption
      = some (Cell.data "px-3 py-2 text-xs text-red-400 text-center" "🚫 Out") ∧
    (memberCell none none (fun _ => none) (tagMember "#ABC") "war_pref").toOption
      ≠ some placeholderCell ∧
    (memberCell none none (fun _ => none) (tagMember "#ABC") "trophies").toOption
      = some placeholderCell := by
  have hnull : ∀ v : JSVal, v.isNullish = true → v.truthy = false := by
    intro v hv
    cases v <;> simp_all [JSVal.isNullish, JSVal.truthy]
  refine ⟨?_, ?_, ?_, ?_, ?_, by decide, by decide, by decide, by decide⟩
  · intro col hcol hn
    simp only [List.mem_cons, List.mem_singleton, List.not_mem_nil, or_false] at hcol
    rcases hcol with rfl | rfl | rfl | rfl | rfl | rfl | rfl <;>
      simp [memberCell, hn, hnull _ hn]
  · intro htag
    simp [memberCell, Member.get, JSVal.truthy, htag]
  · intro col hcol
    simp only [displayFields, List.mem_cons, List.mem_singleton, List.not_mem_nil, or_false,
      not_or] at hcol
    obtain ⟨h1, h2, h3, h4, h5, h6, h7, h8, h9⟩ := hcol
    unfold memberCell
    split <;> first | rfl | (exfalso; simp_all)
  · intro hn
    simp [memberCell, hnull _ hn]
  · intro hd displayColumns
    obtain ⟨cells, _, hrow⟩ := createMemberCard_ok currentRosterData serverClans toNumber
      member displayColumns hd
    exact ⟨_, hrow⟩

/-! ### The sections of the members table -/

theorem membersTable_sections (currentRosterData : Option Roster)
    (serverClans : Option (List Clan)) (toNumber : String → Option ℚ)
    (categories : List Category) (sortedMembers : List Member)
    (hkeys : ∀ m ∈ sortedMembers, (m.get "signup_group").truthy = true →
      (m.get "signup_group").toJSString ∉ objectPrototypeKeys)
    (hcats : ∀ c ∈ categories, c.custom_id ∉ objectPrototypeKeys)
    (hdiscord : ∀ m ∈ sortedMembers, discordRenders m) :
    ∃ row : Member → MemberRow,
      (∀ m ∈ sortedMembers,
        createMemberCard currentRosterData serverClans toNumber m
          (getCurrentDisplayColumns currentRosterData) = Except.ok (row m)) ∧
      membersTable currentRosterData serverClans toNumber categories sortedMembers
        = Except.ok
          { header := createTableHeader (getCurrentDisplayColumns currentRosterData),
            body :=
              (if 0 < (sortedMembers.filter (fun m => !(m.get "signup_group").truthy)).length
               then
                TableRow.separator "Uncategorized"
                  (sortedMembers.filter (fun m => !(m.get "signup_group").truthy)).length
                  ((getCurrentDisplayColumns currentRosterData).length + 1) ::
                createEmptyDropRow currentRosterData categories "" ::
                (sortedMembers.filter (fun m => !(m.get "signup_group").truthy)).map
                  (fun m => TableRow.member (row m))
               else []) ++
              categories.flatMap (fun c =>
                TableRow.separator c.aliasName
                  (sortedMembers.filter (fun m => (m.get "signup_group").truthy &&
                    decide ((m.get "signup_group").toJSString = c.custom_id))).length
                  ((getCurrentDisplayColumns currentRosterData).length + 1) ::
                createEmptyDropRow currentRosterData categories c.custom_id ::
                (sortedMembers.filter (fun m => (m.get "signup_group").truthy &&
                    decide ((m.get "signup_group").toJSString = c.custom_id))).map
                  (fun m => TableRow.member (row m))) } := by
  obtain ⟨g, hg, hu, hc, _, _⟩ := foldlM_groupStep sortedMembers ⟨[], []⟩ hkeys
  have hu' : g.uncategorizedMembers
      = sortedMembers.filter (fun m => !(m.get "signup_group").truthy) := by simpa using hu
  have hc' : ∀ key, g.categoryMembers key
      = sortedMembers.filter (fun m => (m.get "signup_group").truthy &&
          decide ((m.get "signup_group").toJSString = key)) := by
    intro key
    simpa [Grouping.categoryMembers, ownProperty] using hc key
  let row : Member → MemberRow := fun m =>
    ((createMemberCard currentRosterData serverClans toNumber m
      (getCurrentDisplayColumns currentRosterData)).toOption).getD ⟨m.tag, [], none, false⟩
  have hrow : ∀ m ∈ sortedMembers,
      createMemberCard currentRosterData serverClans toNumber m
        (getCurrentDisplayColumns currentRosterData) = Except.ok (row m) := by
    intro m hm
    obtain ⟨cells, _, hr⟩ := createMemberCard_ok currentRosterData serverClans toNumber m
      (getCurrentDisplayColumns currentRosterData) (hdiscord m hm)
    simp [row, hr, Except.toOption]
  have hmap : ∀ l : List Member, (∀ m ∈ l, m ∈ sortedMembers) →
      l.mapM (fun member => createMemberCard currentRosterData serverClans toNumber member
        (getCurrentDisplayColumns currentRosterData)) = Except.ok (l.map row) :=
    fun l hl => mapM_except_ok _ row l (fun m hm => hrow m (hl m hm))
  have hfirst : uncategorizedRows currentRosterData serverClans toNumber categories
      g.uncategorizedMembers
      = Except.ok
        (if 0 < (sortedMembers.filter (fun m => !(m.get "signup_group").truthy)).length then
          TableRow.separator "Uncategorized"
            (sortedMembers.filter (fun m => !(m.get "signup_group").truthy)).length
            ((getCurrentDisplayColumns currentRosterData).length + 1) ::
          createEmptyDropRow currentRosterData categories "" ::
          (sortedMembers.filter (fun m => !(m.get "signup_group").truthy)).map
            (fun m => TableRow.member (row m))
         else []) := by
    unfold uncategorizedRows
    rw [hu']
    by_cases hpos : 0 < (sortedMembers.filter (fun m => !(m.get "signup_group").truthy)).length
    · rw [if_pos hpos, hmap _ (fun m hm => (List.mem_filter.1 hm).1), if_pos hpos]
      simp [createGroupSeparator, List.map_map, Function.comp]
    · rw [if_neg hpos, if_neg hpos]
  have hsections : categories.mapM
      (categoryRows currentRosterData serverClans toNumber categories g)
      = Except.ok (categories.map (fun c =>
          TableRow.separator c.aliasName
            (sortedMembers.filter (fun m => (m.get "signup_group").truthy &&
              decide ((m.get "signup_group").toJSString = c.custom_id))).length
            ((getCurrentDisplayColumns currentRosterData).length + 1) ::
          createEmptyDropRow currentRosterData categories c.custom_id ::
          (sortedMembers.filter (fun m => (m.get "signup_group").truthy &&
              decide ((m.get "signup_group").toJSString = c.custom_id))).map
            (fun m => TableRow.member (row m)))) := by
    apply mapM_except_ok
    intro c hcm
    unfold categoryRows
    rw [if_neg (hcats c hcm)]
    simp only [hc' c.custom_id]
    rw [hmap _ (fun m hm => (List.mem_filter.1 hm).1)]
    simp [createGroupSeparator, List.map_map, Function.comp]
  refine ⟨row, hrow, ?_⟩
  have hgroup : groupMembers sortedMembers = Except.ok g := hg
  unfold membersTable
  rw [hgroup]
  simp only [hfirst, hsections, List.flatMap]

/-- C16: when no `signup_group` and no category id names an inherited object property and
every `discord` value is missing or a string, the table is built, and its body is, in order,
the Uncategorized section (only when there is an uncategorized member) and then one section
per category in the order of the category list; a section is a separator row with the
category alias and a count, a hidden drop row, and exactly that many member rows, one for each
member of the category in sorted order. -/
theorem C16_table_sections_in_order (currentRosterData : Option Roster)
    (serverClans : Option (List Clan)) (toNumber : String → Option ℚ)
    (categories : List Category) (sortedMembers : List Member)
    (hkeys : ∀ m ∈ sortedMembers, (m.get "signup_group").truthy = true →
      (m.get "signup_group").toJSString ∉ objectPrototypeKeys)
    (hcats : ∀ c ∈ categories, c.custom_id ∉ objectPrototypeKeys)
    (hdiscord : ∀ m ∈ sortedMembers, discordRenders m) :
    ∃ row : Member → MemberRow,
      (∀ m ∈ sortedMembers,
        createMemberCard currentRosterData serverClans toNumber m
          (getCurrentDisplayColumns currentRosterData) = Except.ok (row m) ∧
        (row m).memberTag = m.tag) ∧
      ∃ table,
        membersTable currentRosterData serverClans toNumber categories sortedMembers
          = Except.ok table ∧
        table.body =
          (if 0 < (sortedMembers.filter (fun m => !(m.get "signup_group").truthy)).length
           then
            TableRow.separator "Uncategorized"
              (sortedMembers.filter (fun m => !(m.get "signup_group").truthy)).length
              ((getCurrentDisplayColumns currentRosterData).length + 1) ::
            createEmptyDropRow currentRosterData categories "" ::
            (sortedMembers.filter (fun m => !(m.get "signup_group").truthy)).map
              (fun m => TableRow.member (row m))
           else []) ++
          categories.flatMap (fun c =>
            TableRow.separator c.aliasName
              (sortedMembers.filter (fun m => (m.get "signup_group").truthy &&
                decide ((m.get "signup_group").toJSString = c.custom_id))).length
              ((getCurrentDisplayColumns currentRosterData).length + 1) ::
            createEmptyDropRow currentRosterData categories c.custom_id ::
            (sortedMembers.filter (fun m => (m.get "signup_group").truthy &&
                decide ((m.get "signup_group").toJSString = c.custom_id))).map
              (fun m => TableRow.member (row m))) := by
  obtain ⟨row, hrow, htable⟩ := membersTable_sections currentRosterData serverClans toNumber
    categories sortedMembers hkeys hcats hdiscord
  refine ⟨row, ?_, _, htable, rfl⟩
  intro m hm
  refine ⟨hrow m hm, ?_⟩
  obtain ⟨cells, _, hr⟩ := createMemberCard_ok currentRosterData serverClans toNumber m
    (getCurrentDisplayColumns currentRosterData) (hdiscord m hm)
  have h := (hrow m hm).symm.trans hr
  injection h with h
  rw [h]

theorem C16_table_sections_in_order_witness :
    (∀ m ∈ c4Members, (m.get "signup_group").truthy = true →
      (m.get "signup_group").toJSString ∉ objectPrototypeKeys) ∧
    (∀ c ∈ oneCategory, c.custom_id ∉ objectPrototypeKeys) ∧
    (∀ m ∈ c4Members, discordRenders m) ∧
    (membersTable none none (fun _ => none) oneCategory c4Members).toOption.map
        (fun t => t.body.map TableRow.width) = some [5, 5, 5, 5, 5, 5, 5, 5] ∧
    ∃ row : Member → MemberRow,
      (∀ m ∈ c4Members,
        createMemberCard none none (fun _ => none) m (getCurrentDisplayColumns none)
          = Except.ok (row m) ∧
        (row m).memberTag = m.tag) ∧
      ∃ table,
        membersTable none none (fun _ => none) oneCategory c4Members = Except.ok table ∧
        table.body =
          (if 0 < (c4Members.filter (fun m => !(m.get "signup_group").truthy)).length
           then
            TableRow.separator "Uncategorized"
              (c4Members.filter (fun m => !(m.get "signup_group").truthy)).length
              ((getCurrentDisplayColumns none).length + 1) ::
            createEmptyDropRow none oneCategory "" ::
            (c4Members.filter (fun m => !(m.get "signup_group").truthy)).map
              (fun m => TableRow.member (row m))
           else []) ++
          oneCategory.flatMap (fun c =>
            TableRow.separator c.aliasName
              (c4Members.filter (fun m => (m.get "signup_group").truthy &&
                decide ((m.get "signup_group").toJSString = c.custom_id))).length
              ((getCurrentDisplayColumns none).length + 1) ::
            createEmptyDropRow none oneCategory c.custom_id ::
            (c4Members.filter (fun m => (m.get "signup_group").truthy &&
                decide ((m.get "signup_group").toJSString = c.custom_id))).map
              (fun m => TableRow.member (row m))) :=
  have hd : ∀ m ∈ c4Members, discordRenders m := by
    intro m hm
    simp only [c4Members, List.mem_cons, List.mem_singleton, List.not_mem_nil, or_false] at hm
    rcases hm with rfl | rfl | rfl | rfl | rfl <;> exact Or.inl rfl
  ⟨by decide, by decide, hd, by decide,
    C16_table_sections_in_order none none (fun _ => none) oneCategory c4Members
      (by decide) (by decide) hd⟩

/-- C15, the renderer that breaks it: with the one category `c1`, a roster whose only member
`#ZZZ` has the `signup_group` `ghost` is grouped under the key `ghost` and counted by the
roster summary, and the drop handlers name such an id `Unknown`; but the table is the empty
section of `c1` alone, with no row for the member and no separator labelled `Unknown`. -/
theorem C15_unmatched_group_member_dropped :
    (ghostMember.get "signup_group").isNullish = false ∧
    (ghostMember.get "signup_group").toJSString ∉ oneCategory.map Category.custom_id ∧
    (groupMembers [ghostMember]).toOption.map Grouping.tags
      = some ([], [("ghost", ["#ZZZ"])]) ∧
    (rosterMembers ghostRoster).length = 1 ∧
    externalCount none ghostRoster = 1 ∧
    categoryName oneCategory (JSVal.str "ghost") = "Unknown" ∧
    (membersTable none none (fun _ => none) oneCategory (rosterMembers ghostRoster)).toOption.map
        MembersTable.body
      = some [TableRow.separator "Main" 0 5, TableRow.emptyDrop "c1" 5 "Main"] := by
  decide

/-! ### The action column -/

theorem createMemberCard_cells (currentRosterData : Option Roster)
    (serverClans : Option (List Clan)) (toNumber : String → Option ℚ) (member : Member)
    (displayColumns : List String) (row : MemberRow)
    (h : createMemberCard currentRosterData serverClans toNumber member displayColumns
      = Except.ok row) :
    ∃ cells,
      List.Forall₂ (fun col cell =>
        memberCell currentRosterData serverClans toNumber member col = Except.ok cell)
        displayColumns cells ∧
      row = { memberTag := member.tag,
              cells := cells ++ [Cell.remove "removeMember" [member.tag]] } := by
  unfold createMemberCard at h
  cases hc : displayColumns.mapM (memberCell currentRosterData serverClans toNumber member) with
  | error e =>
    rw [hc] at h
    cases h
  | ok cells =>
    rw [hc] at h
    injection h with h
    exact ⟨cells, forall₂_of_mapM_except_ok _ _ _ hc, h.symm⟩

theorem createMemberCard_width (currentRosterData : Option Roster)
    (serverClans : Option (List Clan)) (toNumber : String → Option ℚ) (member : Member)
    (displayColumns : List String) (row : MemberRow)
    (h : createMemberCard currentRosterData serverClans toNumber member displayColumns
      = Except.ok row) : row.cells.length = displayColumns.length + 1 := by
  obtain ⟨cells, hcells, rfl⟩ := createMemberCard_cells _ _ _ _ _ _ h
  simp [hcells.length_eq]

theorem width_of_mem_memberRows (currentRosterData : Option Roster)
    (serverClans : Option (List Clan)) (toNumber : String → Option ℚ)
    (members : List Member) (rows : List MemberRow)
    (h : members.mapM (fun member => createMemberCard currentRosterData serverClans toNumber
      member (getCurrentDisplayColumns currentRosterData)) = Except.ok rows) :
    ∀ r ∈ rows.map TableRow.member,
      r.width = (getCurrentDisplayColumns currentRosterData).length + 1 := by
  intro r hr
  obtain ⟨row, hrow, rfl⟩ := List.mem_map.1 hr
  obtain ⟨m, _, hm⟩ := exists_of_forall₂_mem_right (forall₂_of_mapM_except_ok _ _ _ h) row hrow
  exact createMemberCard_width _ _ _ _ _ _ hm

theorem membersTable_widths (currentRosterData : Option Roster)
    (serverClans : Option (List Clan)) (toNumber : String → Option ℚ)
    (categories : List Category) (sortedMembers : List Member) (table : MembersTable)
    (h : membersTable currentRosterData serverClans toNumber categories sortedMembers
      = Except.ok table) :
    table.header.length = (getCurrentDisplayColumns currentRosterData).length + 1 ∧
    ∀ r ∈ table.body, r.width = (getCurrentDisplayColumns currentRosterData).length + 1 := by
  unfold membersTable at h
  cases hg : groupMembers sortedMembers with
  | error e =>
    rw [hg] at h
    cases h
  | ok g =>
    rw [hg] at h
    simp only at h
    cases hu : uncategorizedRows currentRosterData serverClans toNumber categories
        g.uncategorizedMembers with
    | error e =>
      rw [hu] at h
      cases h
    | ok first =>
      rw [hu] at h
      simp only at h
      cases hs : categories.mapM
          (categoryRows currentRosterData serverClans toNumber categories g) with
      | error e =>
        rw [hs] at h
        cases h
      | ok sections =>
        rw [hs] at h
        injection h with h
        subst h
        refine ⟨by simp [createTableHeader], ?_⟩
        intro r hr
        rcases List.mem_append.1 hr with hr | hr
        · unfold uncategorizedRows at hu
          split_ifs at hu
          · cases hm : g.uncategorizedMembers.mapM (fun member =>
                createMemberCard currentRosterData serverClans toNumber member
                  (getCurrentDisplayColumns currentRosterData)) with
            | error e =>
              rw [hm] at hu
              cases hu
            | ok rows =>
              rw [hm] at hu
              injection hu with hu
              subst hu
              rcases List.mem_cons.1 hr with rfl | hr
              · rfl
              · rcases List.mem_cons.1 hr with rfl | hr
                · rfl
                · exact width_of_mem_memberRows _ _ _ _ _ hm r hr
          · injection hu with hu
            subst hu
            cases hr
        · obtain ⟨sec, hsec, hrsec⟩ := List.mem_flatten.1 hr
          obtain ⟨c, _, hci⟩ := exists_of_forall₂_mem_right
            (forall₂_of_mapM_except_ok _ _ _ hs) sec hsec
          unfold categoryRows at hci
          split_ifs at hci
          simp only at hci
          cases hm : (g.categoryMembers c.custom_id).mapM
              (fun member => createMemberCard currentRosterData serverClans toNumber member
                (getCurrentDisplayColumns currentRosterData)) with
          | error e =>
            rw [hm] at hci
            cases hci
          | ok rows =>
            rw [hm] at hci
            injection hci with hci
            rw [← hci] at hrsec
            rcases List.mem_cons.1 hrsec with rfl | hr'
            · rfl
            · rcases List.mem_cons.1 hr' with rfl | hr'
              · rfl
              · exact width_of_mem_memberRows _ _ _ _ _ hm r hr'

/-- C18: for `n` display columns the header has `n + 1` cells, the column names in order
and `Actions` last; a member row built by `createMemberCard` has `n + 1` cells, the cell of
each column in order and then the cell with the remove button for the member's tag; a
separator row spans one more than the number of current display columns; and in every table
`loadMembersDisplay` builds, the header and each row of the body take that same number of
columns. -/
theorem C18_action_column_appended (currentRosterData : Option Roster)
    (serverClans : Option (List Clan)) (toNumber : String → Option ℚ)
    (categories : List Category) (displayColumns : List String) :
    ((createTableHeader displayColumns).length = displayColumns.length + 1 ∧
      (createTableHeader displayColumns).take displayColumns.length
        = displayColumns.map getColumnDisplayName ∧
      (createTableHeader displayColumns).getLast? = some "Actions") ∧
    (∀ member row,
      createMemberCard currentRosterData serverClans toNumber member displayColumns
        = Except.ok row →
      row.cells.length = displayColumns.length + 1 ∧
      row.cells.getLast? = some (Cell.remove "removeMember" [member.tag]) ∧
      List.Forall₂ (fun col cell =>
        memberCell currentRosterData serverClans toNumber member col = Except.ok cell)
        displayColumns (row.cells.take displayColumns.length)) ∧
    (∀ categoryName categoryCount,
      (createGroupSeparator currentRosterData categoryName categoryCount).width
        = (getCurrentDisplayColumns currentRosterData).length + 1) ∧
    (∀ sortedMembers table,
      membersTable currentRosterData serverClans toNumber categories sortedMembers
        = Except.ok table →
      table.header.length = (getCurrentDisplayColumns currentRosterData).length + 1 ∧
      ∀ r ∈ table.body, r.width = (getCurrentDisplayColumns currentRosterData).length + 1) := by
  refine ⟨⟨by simp [createTableHeader], ?_, by simp [createTableHeader]⟩, ?_, ?_, ?_⟩
  · unfold createTableHeader
    rw [List.take_append_of_le_length (by simp)]
    simp
  · intro member row h
    obtain ⟨cells, hcells, rfl⟩ := createMemberCard_cells _ _ _ _ _ _ h
    have hlen := hcells.length_eq
    refine ⟨by simp [hlen], by simp, ?_⟩
    simp only
    rw [hlen, List.take_left']
    · exact hcells
    · rfl
  · intro categoryName categoryCount
    rfl
  · intro sortedMembers table h
    exact membersTable_widths _ _ _ _ _ _ h

/-! ### Transfers that fail half-way, cancelled transfers and intra-roster drops -/

/-- C11: for a non-empty member tag and non-empty roster ids, when the backend accepts the
DELETE and rejects the POST, the requests `transferMemberBetweenRosters` issues are exactly
that DELETE and then that POST, nothing is sent after the failure, and the function throws
the message `Transfer failed: ` followed by the message of the POST's error. -/
theorem C11_add_failure_no_rollback (backend : Backend) (p : Page)
    (memberTag sourceRosterId targetRosterId : String) (categoryId : JSVal)
    (removed : ApiResponse) (error : ApiError)
    (hm : memberTag ≠ "") (hs : sourceRosterId ≠ "") (ht : targetRosterId ≠ "")
    (hremove : backend p.requests
      ⟨Method.DELETE, Endpoint.member sourceRosterId memberTag, Body.none⟩ = Except.ok removed)
    (hadd : backend
      (p.requests ++ [⟨Method.DELETE, Endpoint.member sourceRosterId memberTag, Body.none⟩])
      ⟨Method.POST, Endpoint.members targetRosterId,
        Body.add [⟨JSVal.str memberTag,
          if categoryId = JSVal.undefined then JSVal.null else categoryId⟩]⟩
      = Except.error error) :
    (transferMemberBetweenRosters backend p (JSVal.str memberTag) (JSVal.str sourceRosterId)
        (JSVal.str targetRosterId) categoryId).1.requests
      = p.requests ++
        [⟨Method.DELETE, Endpoint.member sourceRosterId memberTag, Body.none⟩,
         ⟨Method.POST, Endpoint.members targetRosterId,
          Body.add [⟨JSVal.str memberTag,
            if categoryId = JSVal.undefined then JSVal.null else categoryId⟩]⟩] ∧
    (transferMemberBetweenRosters backend p (JSVal.str memberTag) (JSVal.str sourceRosterId)
        (JSVal.str targetRosterId) categoryId).2
      = Except.error ("Transfer failed: " ++ error.message) := by
  unfold transferMemberBetweenRosters
  simp [JSVal.truthy, JSVal.toJSString, hm, hs, ht, apiCall, hremove, requests_emit_request,
    hadd]

theorem C11_add_failure_no_rollback_witness :
    "#ABC" ≠ "" ∧ "r1" ≠ "" ∧ "r2" ≠ "" ∧
    ((transferMemberBetweenRosters rejectAdds comparePage (JSVal.str "#ABC") (JSVal.str "r1")
        (JSVal.str "r2") (JSVal.str "c1")).1.requests
      = comparePage.requests ++
        [⟨Method.DELETE, Endpoint.member "r1" "#ABC", Body.none⟩,
         ⟨Method.POST, Endpoint.members "r2",
          Body.add [⟨JSVal.str "#ABC",
            if JSVal.str "c1" = JSVal.undefined then JSVal.null else JSVal.str "c1"⟩]⟩] ∧
     (transferMemberBetweenRosters rejectAdds comparePage (JSVal.str "#ABC") (JSVal.str "r1")
        (JSVal.str "r2") (JSVal.str "c1")).2
      = Except.error ("Transfer failed: " ++
          ({ message := "Player not found", status := some 404 } : ApiError).message)) :=
  ⟨by decide, by decide, by decide,
    C11_add_failure_no_rollback rejectAdds comparePage "#ABC" "r1" "r2" (JSVal.str "c1") {}
      { message := "Player not found", status := some 404 }
      (by decide) (by decide) (by decide) rfl rfl⟩

theorem requests_cancelled_modal (backend : Backend) (p : Page) (choice : ModalChoice)
    (memberTag sourceRosterId targetRosterId : JSVal)
    (hc : choice = ModalChoice.cancelButton ∨ choice = ModalChoice.backgroundClick) :
    (showCategorySelectionModal backend p choice memberTag sourceRosterId
        targetRosterId).1.requests = p.requests ∧
    (showCategorySelectionModal backend p choice memberTag sourceRosterId targetRosterId).2
      = Except.error "Transfer cancelled" := by
  rcases hc with rfl | rfl <;>
    simp [showCategorySelectionModal, requests_emit_dom]

theorem requests_cancelled_drop (backend : Backend) (p : Page) (event : CrossRosterDropEvent)
    (choice : ModalChoice)
    (hc : choice = ModalChoice.cancelButton ∨ choice = ModalChoice.backgroundClick) :
    (handleCrossRosterDrop backend p event choice).requests = p.requests := by
  unfold handleCrossRosterDrop
  simp only
  split
  · rw [requests_emit_dom, requests_showAlert]
  · rename_i data _
    generalize (if event.containerRosterId.getD "" = "" ∧
        event.containerId = "main-roster-content" then p.currentRosterId
      else event.containerRosterId.getD "") = target
    split_ifs
    · rw [requests_emit_dom]
    · rw [requests_emit_dom, requests_showAlert]
    · rw [requests_emit_dom, requests_showAlert]
    · obtain ⟨h1, h2⟩ := requests_cancelled_modal backend p choice data.memberTag
        data.sourceRoster (JSVal.str target) hc
      simp only [h2]
      rw [requests_emit_dom, requests_showAlert, h1]

/-- C12: when the user leaves the category-selection modal by the Cancel button or by a click
on the background, `handleCrossRosterDrop` issues no request at all, whatever the drop event,
the page state and the backend. -/
theorem C12_cancelled_modal_no_request (backend : Backend) (p : Page)
    (event : CrossRosterDropEvent) :
    (handleCrossRosterDrop backend p event ModalChoice.cancelButton).requests = p.requests ∧
    (handleCrossRosterDrop backend p event ModalChoice.backgroundClick).requests
      = p.requests :=
  ⟨requests_cancelled_drop backend p event _ (Or.inl rfl),
   requests_cancelled_drop backend p event _ (Or.inr rfl)⟩

/-- C13: a drop with a non-empty member tag issues one PATCH of that member on the current
roster with `signup_group` set to the zone's category id, or to null for the empty id; the
only request that can follow is the GET that reloads the roster, so the PATCH is the only
mutating call; a drop with an empty payload issues no request. -/
theorem C13_intra_roster_drop_one_patch (backend : Backend) (p : Page)
    (memberTag categoryId : String) :
    (memberTag ≠ "" →
      ∃ rest, (handleDrop backend p memberTag categoryId).requests
          = p.requests ++
            (⟨Method.PATCH, Endpoint.member p.currentRosterId memberTag,
              Body.signupGroup (orNull categoryId)⟩ :: rest) ∧
        (rest = [] ∨ rest = [⟨Method.GET, Endpoint.roster p.currentRosterId, Body.none⟩]) ∧
        ((handleDrop backend p memberTag categoryId).requests.drop p.requests.length).filter
            (fun r => decide (r.method ≠ Method.GET))
          = [⟨Method.PATCH, Endpoint.member p.currentRosterId memberTag,
              Body.signupGroup (orNull categoryId)⟩]) ∧
    (memberTag = "" → (handleDrop backend p memberTag categoryId).requests = p.requests) ∧
    orNull "" = JSVal.null := by
  refine ⟨?_, ?_, by decide⟩
  · intro hm
    have key : ∃ rest, (handleDrop backend p memberTag categoryId).requests
          = p.requests ++
            (⟨Method.PATCH, Endpoint.member p.currentRosterId memberTag,
              Body.signupGroup (orNull categoryId)⟩ :: rest) ∧
        (rest = [] ∨ rest = [⟨Method.GET, Endpoint.roster p.currentRosterId, Body.none⟩]) := by
      unfold handleDrop moveMemberToCategory
      simp only [hm, if_false, apiCall]
      split
      · exact ⟨[], by rw [requests_showAlert, requests_emit_request], Or.inl rfl⟩
      · rw [requests_loadMembersDisplay]
        split_ifs with hid
        · exact ⟨[], by rw [requests_showAlert, requests_emit_request], Or.inl rfl⟩
        · refine ⟨[⟨Method.GET, Endpoint.roster p.currentRosterId, Body.none⟩], ?_, Or.inr rfl⟩
          rw [requests_showAlert, requests_emit_request]
          simp [Page.emit, Page.showAlert]
    obtain ⟨rest, hreq, hrest⟩ := key
    refine ⟨rest, hreq, hrest, ?_⟩
    rw [hreq, List.drop_left]
    rcases hrest with rfl | rfl <;> simp
  · intro hm
    simp [handleDrop, hm]

/-! ### Reloading the comparison view -/

theorem noNewGet_refl (p : Page) : NoNewGet p p := ⟨[], by simp, by simp⟩

theorem noNewGet_showAlert {p q : Page} (message type : String) (h : NoNewGet p q) :
    NoNewGet p (q.showAlert message type) := by
  obtain ⟨extra, h1, h2⟩ := h
  exact ⟨extra, by rw [requests_showAlert, h1], h2⟩

theorem noNewGet_renderComparison {p q : Page} (h : NoNewGet p q) :
    NoNewGet p (q.emit Effect.renderComparison) := by
  obtain ⟨extra, h1, h2⟩ := h
  exact ⟨extra, by rw [requests_emit_renderComparison, h1], h2⟩

theorem noNewGet_request {p q : Page} (r : Request) (hr : r.method ≠ Method.GET)
    (h : NoNewGet p q) : NoNewGet p (q.emit (Effect.request r)) := by
  obtain ⟨extra, h1, h2⟩ := h
  refine ⟨extra ++ [r], by rw [requests_emit_request, h1, List.append_assoc], ?_⟩
  intro x hx
  rcases List.mem_append.1 hx with hx | hx
  · exact h2 x hx
  · rw [List.mem_singleton.1 hx]
    exact hr

theorem noNewGet_transferMemberBetweenRosters (backend : Backend) (p : Page)
    (memberTag sourceRosterId targetRosterId categoryId : JSVal) :
    NoNewGet p (transferMemberBetweenRosters backend p memberTag sourceRosterId
      targetRosterId categoryId).1 := by
  unfold transferMemberBetweenRosters
  simp only [apiCall]
  repeat' first
    | split
    | apply noNewGet_showAlert
    | apply noNewGet_request _ (by simp)
    | exact noNewGet_refl _

theorem handleCategoryDrop_no_get (backend : Backend) (p : Page) (event : CategoryDropEvent) :
    NoNewGet p (handleCategoryDrop backend p event) := by
  unfold handleCategoryDrop
  simp only [apiCall]
  repeat' first
    | split
    | apply noNewGet_showAlert
    | apply noNewGet_renderComparison
    | apply noNewGet_request _ (by simp)
    | exact noNewGet_transferMemberBetweenRosters _ _ _ _ _ _
    | exact noNewGet_refl _

/-- C14, the handler that breaks it: `handleCategoryDrop` never issues a GET, whatever the
event, the page and the backend; on the page comparing roster `r1` with roster `r2`, a drop
of member `#ABC` of `r2` on the zone of category `c1` of `r2`, accepted by the backend, makes
the PATCH, shows the success alert and rebuilds the comparison tables from the rosters held
in memory, with no roster fetched in between. -/
theorem C14_category_drop_rerenders_without_refetch :
    (∀ (backend : Backend) (p : Page) (event : CategoryDropEvent),
      NoNewGet p (handleCategoryDrop backend p event)) ∧
    comparePage.comparisonRosters.length = 1 ∧
    (handleCategoryDrop acceptAll comparePage dropOnR2).log
      = [Effect.request ⟨Method.PATCH, Endpoint.member "r2" "#ABC",
            Body.signupGroup (JSVal.str "c1")⟩,
         Effect.alert "Moved #ABC to Main!" "success",
         Effect.renderComparison] :=
  ⟨handleCategoryDrop_no_get, by decide, by decide⟩

theorem log_reloadComparisonRosters (backend : Backend)
    (hacc : ∀ past req, ∃ response, backend past req = Except.ok response)
    (rosters : List Roster) (p : Page) (reloaded : List (Option Roster)) :
    (reloadComparisonRosters backend p reloaded (rosters.map some)).2 = none ∧
    (reloadComparisonRosters backend p reloaded (rosters.map some)).1.log
      = p.log ++ rosters.map (fun roster =>
          Effect.request ⟨Method.GET, Endpoint.roster (rosterUrlId roster), Body.none⟩) := by
  induction rosters generalizing p reloaded with
  | nil => simp [reloadComparisonRosters]
  | cons roster rosters ih =>
    obtain ⟨response, hr⟩ := hacc p.requests
      ⟨Method.GET, Endpoint.roster (rosterUrlId roster), Body.none⟩
    simp only [List.map_cons, reloadComparisonRosters, apiCall, hr]
    obtain ⟨h1, h2⟩ := ih
      (p.emit (Effect.request ⟨Method.GET, Endpoint.roster (rosterUrlId roster), Body.none⟩))
      (reloaded ++ [response.roster])
    refine ⟨h1, ?_⟩
    rw [h2]
    simp [Page.emit]

theorem log_reloadComparisonData (backend : Backend)
    (hacc : ∀ past req, ∃ response, backend past req = Except.ok response)
    (rosters : List Roster) (p : Page) (hheld : p.comparisonRosters = rosters.map some) :
    (reloadComparisonData backend p).log
      = p.log ++
        Effect.request ⟨Method.GET, Endpoint.roster p.currentRosterId, Body.none⟩ ::
        rosters.map (fun roster =>
          Effect.request ⟨Method.GET, Endpoint.roster (rosterUrlId roster), Body.none⟩) ++
        [Effect.renderComparison] := by
  obtain ⟨response, hr⟩ := hacc p.requests
    ⟨Method.GET, Endpoint.roster p.currentRosterId, Body.none⟩
  obtain ⟨currentRosterId, currentRosterData, held, categories, log⟩ := p
  simp only at hheld
  subst hheld
  obtain ⟨h1, h2⟩ := log_reloadComparisonRosters backend hacc rosters
    { currentRosterId := currentRosterId, currentRosterData := response.roster,
      comparisonRosters := rosters.map some, categories := categories,
      log := log ++ [Effect.request ⟨Method.GET, Endpoint.roster currentRosterId, Body.none⟩] }
    []
  unfold reloadComparisonData
  simp only [apiCall, hr, Page.emit]
  split
  · rename_i q message heq
    rw [heq] at h1
    cases h1
  · rename_i q heq
    rw [heq] at h2
    simp only at h2 ⊢
    rw [h2]
    simp

theorem log_removeMemberFromRoster (backend : Backend)
    (hacc : ∀ past req, ∃ response, backend past req = Except.ok response)
    (rosters : List Roster) (p : Page) (memberTag rosterId : String)
    (hheld : p.comparisonRosters = rosters.map some) (hactive : rosters ≠ []) :
    (removeMemberFromRoster backend p true memberTag rosterId).log
      = p.log ++
        [Effect.request ⟨Method.DELETE, Endpoint.member rosterId memberTag, Body.none⟩,
         Effect.alert ("Removed " ++ memberTag ++ " from roster!") "success",
         Effect.request ⟨Method.GET, Endpoint.roster p.currentRosterId, Body.none⟩] ++
        rosters.map (fun roster =>
          Effect.request ⟨Method.GET, Endpoint.roster (rosterUrlId roster), Body.none⟩) ++
        [Effect.renderComparison] := by
  obtain ⟨response, hr⟩ := hacc p.requests
    ⟨Method.DELETE, Endpoint.member rosterId memberTag, Body.none⟩
  have hlen : 0 < (rosters.map some).length := by
    simpa using List.length_pos.2 hactive
  have hheld' : ((p.emit (Effect.request
      ⟨Method.DELETE, Endpoint.member rosterId memberTag, Body.none⟩)).showAlert
      ("Removed " ++ memberTag ++ " from roster!") "success").comparisonRosters
      = rosters.map some := hheld
  have hreload := log_reloadComparisonData backend hacc rosters _ hheld'
  unfold removeMemberFromRoster
  simp only [apiCall, hr, Bool.not_true, Bool.false_eq_true, if_false]
  rw [if_pos (by rw [hheld']; exact hlen), hreload]
  simp [Page.emit, Page.showAlert]

theorem log_handleCrossRosterDrop (backend : Backend)
    (hacc : ∀ past req, ∃ response, backend past req = Except.ok response)
    (rosters : List Roster) (p : Page) (event : CrossRosterDropEvent) (data : DragData)
    (memberTag sourceRosterId targetRosterId categoryValue : String)
    (hheld : p.comparisonRosters = rosters.map some)
    (hpayload : event.payload = Except.ok data)
    (htype : data.type = JSVal.str "cross-roster")
    (htag : data.memberTag = JSVal.str memberTag) (hm : memberTag ≠ "")
    (hsource : data.sourceRoster = JSVal.str sourceRosterId) (hs : sourceRosterId ≠ "")
    (htarget : event.containerRosterId = some targetRosterId) (ht : targetRosterId ≠ "") :
    (handleCrossRosterDrop backend p event (ModalChoice.confirm categoryValue)).log
      = p.log ++
        [Effect.dom "category selection modal shown",
         Effect.dom "category selection modal removed",
         Effect.request ⟨Method.DELETE, Endpoint.member sourceRosterId memberTag, Body.none⟩,
         Effect.request ⟨Method.POST, Endpoint.members targetRosterId,
           Body.add [⟨JSVal.str memberTag, orNull categoryValue⟩]⟩,
         Effect.alert ("Successfully transferred " ++ memberTag ++ " to " ++
           categoryName p.categories (orNull categoryValue) ++ "!") "success",
         Effect.request ⟨Method.GET, Endpoint.roster p.currentRosterId, Body.none⟩] ++
        rosters.map (fun roster =>
          Effect.request ⟨Method.GET, Endpoint.roster (rosterUrlId roster), Body.none⟩) ++
        [Effect.renderComparison,
         Effect.dom "drop zones removed, dragged row opacity reset"] := by
  have hnull : (if orNull categoryValue = JSVal.undefined then JSVal.null
      else orNull categoryValue) = orNull categoryValue := by
    unfold orNull
    split_ifs <;> simp_all
  obtain ⟨currentRosterId, currentRosterData, held, categories, log⟩ := p
  simp only at hheld
  subst hheld
  obtain ⟨r1, hr1⟩ := hacc
    (Page.requests (Page.mk currentRosterId currentRosterData (rosters.map some) categories
      (log ++ [Effect.dom "category selection modal shown",
        Effect.dom "category selection modal removed"])))
    ⟨Method.DELETE, Endpoint.member sourceRosterId memberTag, Body.none⟩
  obtain ⟨r2, hr2⟩ := hacc
    (Page.requests (Page.mk currentRosterId currentRosterData (rosters.map some) categories
      (log ++ [Effect.dom "category selection modal shown",
        Effect.dom "category selection modal removed",
        Effect.request ⟨Method.DELETE, Endpoint.member sourceRosterId memberTag, Body.none⟩])))
    ⟨Method.POST, Endpoint.members targetRosterId,
      Body.add [⟨JSVal.str memberTag, orNull categoryValue⟩]⟩
  have hreload := log_reloadComparisonData backend hacc rosters
    (Page.mk currentRosterId currentRosterData (rosters.map some) categories
      (log ++ [Effect.dom "category selection modal shown",
        Effect.dom "category selection modal removed",
        Effect.request ⟨Method.DELETE, Endpoint.member sourceRosterId memberTag, Body.none⟩,
        Effect.request ⟨Method.POST, Endpoint.members targetRosterId,
          Body.add [⟨JSVal.str memberTag, orNull categoryValue⟩]⟩,
        Effect.alert ("Successfully transferred " ++ memberTag ++ " to " ++
          categoryName categories (orNull categoryValue) ++ "!") "success"])) rfl
  unfold handleCrossRosterDrop showCategorySelectionModal transferMemberBetweenRosters
  simp only [hpayload, htype, htag, hsource, htarget, hm, hs, ht, hnull, apiCall, Page.emit,
    Page.showAlert, JSVal.truthy, JSVal.toJSString, Option.getD_some, ne_eq, not_true_eq_false,
    if_false, false_and, bne_iff_ne, not_false_eq_true, decide_True, Bool.not_true,
    Bool.or_self, Bool.false_eq_true, List.append_assoc, List.singleton_append,
    List.cons_append, List.nil_append, hr1, hr2] at hreload ⊢
  simp [hm, hs, ht, hreload]

/-! ### Colour of the clan tag cell -/

theorem memberCell_clan_colour (roster : Roster) (serverClans : Option (List Clan))
    (toNumber : String → Option ℚ) (member : Member) (t : String)
    (htag : member.get "current_clan_tag" = JSVal.str t) (h1 : t ≠ "") (h2 : t ≠ "#") :
    memberCell (some roster) serverClans toNumber member "current_clan_tag"
      = Except.ok (Cell.data
          ("px-3 py-2 text-xs " ++
            (if roster.clan_tag = some t then "text-green-400"
             else if (serverClans.getD []).any (fun clan => decide (clan.tag = t)) then
              "text-yellow-400"
             else "text-red-400") ++ " font-mono text-center") t) := by
  have hg : (Option.map JSVal.str roster.clan_tag = some (JSVal.str t))
      ↔ roster.clan_tag = some t := by
    cases roster.clan_tag <;> simp
  simp only [memberCell, htag, JSVal.truthy, JSVal.toJSString, bne_iff_ne, ne_eq, h1,
    not_false_eq_true, decide_True, Bool.true_and, JSVal.str.injEq, h2, if_true, hg]
  simp [h1]

/-- C19, the renderer that breaks it: `createMemberCardForComparison` colours the clan tag
cell exactly as `createMemberCard` does, against the `clan_tag` of `currentRosterData`; with
the current roster of clan `#AAA`, a member of comparison roster `r2` whose current clan is
`#BBB`, the clan of `r2`, gets the red class in the table of `r2`. -/
theorem C19_comparison_colour_ignores_table_roster :
    (∀ (currentRosterData : Option Roster) (serverClans : Option (List Clan))
        (toNumber : String → Option ℚ) (member : Member),
      memberCellForComparison currentRosterData serverClans toNumber member "current_clan_tag"
        = memberCell currentRosterData serverClans toNumber member "current_clan_tag") ∧
    mainRoster.clan_tag = some "#AAA" ∧
    otherRoster.clan_tag = some "#BBB" ∧
    (otherRoster.members.getD []).map Member.tag = [memberOfB.tag] ∧
    memberOfB.get "current_clan_tag" = JSVal.str "#BBB" ∧
    (createMemberCardForComparison (some mainRoster) (some []) (fun _ => none) memberOfB
        ["current_clan_tag"] (rosterUrlId otherRoster) none).toOption
      = some
        { memberTag := "#PLAYER",
          cells := [Cell.data "px-3 py-2 text-xs text-red-400 font-mono text-center" "#BBB",
                    Cell.remove "removeMemberFromRoster" ["#PLAYER", "r2"]],
          sourceRoster := some "r2",
          duplicate := false } := by
  refine ⟨fun _ _ _ _ => rfl, by decide, by decide, by decide, by decide, by decide⟩

theorem C20_hitrate_cell_colour_witness :
    ((decMember "hitrate" "#A" (159 / 2) "79.5").get "hitrate").number? = some (159 / 2) ∧
    (memberCell none none (fun _ => none) (decMember "hitrate" "#A" (159 / 2) "79.5")
        "hitrate").toOption
      = some (Cell.data "px-3 py-2 text-xs text-yellow-400 font-medium text-center" "79.5%") ∧
    (memberCell none none (fun _ => none) (decMember "hitrate" "#B" (5999 / 100) "59.99")
        "hitrate").toOption
      = some (Cell.data "px-3 py-2 text-xs text-red-400 font-medium text-center" "59.99%") ∧
    (memberCell none none (fun _ => none) (numMember "hitrate" "#C" 80) "hitrate").toOption
      = some (Cell.data "px-3 py-2 text-xs text-green-400 font-medium text-center" "80%") ∧
    (memberCell none none (fun _ => none) (decMember "hitrate" "#D" (10 ^ 21) "1e+21")
        "hitrate").toOption
      = some (Cell.data "px-3 py-2 text-xs text-green-400 font-medium text-center"
          "1e+21%") ∧
    ∃ content,
      (∀ n : Int, (decMember "hitrate" "#A" (159 / 2) "79.5").get "hitrate" = JSVal.num n →
        n.natAbs < 10 ^ 21 → content = toString n ++ "%") ∧
      (∀ value text,
        (decMember "hitrate" "#A" (159 / 2) "79.5").get "hitrate" = JSVal.dec value text →
        content = text ++ "%") ∧
      ((80 : ℚ) ≤ 159 / 2 →
        memberCell none none (fun _ => none) (decMember "hitrate" "#A" (159 / 2) "79.5")
          "hitrate"
        = Except.ok (Cell.data "px-3 py-2 text-xs text-green-400 font-medium text-center"
            content)) ∧
      ((60 : ℚ) ≤ 159 / 2 → (159 / 2 : ℚ) < 80 →
        memberCell none none (fun _ => none) (decMember "hitrate" "#A" (159 / 2) "79.5")
          "hitrate"
        = Except.ok (Cell.data "px-3 py-2 text-xs text-yellow-400 font-medium text-center"
            content)) ∧
      ((159 / 2 : ℚ) < 60 →
        memberCell none none (fun _ => none) (decMember "hitrate" "#A" (159 / 2) "79.5")
          "hitrate"
        = Except.ok (Cell.data "px-3 py-2 text-xs text-red-400 font-medium text-center"
            content)) :=
  ⟨rfl,
   by simp [memberCell, decMember, Member.get, jsGe, JSVal.isNullish, JSVal.toJSString,
      Except.toOption]
      norm_num
      rfl,
   by simp [memberCell, decMember, Member.get, jsGe, JSVal.isNullish, JSVal.toJSString,
      Except.toOption]
      norm_num
      rfl,
   by decide,
   by simp [memberCell, decMember, Member.get, jsGe, JSVal.isNullish, JSVal.toJSString,
      Except.toOption]
      rfl,
   C20_hitrate_cell_colour none none (fun _ => none)
     (decMember "hitrate" "#A" (159 / 2) "79.5") (159 / 2) rfl⟩

/-! ### The alert for a failed addition -/

/-- C21: `handleMemberAddError` shows one alert of type `error`, with the text for status 400,
the text for status 404, for status 422 the duplicate text when the detail (a string) contains
`already exists`, the detail itself when there is another detail, and the validation text
without a detail, and for every other status (or none) the text naming the comma-joined tags
and the message of the error. -/
theorem C21_add_error_alert_by_status (p : Page) (error : ApiError)
    (memberTags : List String) :
    (∃ text, (handleMemberAddError p error memberTags).log
      = p.log ++ [Effect.alert text "error"]) ∧
    (error.status = some 400 →
      (handleMemberAddError p error memberTags).log
        = p.log ++ [Effect.alert "Invalid player tag format" "error"]) ∧
    (error.status = some 404 →
      (handleMemberAddError p error memberTags).log
        = p.log ++ [Effect.alert "Player not found or not accessible" "error"]) ∧
    (error.status = some 422 → ∀ detail, error.detail = some detail → detail ≠ "" →
      includes detail "already exists" = true →
      (handleMemberAddError p error memberTags).log
        = p.log ++ [Effect.alert "Player is already in the roster" "error"]) ∧
    (error.status = some 422 → ∀ detail, error.detail = some detail → detail ≠ "" →
      includes detail "already exists" = false →
      (handleMemberAddError p error memberTags).log
        = p.log ++ [Effect.alert detail "error"]) ∧
    (error.status = some 422 → (error.detail = none ∨ error.detail = some "") →
      (handleMemberAddError p error memberTags).log
        = p.log ++ [Effect.alert "Unable to add player - validation error" "error"]) ∧
    (error.status ≠ some 400 → error.status ≠ some 404 → error.status ≠ some 422 →
      (handleMemberAddError p error memberTags).log
        = p.log ++ [Effect.alert
            ("Failed to add " ++ ", ".intercalate memberTags ++ ": " ++ error.message)
            "error"]) := by
  refine ⟨?_, ?_, ?_, ?_, ?_, ?_, ?_⟩
  · unfold handleMemberAddError
    split_ifs
    · exact ⟨_, rfl⟩
    · exact ⟨_, rfl⟩
    · split
      · split_ifs <;> exact ⟨_, rfl⟩
      · exact ⟨_, rfl⟩
    · exact ⟨_, rfl⟩
  · intro h
    simp [handleMemberAddError, h, Page.showAlert, Page.emit]
  · intro h
    simp [handleMemberAddError, h, Page.showAlert, Page.emit]
  · intro h detail hd hne hinc
    simp [handleMemberAddError, h, hd, hne, hinc, Page.showAlert, Page.emit]
  · intro h detail hd hne hinc
    simp [handleMemberAddError, h, hd, hne, hinc, Page.showAlert, Page.emit]
  · intro h hd
    rcases hd with hd | hd <;>
      simp [handleMemberAddError, h, hd, Page.showAlert, Page.emit]
  · intro h1 h2 h3
    simp [handleMemberAddError, h1, h2, h3, Page.showAlert, Page.emit]

/-! ### Transfers that stop before the add -/

/-- C28: when the member tag, the source roster id or the target roster id is empty or
missing, `transferMemberBetweenRosters` issues no request; when the three are present and the
backend rejects the DELETE, the DELETE is the only request and no POST follows; in both cases
the function throws a message that starts with `Transfer failed: `. -/
theorem C28_transfer_stops_without_add (backend : Backend) (p : Page)
    (memberTag sourceRosterId targetRosterId categoryId : JSVal) :
    ((memberTag.truthy = false ∨ sourceRosterId.truthy = false ∨
        targetRosterId.truthy = false) →
      (transferMemberBetweenRosters backend p memberTag sourceRosterId targetRosterId
          categoryId).1.requests = p.requests ∧
      ∃ reason, (transferMemberBetweenRosters backend p memberTag sourceRosterId
          targetRosterId categoryId).2 = Except.error ("Transfer failed: " ++ reason)) ∧
    (memberTag.truthy = true → sourceRosterId.truthy = true → targetRosterId.truthy = true →
      ∀ error, backend p.requests
          ⟨Method.DELETE, Endpoint.member sourceRosterId.toJSString memberTag.toJSString,
            Body.none⟩ = Except.error error →
      (transferMemberBetweenRosters backend p memberTag sourceRosterId targetRosterId
          categoryId).1.requests
        = p.requests ++
          [⟨Method.DELETE, Endpoint.member sourceRosterId.toJSString memberTag.toJSString,
            Body.none⟩] ∧
      (transferMemberBetweenRosters backend p memberTag sourceRosterId targetRosterId
          categoryId).2 = Except.error ("Transfer failed: " ++ error.message)) := by
  constructor
  · intro h
    have hcond : (!memberTag.truthy || !sourceRosterId.truthy || !targetRosterId.truthy)
        = true := by
      rcases h with h | h | h <;> simp [h]
    unfold transferMemberBetweenRosters
    simp only [hcond, if_true, true_and]
    refine ⟨"Missing required parameters - member: " ++ memberTag.toJSString ++
      ", source: " ++ sourceRosterId.toJSString ++ ", target: " ++ targetRosterId.toJSString,
      ?_⟩
    simp only [← String.append_assoc]
    rfl
  · intro hm hs ht error hdel
    unfold transferMemberBetweenRosters
    simp [hm, hs, ht, apiCall, hdel, requests_emit_request]

/-! ### The category sent for the uncategorized bucket -/

/-- C27, the path that breaks it: a member dragged from roster `r1` and dropped on the
`Uncategorized` zone of roster `r2` is added to `r2` with `signup_group` the empty string,
because `handleCategoryDrop` passes the empty `data-category-id` to
`transferMemberBetweenRosters` as it is; the same drop within `r2`, the drop of
`moveMemberToCategory` and the modal confirmed with `Uncategorized` all send null. -/
theorem C27_cross_roster_category_drop_sends_empty_string :
    (handleCategoryDrop acceptAll comparePage dropUncategorizedOnR2).requests
      = [⟨Method.DELETE, Endpoint.member "r1" "#ABC", Body.none⟩,
         ⟨Method.POST, Endpoint.members "r2",
          Body.add [⟨JSVal.str "#ABC", JSVal.str ""⟩]⟩] ∧
    (handleCategoryDrop acceptAll comparePage dropUncategorizedWithinR2).requests
      = [⟨Method.PATCH, Endpoint.member "r2" "#ABC", Body.signupGroup JSVal.null⟩] ∧
    (moveMemberToCategory acceptAll comparePage "#ABC" "").requests
      = [⟨Method.PATCH, Endpoint.member "r1" "#ABC", Body.signupGroup JSVal.null⟩,
         ⟨Method.GET, Endpoint.roster "r1", Body.none⟩] ∧
    (showCategorySelectionModal acceptAll comparePage (ModalChoice.confirm "")
        (JSVal.str "#ABC") (JSVal.str "r1") (JSVal.str "r2")).1.requests
      = [⟨Method.DELETE, Endpoint.member "r1" "#ABC", Body.none⟩,
         ⟨Method.POST, Endpoint.members "r2",
          Body.add [⟨JSVal.str "#ABC", JSVal.null⟩]⟩] := by
  decide

/-! ### Extracted tags and the submission filter -/

/-- C25: every tag `extractTagsFromText` returns is `#` followed by three or more characters
of A-Z and 0-9; the submission filter keeps the whole list, so the number of invalid tags is
0 and `validateBulkTags` never reports one; and the list has no tag twice. -/
theorem C25_extracted_tags_pass_filter (text : String) :
    (∀ tag ∈ extractTagsFromText text, ∃ rest : List Char,
      tag = String.mk ('#' :: rest) ∧ 3 ≤ rest.length ∧ ∀ c ∈ rest, isTagChar c = true) ∧
    (extractTagsFromText text).filter isValidTag = extractTagsFromText text ∧
    (extractTagsFromText text).length
      - ((extractTagsFromText text).filter isValidTag).length = 0 ∧
    (validateBulkTags text).warning ≠ some true ∧
    (validateBulkTags text).countText
      = (if String.mk (jsTrim text.data) = "" then "0 tags detected"
         else toString (extractTagsFromText (String.mk (jsTrim text.data))).length
           ++ " valid tags detected") ∧
    (extractTagsFromText text).Nodup := by
  have hvalid : ∀ (s : String), ∀ tag ∈ extractTagsFromText s, isValidTag tag = true := by
    intro s tag htag
    obtain ⟨t, ht, rfl⟩ := List.mem_map.1 htag
    exact isValidTagChars_of_mem_extractTagsChars s.data t ht
  have hfilter : ∀ (s : String),
      (extractTagsFromText s).filter isValidTag = extractTagsFromText s :=
    fun s => List.filter_eq_self.2 (hvalid s)
  refine ⟨?_, hfilter text, by rw [hfilter text]; omega, ?_, ?_, ?_⟩
  · intro tag htag
    obtain ⟨t, ht, rfl⟩ := List.mem_map.1 htag
    obtain ⟨u, rfl, h3, hu⟩ :=
      (isValidTagChars_iff t).1 (isValidTagChars_of_mem_extractTagsChars text.data t ht)
    exact ⟨u, rfl, h3, hu⟩
  · unfold validateBulkTags
    simp only [hfilter]
    split_ifs <;> simp_all
  · unfold validateBulkTags
    simp only [hfilter]
    split_ifs <;> simp_all
  · unfold extractTagsFromText
    exact (nodup_dedupe _).map (fun a b h => by injection h)

/-! ### The comparison tables sort and group as the Members tab does -/

theorem compareMembersInContainer_eq (env : JSEnv) (sortConfig : List String)
    (a b : Member) :
    compareMembersInContainer env sortConfig a b = compareMembers env sortConfig a b := by
  induction sortConfig with
  | nil => simp [compareMembersInContainer, compareMembers]
  | cons f rest ih =>
    simp only [compareMembersInContainer, compareMembers, ih, isDateField]

theorem getCurrentSortConfigForRoster_eq (roster : Roster) :
    getCurrentSortConfigForRoster roster = getCurrentSortConfig (some roster) := by
  unfold getCurrentSortConfigForRoster getCurrentSortConfig
  cases h : roster.sort with
  | none => simp only [h]
  | some sort =>
    simp only [h]
    rfl

/-- C24: the comparator of `loadMembersTableInContainer` returns the same value as the
comparator of `loadMembersDisplay` for every sort field list and every two members,
`getCurrentSortConfigForRoster(roster)` is `getCurrentSortConfig()` read with that roster as
`currentRosterData`, and so for every member list the two pipelines give the same sorted
list and the same grouping. -/
theorem C24_comparison_pipeline_agrees (env : JSEnv) :
    (∀ sortConfig a b,
      compareMembersInContainer env sortConfig a b = compareMembers env sortConfig a b) ∧
    (∀ roster, getCurrentSortConfigForRoster roster = getCurrentSortConfig (some roster)) ∧
    (∀ roster members,
      sortMembersInContainer env roster members
        = sortMembers env (getCurrentSortConfig (some roster)) members) ∧
    (∀ roster members,
      groupMembers (sortMembersInContainer env roster members)
        = groupMembers (sortMembers env (getCurrentSortConfig (some roster)) members)) := by
  have hsort : ∀ roster members,
      sortMembersInContainer env roster members
        = sortMembers env (getCurrentSortConfig (some roster)) members := by
    intro roster members
    unfold sortMembersInContainer sortMembers
    rw [getCurrentSortConfigForRoster_eq]
    congr 1
    funext a b
    exact compareMembersInContainer_eq env _ a b
  exact ⟨compareMembersInContainer_eq env, getCurrentSortConfigForRoster_eq, hsort,
    fun roster members => by rw [hsort]⟩

/-! ### The counts of the roster summary -/

theorem length_filter_add_length_filter_le {α : Type} (p q : α → Bool) (l : List α)
    (h : ∀ x ∈ l, ¬ (p x = true ∧ q x = true)) :
    (l.filter p).length + (l.filter q).length ≤ l.length := by
  induction l with
  | nil => simp
  | cons x xs ih =>
    have hx := h x (List.mem_cons_self x xs)
    have ih := ih (fun y hy => h y (List.mem_cons_of_mem x hy))
    simp only [List.filter_cons, List.length_cons]
    by_cases hp : p x = true <;> by_cases hq : q x = true <;>
      simp [hp, hq] at hx ⊢ <;> omega

theorem clanCount_eq (roster : Roster) :
    clanCount roster = ((rosterMembers roster).filter (inRosterClan roster)).length := by
  unfold clanCount inRosterClan
  cases roster.clan_tag with
  | none => simp
  | some clanTag =>
    by_cases h : clanTag = ""
    · simp [h]
    · have hne : (clanTag != "") = true := by simpa using h
      simp [h, hne]

/-- C29: in `createRosterInfoDisplay` no member is counted both for the clan and for the
family, so `clanCount + familyCount` is at most the member count, `externalCount` is not
negative, and the three counts sum to the member count; `clanCount` and `familyCount` are
lengths of filtered arrays. -/
theorem C29_counts_partition_members (serverClans : Option (List Clan)) (roster : Roster) :
    clanCount roster + familyCount serverClans roster ≤ (rosterMembers roster).length ∧
    0 ≤ externalCount serverClans roster ∧
    (clanCount roster : Int) + (familyCount serverClans roster : Int)
        + externalCount serverClans roster
      = ((rosterMembers roster).length : Int) := by
  have hle : clanCount roster + familyCount serverClans roster
      ≤ (rosterMembers roster).length := by
    rw [clanCount_eq]
    unfold familyCount
    apply length_filter_add_length_filter_le
    intro m _ hboth
    obtain ⟨h1, h2⟩ := hboth
    simp [h1] at h2
  refine ⟨hle, ?_, ?_⟩
  · unfold externalCount
    omega
  · unfold externalCount
    omega

/-! ### The saved display configuration -/

theorem selectedValues_length (slots : SelectorSlots) : (selectedValues slots).length ≤ 4 := by
  unfold selectedValues
  exact (List.length_filterMap_le _ _).trans (by simp [SelectorSlots.values])

theorem selectedValues_ne_empty (slots : SelectorSlots) : "" ∉ selectedValues slots := by
  unfold selectedValues
  intro h
  obtain ⟨select, _, hs⟩ := List.mem_filterMap.1 h
  cases select with
  | none => simp at hs
  | some value =>
    by_cases hv : value = ""
    · simp [hv] at hs
    · simp [hv] at hs

theorem mapOrSelf_columnMapping (key : String) (h : key ∉ objectPrototypeKeys) :
    mapOrSelf columnMapping key = key := by
  unfold mapOrSelf
  cases hl : columnMapping.lookup key with
  | none => simp [h]
  | some v =>
    simp only
    have hmem : ∀ (l : List (String × String)), (∀ q ∈ l, q.1 = q.2) →
        l.lookup key = some v → v = key := by
      intro l
      induction l with
      | nil => intro _ h; simp at h
      | cons q qs ih =>
        intro hq h
        rw [List.lookup_cons] at h
        by_cases hk : key == q.1
        · simp only [hk] at h
          injection h with h
          rw [← h, ← hq q (List.mem_cons_self q qs)]
          exact (beq_iff_eq.1 hk).symm
        · simp only [hk] at h
          exact ih (fun r hr => hq r (List.mem_cons_of_mem q hr)) h
    exact hmem columnMapping (by decide) hl

theorem mapOrSelf_columnMapping_ne_empty (key : String) (h : key ≠ "") :
    mapOrSelf columnMapping key ≠ "" := by
  by_cases hk : key ∈ objectPrototypeKeys
  · have hnone : ∀ k ∈ objectPrototypeKeys, columnMapping.lookup k = none := by decide
    have : mapOrSelf columnMapping key = inheritedText key := by
      unfold mapOrSelf
      rw [hnone key hk]
      simp [hk]
    rw [this]
    simp only [objectPrototypeKeys, List.mem_cons, List.mem_singleton, List.not_mem_nil,
      or_false] at hk
    rcases hk with rfl | rfl | rfl | rfl | rfl | rfl | rfl | rfl | rfl | rfl | rfl | rfl <;>
      decide
  · rw [mapOrSelf_columnMapping key hk]
    exact h

/-- C22: the `columns` list and the `sort` list that `saveDisplayConfiguration` writes into
`currentRosterData` and sends in its PATCH are the same two lists; each has at most 4
entries and no empty entry; and each is the list of the values of its four selectors in slot
order with the missing and the empty ones left out (a value naming an inherited object
property apart, which the lookup in `columnMapping` replaces). -/
theorem C22_saved_lists_bounded_and_ordered (p : Page) (columnSlots sortSlots : SelectorSlots) :
    (saveDisplayConfiguration p columnSlots sortSlots).currentRosterData
      = p.currentRosterData.map (fun (roster : Roster) =>
          { roster with
            columns := some ((selectedValues columnSlots).map (mapOrSelf columnMapping)),
            sort := some ((selectedValues sortSlots).map (mapOrSelf columnMapping)) }) ∧
    (∃ rest, (saveDisplayConfiguration p columnSlots sortSlots).requests
        = p.requests ++
          (⟨Method.PATCH, Endpoint.roster p.currentRosterId,
            Body.displaySettings ((selectedValues columnSlots).map (mapOrSelf columnMapping))
              ((selectedValues sortSlots).map (mapOrSelf columnMapping))⟩ :: rest) ∧
      (rest = [] ∨ rest = [⟨Method.GET, Endpoint.roster p.currentRosterId, Body.none⟩])) ∧
    ((selectedValues columnSlots).map (mapOrSelf columnMapping)).length ≤ 4 ∧
    ((selectedValues sortSlots).map (mapOrSelf columnMapping)).length ≤ 4 ∧
    "" ∉ (selectedValues columnSlots).map (mapOrSelf columnMapping) ∧
    "" ∉ (selectedValues sortSlots).map (mapOrSelf columnMapping) ∧
    ((∀ value ∈ selectedValues columnSlots, value ∉ objectPrototypeKeys) →
      (selectedValues columnSlots).map (mapOrSelf columnMapping)
        = (columnSlots.values.filterMap id).filter (fun value => value != "")) ∧
    ((∀ value ∈ selectedValues sortSlots, value ∉ objectPrototypeKeys) →
      (selectedValues sortSlots).map (mapOrSelf columnMapping)
        = (sortSlots.values.filterMap id).filter (fun value => value != "")) := by
  have hsel : ∀ slots : SelectorSlots,
      selectedValues slots = (slots.values.filterMap id).filter (fun value => value != "") := by
    intro slots
    unfold selectedValues
    generalize slots.values = l
    induction l with
    | nil => rfl
    | cons s l ih =>
      cases s with
      | none => simpa using ih
      | some value =>
        by_cases hv : value = ""
        · simpa [hv] using ih
        · simp only [List.filterMap_cons, hv, ne_eq, not_false_eq_true, if_true, id_eq,
            List.filter_cons, bne_iff_ne, decide_True, ih]
  have hne : ∀ slots : SelectorSlots,
      "" ∉ (selectedValues slots).map (mapOrSelf columnMapping) := by
    intro slots h
    obtain ⟨v, hv, hm⟩ := List.mem_map.1 h
    exact mapOrSelf_columnMapping_ne_empty v
      (fun h0 => selectedValues_ne_empty slots (h0 ▸ hv)) hm
  have hid : ∀ slots : SelectorSlots,
      (∀ value ∈ selectedValues slots, value ∉ objectPrototypeKeys) →
      (selectedValues slots).map (mapOrSelf columnMapping)
        = (slots.values.filterMap id).filter (fun value => value != "") := by
    intro slots h
    rw [← hsel slots]
    conv_rhs => rw [← List.map_id (selectedValues slots)]
    exact List.map_congr_left (fun v hv => mapOrSelf_columnMapping v (h v hv))
  refine ⟨?_, ?_, ?_, ?_, hne columnSlots, hne sortSlots, hid columnSlots, hid sortSlots⟩
  · unfold saveDisplayConfiguration
    simp only
    split_ifs <;> rfl
  · unfold saveDisplayConfiguration
    simp only
    by_cases hid0 : p.currentRosterId = ""
    · refine ⟨[], ?_, Or.inl rfl⟩
      simp [hid0, requests_showAlert, requests_emit_dom, requests_emit_request, Page.emit,
        Page.requests, List.filterMap_append, Effect.request?, Page.showAlert]
    · refine ⟨[⟨Method.GET, Endpoint.roster p.currentRosterId, Body.none⟩], ?_, Or.inr rfl⟩
      simp [hid0, requests_showAlert, requests_emit_dom, requests_emit_request, Page.emit,
        Page.requests, List.filterMap_append, Effect.request?, Page.showAlert]
  · rw [List.length_map]
    exact selectedValues_length columnSlots
  · rw [List.length_map]
    exact selectedValues_length sortSlots

/-! ### The number of rosters held for comparison -/

theorem comparisonRosters_reloadComparisonRosters (backend : Backend)
    (rest : List (Option Roster)) (p : Page) (reloaded : List (Option Roster)) :
    (reloadComparisonRosters backend p reloaded rest).1.comparisonRosters.length
      = reloaded.length + rest.length := by
  induction rest generalizing p reloaded with
  | nil => simp [reloadComparisonRosters]
  | cons r rest ih =>
    cases r with
    | none => simp [reloadComparisonRosters]
    | some roster =>
      simp only [reloadComparisonRosters, apiCall]
      split
      · simp
      · rw [ih]
        simp
        omega

theorem comparisonRosters_reloadComparisonData (backend : Backend) (p : Page) :
    (reloadComparisonData backend p).comparisonRosters.length
      = p.comparisonRosters.length := by
  unfold reloadComparisonData
  simp only [apiCall]
  split
  · rfl
  · rename_i response _
    have h := comparisonRosters_reloadComparisonRosters backend p.comparisonRosters
      { (p.emit (Effect.request
          ⟨Method.GET, Endpoint.roster p.currentRosterId, Body.none⟩)) with
        currentRosterData := response.roster } []
    simp only [List.length_nil, Nat.zero_add] at h
    split
    · rename_i q message hq
      have hq1 := congrArg Prod.fst hq
      simp only at hq1
      rw [Page.showAlert, Page.emit]
      simp only
      rw [← hq1]
      exact h
    · rename_i q hq
      have hq1 := congrArg Prod.fst hq
      simp only at hq1
      rw [Page.emit]
      simp only
      rw [← hq1]
      exact h

theorem comparisonRosters_startComparison (backend : Backend) (p : Page)
    (roster1Id roster2Id : String) (layout : Except String Unit)
    (h : p.comparisonRosters.length ≤ 2) :
    (startComparison backend p roster1Id roster2Id layout).comparisonRosters.length ≤ 2 := by
  unfold startComparison
  simp only [apiCall, cancelComparison, Page.showAlert, Page.emit]
  repeat' first
    | split
    | exact h
    | simp

/-- C23 (as the code has it): in every page state reached from a fresh page by runs of
`startComparison`, `reloadComparisonData` and `cancelComparison` of which each has ended
before the next begins, `comparisonRosters` has at most 2 entries, so with the current roster
at most 3 rosters are held; a run of `startComparison` in which the backend answers the
requests and the layout is shown leaves 1 entry when the second selector is empty and 2
entries when both selectors are set. -/
theorem C23_at_most_two_comparison_rosters :
    (∀ p, ComparisonReachable p →
      p.comparisonRosters.length ≤ 2 ∧ (heldRosters p).length ≤ 3) ∧
    (∀ (backend : Backend) (p : Page) (roster1Id : String) (response1 : ApiResponse),
      roster1Id ≠ "" →
      backend p.requests ⟨Method.GET, Endpoint.roster roster1Id, Body.none⟩
        = Except.ok response1 →
      (startComparison backend p roster1Id "" (Except.ok ())).comparisonRosters
        = [response1.roster]) ∧
    (∀ (backend : Backend) (p : Page) (roster1Id roster2Id : String)
        (response1 response2 : ApiResponse),
      roster1Id ≠ "" → roster2Id ≠ "" →
      backend p.requests ⟨Method.GET, Endpoint.roster roster1Id, Body.none⟩
        = Except.ok response1 →
      backend (p.requests ++ [⟨Method.GET, Endpoint.roster roster1Id, Body.none⟩])
          ⟨Method.GET, Endpoint.roster roster2Id, Body.none⟩ = Except.ok response2 →
      (startComparison backend p roster1Id roster2Id (Except.ok ())).comparisonRosters
        = [response1.roster, response2.roster]) := by
  refine ⟨?_, ?_, ?_⟩
  · intro p hp
    have hlen : p.comparisonRosters.length ≤ 2 := by
      induction hp with
      | loaded p h => simp [h]
      | started backend p roster1Id roster2Id layout _ ih =>
        exact comparisonRosters_startComparison backend p roster1Id roster2Id layout ih
      | reloaded backend p _ ih =>
        rw [comparisonRosters_reloadComparisonData]
        exact ih
      | cancelled p _ ih => exact ih
    refine ⟨hlen, ?_⟩
    simp only [heldRosters, List.length_cons]
    omega
  · intro backend p roster1Id response1 h1 hr1
    have hreq : (p.emit (Effect.dom "comparison-panel removed")).requests = p.requests :=
      requests_emit_dom p _
    unfold startComparison
    simp only [h1, if_false, apiCall]
    have hreq2 : ({ (p.emit (Effect.dom "comparison-panel removed")) with
        comparisonRosters := [] } : Page).requests = p.requests := hreq
    rw [hreq2, hr1]
    simp [Page.emit]
  · intro backend p roster1Id roster2Id response1 response2 h1 h2 hr1 hr2
    have hreq : (p.emit (Effect.dom "comparison-panel removed")).requests = p.requests :=
      requests_emit_dom p _
    unfold startComparison
    simp only [h1, if_false, apiCall]
    have hreq2 : ({ (p.emit (Effect.dom "comparison-panel removed")) with
        comparisonRosters := [] } : Page).requests = p.requests := hreq
    rw [hreq2, hr1]
    simp only [h2, ne_eq, not_false_eq_true, if_true]
    have hreq3 : ({ (({ (p.emit (Effect.dom "comparison-panel removed")) with
        comparisonRosters := [] } : Page).emit (Effect.request
          ⟨Method.GET, Endpoint.roster roster1Id, Body.none⟩)) with
        comparisonRosters := [] ++ [response1.roster] } : Page).requests
        = p.requests ++ [⟨Method.GET, Endpoint.roster roster1Id, Body.none⟩] := by
      simp [Page.requests, Page.emit, List.filterMap_append, Effect.request?]
    simp only [Page.emit, List.nil_append] at hreq3 ⊢
    rw [hreq3, hr2]
    rfl

/-! ### From the selected suggestion to the submitted tag -/

theorem takeWhile_reverse_run (X A : List Char) (hA : ∀ c ∈ A, isTagChar c = true) :
    ((X ++ '#' :: (A ++ [')'])).reverse.tail.takeWhile isTagChar) = A.reverse := by
  have h : (X ++ '#' :: (A ++ [')'])).reverse = ')' :: (A.reverse ++ '#' :: X.reverse) := by
    simp [List.reverse_append]
  rw [h, List.tail_cons,
    List.takeWhile_append_of_pos (fun c hc => hA c (List.mem_reverse.1 hc)),
    List.takeWhile_cons_of_neg (by decide), List.append_nil]

theorem matchTagSuffix_run (s t : List Char) (h : matchTagSuffix s = some t) :
    ∃ w run, s = w ++ '(' :: '#' :: (run ++ [')']) ∧ t = '#' :: run ∧
      ∀ c ∈ run, isTagChar c = true := by
  unfold matchTagSuffix at h
  obtain ⟨w, hw⟩ := List.dropWhile_suffix (l := s) isJSWhitespace
  split at h
  · rename_i rest heq
    split_ifs at h with hc
    injection h with h
    refine ⟨w, rest.takeWhile isTagChar, ?_, h.symm, fun c hc => List.mem_takeWhile_imp hc⟩
    rw [← hw, heq]
    have := List.takeWhile_append_dropWhile isTagChar rest
    rw [hc.2] at this
    rw [this]
  · cases h

theorem matchTagSuffix_unique (pre rest t : List Char)
    (hrest : ∀ c ∈ rest, isTagChar c = true)
    (h : matchTagSuffix (pre ++ ' ' :: '(' :: '#' :: (rest ++ [')'])) = some t) :
    t = '#' :: rest := by
  obtain ⟨w, run, hs, ht, hrun⟩ := matchTagSuffix_run _ _ h
  have h1 := takeWhile_reverse_run (pre ++ [' ', '(']) rest hrest
  have h2 := takeWhile_reverse_run (w ++ ['(']) run hrun
  have e1 : pre ++ [' ', '('] ++ '#' :: (rest ++ [')'])
      = pre ++ ' ' :: '(' :: '#' :: (rest ++ [')']) := by simp
  have e2 : w ++ ['('] ++ '#' :: (run ++ [')'])
      = w ++ '(' :: '#' :: (run ++ [')']) := by simp
  rw [e1, hs, ← e2, h2] at h1
  rw [ht, List.reverse_injective h1]

theorem matchTagSuffix_selected (rest : List Char) (hne : rest ≠ [])
    (hrest : ∀ c ∈ rest, isTagChar c = true) :
    matchTagSuffix (' ' :: '(' :: '#' :: (rest ++ [')'])) = some ('#' :: rest) := by
  have hd : List.dropWhile isJSWhitespace (' ' :: '(' :: '#' :: (rest ++ [')']))
      = '(' :: '#' :: (rest ++ [')']) := by
    rw [List.dropWhile_cons_of_pos (by decide), List.dropWhile_cons_of_neg (by decide)]
  have ht : (rest ++ [')']).takeWhile isTagChar = rest := by
    rw [List.takeWhile_append_of_pos hrest, List.takeWhile_cons_of_neg (by decide),
      List.append_nil]
  have hdr : (rest ++ [')']).dropWhile isTagChar = [')'] := by
    rw [List.dropWhile_append_of_pos hrest, List.dropWhile_cons_of_neg (by decide)]
  have hlen : 1 ≤ rest.length := by
    cases rest with
    | nil => exact absurd rfl hne
    | cons c cs => simp
  unfold matchTagSuffix
  rw [hd]
  simp only [ht, hdr, hlen, and_self, if_true]

theorem searchTagMatch_selected (pre rest : List Char) (hpre : pre ≠ [])
    (hline : ∀ c ∈ pre, isLineTerminator c = false) (hne : rest ≠ [])
    (hrest : ∀ c ∈ rest, isTagChar c = true) :
    searchTagMatch (pre ++ ' ' :: '(' :: '#' :: (rest ++ [')'])) = some ('#' :: rest) := by
  induction pre with
  | nil => exact absurd rfl hpre
  | cons c cs ih =>
    have hc : isLineTerminator c = false := hline c (List.mem_cons_self c cs)
    rw [List.cons_append, searchTagMatch]
    simp only [hc, Bool.false_eq_true, if_false]
    cases hm : matchTagSuffix (cs ++ ' ' :: '(' :: '#' :: (rest ++ [')'])) with
    | some t =>
      simp only
      rw [matchTagSuffix_unique cs rest t hrest hm]
    | none =>
      simp only
      cases cs with
      | nil =>
        rw [List.nil_append, matchTagSuffix_selected rest hne hrest] at hm
        cases hm
      | cons d ds =>
        exact ih (by simp) (fun x hx => hline x (List.mem_cons_of_mem c hx))

theorem jsTrim_selected (s rest : List Char) (hs : jsTrim s ≠ []) :
    jsTrim (s ++ ' ' :: '(' :: '#' :: (rest ++ [')']))
      = s.dropWhile isJSWhitespace ++ ' ' :: '(' :: '#' :: (rest ++ [')']) := by
  have hd : s.dropWhile isJSWhitespace ≠ [] := by
    intro h
    apply hs
    simp [jsTrim, h]
  have hempty : (List.dropWhile isJSWhitespace s).isEmpty = false := by
    cases h : List.dropWhile isJSWhitespace s with
    | nil => exact absurd h hd
    | cons c cs => rfl
  unfold jsTrim
  rw [List.dropWhile_append]
  simp only [hempty, Bool.false_eq_true, if_false]
  have hrev : (List.dropWhile isJSWhitespace s ++ ' ' :: '(' :: '#' :: (rest ++ [')'])).reverse
      = ')' :: (rest.reverse ++ '#' :: '(' :: ' ' ::
          (List.dropWhile isJSWhitespace s).reverse) := by
    simp [List.reverse_append]
  rw [hrev, List.dropWhile_cons_of_neg (by decide), ← hrev, List.reverse_reverse]

theorem searchTagMatch_head (s t : List Char) (h : searchTagMatch s = some t) :
    t.head? = some '#' := by
  induction s with
  | nil => cases h
  | cons c cs ih =>
    rw [searchTagMatch] at h
    split_ifs at h
    cases hm : matchTagSuffix cs with
    | some u =>
      rw [hm] at h
      injection h with h
      obtain ⟨_, run, _, hu, _⟩ := matchTagSuffix_run cs u hm
      rw [← h, hu]
      rfl
    | none =>
      rw [hm] at h
      exact ih h

/-- C30: for a name that is not empty after trimming and holds no line terminator, and a tag
that is `#` followed by one or more characters of A-Z and 0-9, the tag `addMemberDirectly`
reads from the text `selectMember` writes is that tag, and it is the tag of the one entry of
the POST; and whatever the search text, the tag it reads begins with `#`, so every POST of
`addMemberDirectly` carries one entry whose tag begins with `#`. -/
theorem C30_selected_tag_round_trip (toUpperCase : String → String) (name tag : String)
    (rest : List Char)
    (hname : jsTrim name.data ≠ [])
    (hline : ∀ c ∈ name.data, isLineTerminator c = false)
    (htag : tag.data = '#' :: rest) (hne : rest ≠ [])
    (hrest : ∀ c ∈ rest, isTagChar c = true) :
    playerTagOf toUpperCase (String.mk (jsTrim (selectMember tag name).data)) = tag ∧
    (∀ (backend : Backend) (p : Page) (categoryValue : String), ∃ more,
      (addMemberDirectly backend toUpperCase p (selectMember tag name) categoryValue).requests
        = p.requests ++
          (⟨Method.POST, Endpoint.members p.currentRosterId,
            Body.add [⟨JSVal.str tag, orNull categoryValue⟩]⟩ :: more)) ∧
    (∀ searchValue : String,
      (playerTagOf toUpperCase searchValue).data.head? = some '#') ∧
    (∀ (backend : Backend) (p : Page) (inputValue categoryValue : String),
      (addMemberDirectly backend toUpperCase p inputValue categoryValue).requests = p.requests ∨
      ∃ playerTag more, playerTag.data.head? = some '#' ∧
        (addMemberDirectly backend toUpperCase p inputValue categoryValue).requests
          = p.requests ++
            (⟨Method.POST, Endpoint.members p.currentRosterId,
              Body.add [⟨JSVal.str playerTag, orNull categoryValue⟩]⟩ :: more)) := by
  have hhead : ∀ searchValue : String,
      (playerTagOf toUpperCase searchValue).data.head? = some '#' := by
    intro searchValue
    unfold playerTagOf
    cases hm : searchTagMatch searchValue.data with
    | some t =>
      simp only
      exact searchTagMatch_head _ _ hm
    | none =>
      simp only
      split_ifs with hh
      · exact hh
      · rw [String.data_append]
        rfl
  have hposts : ∀ (backend : Backend) (p : Page) (playerTag : String) (selected : JSVal),
      ∃ more,
        (match backend p.requests ⟨Method.POST, Endpoint.members p.currentRosterId,
            Body.add [⟨JSVal.str playerTag, selected⟩]⟩ with
          | Except.error error =>
            handleMemberAddError
              (p.emit (Effect.request ⟨Method.POST, Endpoint.members p.currentRosterId,
                Body.add [⟨JSVal.str playerTag, selected⟩]⟩)) error [playerTag]
          | Except.ok _ =>
            loadMembersDisplay backend
              ((((p.emit (Effect.request ⟨Method.POST, Endpoint.members p.currentRosterId,
                Body.add [⟨JSVal.str playerTag, selected⟩]⟩)).showAlert
                  ("Successfully added " ++ playerTag ++ "!") "success").emit
                    (Effect.dom "member-search cleared")))).requests
          = p.requests ++
            (⟨Method.POST, Endpoint.members p.currentRosterId,
              Body.add [⟨JSVal.str playerTag, selected⟩]⟩ :: more) := by
    intro backend p playerTag selected
    split
    · exact ⟨[], by rw [requests_handleMemberAddError, requests_emit_request]⟩
    · rw [requests_loadMembersDisplay]
      split_ifs
      · exact ⟨[], by rw [requests_emit_dom, requests_showAlert, requests_emit_request]⟩
      · exact ⟨_, by
          rw [requests_emit_dom, requests_showAlert, requests_emit_request,
            List.append_assoc]
          rfl⟩
  have hdata : (selectMember tag name).data
      = name.data ++ ' ' :: '(' :: '#' :: (rest ++ [')']) := by
    unfold selectMember
    simp only [String.data_append, htag]
    simp
  have hd : name.data.dropWhile isJSWhitespace ≠ [] := by
    intro h
    apply hname
    simp [jsTrim, h]
  have htrim : jsTrim (selectMember tag name).data
      = name.data.dropWhile isJSWhitespace ++ ' ' :: '(' :: '#' :: (rest ++ [')']) := by
    rw [hdata, jsTrim_selected name.data rest hname]
  have hmatch : searchTagMatch (jsTrim (selectMember tag name).data) = some ('#' :: rest) := by
    rw [htrim]
    exact searchTagMatch_selected _ rest hd
      (fun c hc => hline c ((List.dropWhile_sublist _).subset hc)) hne hrest
  have hplayer : playerTagOf toUpperCase (String.mk (jsTrim (selectMember tag name).data))
      = tag := by
    unfold playerTagOf
    simp only [hmatch]
    rw [← htag]
  refine ⟨hplayer, ?_, hhead, ?_⟩
  · intro backend p categoryValue
    have hnonempty : String.mk (jsTrim (selectMember tag name).data) ≠ "" := by
      intro h
      have := congrArg String.data h
      rw [htrim] at this
      cases hdd : List.dropWhile isJSWhitespace name.data with
      | nil => exact hd hdd
      | cons c cs =>
        rw [hdd] at this
        cases this
    unfold addMemberDirectly
    simp only [hnonempty, if_false, hplayer, apiCall]
    exact hposts backend p tag (orNull categoryValue)
  · intro backend p inputValue categoryValue
    unfold addMemberDirectly
    simp only [apiCall]
    split_ifs with hempty
    · exact Or.inl (requests_showAlert _ _ _)
    · obtain ⟨more, hmore⟩ := hposts backend p
        (playerTagOf toUpperCase (String.mk (jsTrim inputValue.data))) (orNull categoryValue)
      exact Or.inr ⟨_, more, hhead _, hmore⟩

/-! ### The comparator as an ordering -/

theorem compareMembers_both_null (env : JSEnv) (f : String) (a b : Member)
    (ha : (a.get f).isNullish = true) (hb : (b.get f).isNullish = true) :
    compareMembers env [f] a b = 0 := by
  simp [compareMembers, ha, hb]

theorem compareMembers_keys (env : JSEnv) (f : String) (a b : Member) (hf : f ≠ "")
    (ha : (a.get f).isNullish = false) (hb : (b.get f).isNullish = false)
    (hnum : (a.get f).isNumber = false ∨ (b.get f).isNumber = false) :
    compareMembers env [f] a b
      = if isDateField f then
          env.localeCompare (env.toLowerCase (a.get f).toJSString)
            (env.toLowerCase (b.get f).toJSString)
        else
          env.localeCompare (env.toLowerCase (b.get f).toJSString)
            (env.toLowerCase (a.get f).toJSString) := by
  simp only [compareMembers, hf, ha, hb, if_false, Bool.false_and, Bool.false_eq_true]
  generalize a.get f = va at *
  generalize b.get f = vb at *
  cases va <;> cases vb <;> simp_all [JSVal.isNullish, JSVal.toJSString, JSVal.isNumber]

theorem number?_of_isNumber (v : JSVal) (h : v.isNumber = true) : ∃ x, v.number? = some x := by
  cases v <;> simp_all [JSVal.isNumber, JSVal.number?]

theorem isNumber_of_number? (v : JSVal) (x : ℚ) (h : v.number? = some x) :
    v.isNumber = true ∧ v.isNullish = false := by
  cases v <;> simp_all [JSVal.isNumber, JSVal.number?, JSVal.isNullish]

theorem compareMembers_mixed_numbers (env : JSEnv) (f : String) (a b : Member) (x y : ℚ)
    (h : compareMembers env [f] a b
      = if x ≠ y then (if isDateField f then differenceSign x y else differenceSign y x)
        else 0) :
    (compareMembers env [f] a b ≤ 0 ↔ if isDateField f then x ≤ y else y ≤ x) ∧
    (compareMembers env [f] a b < 0 ↔ if isDateField f then x < y else y < x) ∧
    (0 < compareMembers env [f] a b ↔ if isDateField f then y < x else x < y) := by
  rw [h]
  have n1 := differenceSign_neg_iff x y
  have n2 := differenceSign_neg_iff y x
  have p1 := differenceSign_pos_iff x y
  have p2 := differenceSign_pos_iff y x
  by_cases hxy : x = y
  · subst hxy
    simp
  · have hlt : x < y ∨ y < x := lt_or_gt_of_ne hxy
    simp only [ne_eq, hxy, not_false_eq_true, if_true]
    by_cases hd : isDateField f = true
    · simp only [hd, if_true]
      refine ⟨?_, n1, p1⟩
      constructor
      · intro hle
        rcases hlt with h1 | h1
        · exact h1.le
        · have := p1.2 h1
          omega
      · intro hle
        have := n1.2 (lt_of_le_of_ne hle hxy)
        omega
    · simp only [hd, if_false, Bool.false_eq_true]
      refine ⟨?_, n2, p2⟩
      constructor
      · intro hle
        rcases hlt with h1 | h1
        · have := p2.2 h1
          omega
        · exact h1.le
      · intro hle
        have := n2.2 (lt_of_le_of_ne hle (Ne.symm hxy))
        omega

theorem compareMembers_numbers (env : JSEnv) (f : String) (a b : Member) (x y : ℚ)
    (hf : f ≠ "") (ha : (a.get f).number? = some x) (hb : (b.get f).number? = some y) :
    (compareMembers env [f] a b ≤ 0 ↔ if isDateField f then x ≤ y else y ≤ x) ∧
    (compareMembers env [f] a b < 0 ↔ if isDateField f then x < y else y < x) ∧
    (0 < compareMembers env [f] a b ↔ if isDateField f then y < x else x < y) := by
  have hna := (isNumber_of_number? _ _ ha).2
  have hnb := (isNumber_of_number? _ _ hb).2
  cases hva : a.get f with
  | num na =>
    rw [hva] at ha
    simp only [JSVal.number?, Option.some.injEq] at ha
    cases hvb : b.get f with
    | num nb =>
      rw [hvb] at hb
      simp only [JSVal.number?, Option.some.injEq] at hb
      rw [compareMembers_num env f a b na nb hf hva hvb, ← ha, ← hb]
      have e1 : ((na : ℚ) ≤ (nb : ℚ)) ↔ na ≤ nb := Int.cast_le
      have e2 : ((nb : ℚ) ≤ (na : ℚ)) ↔ nb ≤ na := Int.cast_le
      have e3 : ((na : ℚ) < (nb : ℚ)) ↔ na < nb := Int.cast_lt
      have e4 : ((nb : ℚ) < (na : ℚ)) ↔ nb < na := Int.cast_lt
      by_cases hd : isDateField f = true
      · simp only [hd, if_true, e1, e3, e4]
        omega
      · simp only [hd, if_false, Bool.false_eq_true, e2, e3, e4]
        omega
    | dec qb tb =>
      rw [hvb] at hb
      simp only [JSVal.number?, Option.some.injEq] at hb
      refine compareMembers_mixed_numbers env f a b x y ?_
      subst ha hb
      simp [compareMembers, hf, hva, hvb, JSVal.isNullish]
    | undefined => rw [hvb] at hb; cases hb
    | null => rw [hvb] at hb; cases hb
    | str s => rw [hvb] at hb; cases hb
    | bool c => rw [hvb] at hb; cases hb
  | dec qa ta =>
    rw [hva] at ha
    simp only [JSVal.number?, Option.some.injEq] at ha
    cases hvb : b.get f with
    | num nb =>
      rw [hvb] at hb
      simp only [JSVal.number?, Option.some.injEq] at hb
      refine compareMembers_mixed_numbers env f a b x y ?_
      subst ha hb
      simp [compareMembers, hf, hva, hvb, JSVal.isNullish]
    | dec qb tb =>
      rw [hvb] at hb
      simp only [JSVal.number?, Option.some.injEq] at hb
      refine compareMembers_mixed_numbers env f a b x y ?_
      subst ha hb
      simp [compareMembers, hf, hva, hvb, JSVal.isNullish]
    | undefined => rw [hvb] at hb; cases hb
    | null => rw [hvb] at hb; cases hb
    | str s => rw [hvb] at hb; cases hb
    | bool c => rw [hvb] at hb; cases hb
  | undefined => rw [hva] at ha; cases ha
  | null => rw [hva] at ha; cases ha
  | str s => rw [hva] at ha; cases ha
  | bool c => rw [hva] at ha; cases ha

theorem weak_trans_nulls_last {α : Type} (g : α → α → Int) (R : α → α → Prop) (N : α → Bool)
    (S : α → Prop)
    (h1 : ∀ x y, N x = true → N y = true → g x y = 0)
    (h2 : ∀ x y, N x = true → N y = false → g x y = 1)
    (h3 : ∀ x y, N x = false → N y = true → g x y = -1)
    (h4 : ∀ x y, S x → S y → N x = false → N y = false → (g x y ≤ 0 ↔ R x y))
    (ht : ∀ x y z, R x y → R y z → R x z) :
    ∀ x y z, S x → S y → S z → g x y ≤ 0 → g y z ≤ 0 → g x z ≤ 0 := by
  intro x y z sx sy sz hxy hyz
  cases hx : N x <;> cases hy : N y <;> cases hz : N z
  · exact (h4 x z sx sz hx hz).2
      (ht x y z ((h4 x y sx sy hx hy).1 hxy) ((h4 y z sy sz hy hz).1 hyz))
  · rw [h3 x z hx hz]
    omega
  · rw [h2 y z hy hz] at hyz
    omega
  · rw [h3 x z hx hz]
    omega
  · rw [h2 x y hx hy] at hxy
    omega
  · rw [h2 x y hx hy] at hxy
    omega
  · rw [h2 y z hy hz] at hyz
    omega
  · rw [h1 x z hx hz]

theorem lex_weak_trans {α : Type} (S : α → Prop) (g r : α → α → Int)
    (ganti : ∀ x y, g x y < 0 ↔ 0 < g y x)
    (gtrans : ∀ x y z, S x → S y → S z → g x y ≤ 0 → g y z ≤ 0 → g x z ≤ 0)
    (rtrans : ∀ x y z, S x → S y → S z → r x y ≤ 0 → r y z ≤ 0 → r x z ≤ 0) :
    ∀ x y z, S x → S y → S z →
      (if g x y ≠ 0 then g x y else r x y) ≤ 0 →
      (if g y z ≠ 0 then g y z else r y z) ≤ 0 →
      (if g x z ≠ 0 then g x z else r x z) ≤ 0 := by
  intro x y z sx sy sz hxy hyz
  have a1 := ganti x y
  have a2 := ganti y x
  have a3 := ganti y z
  have a4 := ganti z y
  have a5 := ganti x z
  have a6 := ganti z x
  have t1 := gtrans x y z sx sy sz
  have t2 := gtrans z x y sz sx sy
  have t3 := gtrans y z x sy sz sx
  have t4 := gtrans z y x sz sy sx
  have t5 := rtrans x y z sx sy sz
  split_ifs at hxy hyz ⊢ <;> omega

theorem lex_anti {α : Type} (g r : α → α → Int)
    (ganti : ∀ x y, g x y < 0 ↔ 0 < g y x) (ranti : ∀ x y, r x y < 0 ↔ 0 < r y x) :
    ∀ x y, (if g x y ≠ 0 then g x y else r x y) < 0
      ↔ 0 < (if g y x ≠ 0 then g y x else r y x) := by
  intro x y
  have a1 := ganti x y
  have a2 := ganti y x
  have a3 := ranti x y
  split_ifs <;> omega

theorem compareMembers_single_anti (env : JSEnv) (henv : ConsistentCompare env) (f : String)
    (a b : Member) :
    compareMembers env [f] a b < 0 ↔ 0 < compareMembers env [f] b a := by
  by_cases hf : f = ""
  · simp [compareMembers, hf]
  · cases ha : (a.get f).isNullish <;> cases hb : (b.get f).isNullish
    · by_cases hnum : (a.get f).isNumber = false ∨ (b.get f).isNumber = false
      · rw [compareMembers_keys env f a b hf ha hb hnum,
          compareMembers_keys env f b a hf hb ha hnum.symm]
        split_ifs
        · exact henv.1 _ _
        · exact henv.1 _ _
      · simp only [not_or, Bool.not_eq_false] at hnum
        obtain ⟨x, hx⟩ := number?_of_isNumber _ hnum.1
        obtain ⟨y, hy⟩ := number?_of_isNumber _ hnum.2
        rw [(compareMembers_numbers env f a b x y hf hx hy).2.1,
          (compareMembers_numbers env f b a y x hf hy hx).2.2]
    · rw [compareMembers_null_right env f [] a b hf ha hb,
        compareMembers_null_left env f [] b a hf hb ha]
      omega
    · rw [compareMembers_null_left env f [] a b hf ha hb,
        compareMembers_null_right env f [] b a hf hb ha]
      omega
    · rw [compareMembers_both_null env f a b ha hb, compareMembers_both_null env f b a hb ha]

theorem compareMembers_anti (env : JSEnv) (henv : ConsistentCompare env)
    (sortConfig : List String) (a b : Member) :
    compareMembers env sortConfig a b < 0 ↔ 0 < compareMembers env sortConfig b a := by
  induction sortConfig with
  | nil => simp [compareMembers]
  | cons f rest ih =>
    rw [compareMembers_cons env f rest a b, compareMembers_cons env f rest b a]
    have h1 := compareMembers_single_anti env henv f a b
    have h2 := compareMembers_single_anti env henv f b a
    split_ifs <;> omega

theorem compareMembers_single_weak_trans (env : JSEnv) (henv : ConsistentCompare env)
    (f : String) (ms : List Member) (hkind : SameKind f ms) :
    ∀ x y z, x ∈ ms → y ∈ ms → z ∈ ms →
      compareMembers env [f] x y ≤ 0 → compareMembers env [f] y z ≤ 0 →
      compareMembers env [f] x z ≤ 0 := by
  by_cases hf : f = ""
  · intro x y z _ _ _ _ _
    simp [compareMembers, hf]
  · rcases hkind with hstr | hnum
    · exact weak_trans_nulls_last (compareMembers env [f])
        (fun u v =>
          (if isDateField f then
            env.localeCompare (env.toLowerCase (u.get f).toJSString)
              (env.toLowerCase (v.get f).toJSString)
          else
            env.localeCompare (env.toLowerCase (v.get f).toJSString)
              (env.toLowerCase (u.get f).toJSString)) ≤ 0)
        (fun m => (m.get f).isNullish) (fun m => m ∈ ms)
        (fun x y hx hy => compareMembers_both_null env f x y hx hy)
        (fun x y hx hy => compareMembers_null_left env f [] x y hf hx hy)
        (fun x y hx hy => compareMembers_null_right env f [] x y hf hx hy)
        (fun x y sx _ hx hy => by
          rw [compareMembers_keys env f x y hf hx hy (Or.inl (hstr x sx))])
        (fun x y z hxy hyz => by
          by_cases hd : isDateField f = true
          · simp only [hd, if_true] at hxy hyz ⊢
            exact henv.2 _ _ _ hxy hyz
          · simp only [hd, if_false] at hxy hyz ⊢
            exact henv.2 _ _ _ hyz hxy)
    · exact weak_trans_nulls_last (compareMembers env [f])
        (fun u v =>
          if isDateField f then
            ((u.get f).number?).getD 0 ≤ ((v.get f).number?).getD 0
          else
            ((v.get f).number?).getD 0 ≤ ((u.get f).number?).getD 0)
        (fun m => (m.get f).isNullish) (fun m => m ∈ ms)
        (fun x y hx hy => compareMembers_both_null env f x y hx hy)
        (fun x y hx hy => compareMembers_null_left env f [] x y hf hx hy)
        (fun x y hx hy => compareMembers_null_right env f [] x y hf hx hy)
        (fun x y sx sy hx hy => by
          simp only at hx hy
          rcases hnum x sx with h | h
          · rw [h] at hx
            cases hx
          · rcases hnum y sy with h' | h'
            · rw [h'] at hy
              cases hy
            · obtain ⟨vx, hvx⟩ := number?_of_isNumber _ h
              obtain ⟨vy, hvy⟩ := number?_of_isNumber _ h'
              rw [(compareMembers_numbers env f x y vx vy hf hvx hvy).1]
              simp only [hvx, hvy, Option.getD_some])
        (fun x y z hxy hyz => by
          simp only at hxy hyz ⊢
          split_ifs at hxy hyz ⊢
          · exact le_trans hxy hyz
          · exact le_trans hyz hxy)

theorem compareMembers_weak_trans (env : JSEnv) (henv : ConsistentCompare env)
    (sortConfig : List String) (ms : List Member)
    (hkind : ∀ f ∈ sortConfig, SameKind f ms) :
    ∀ x y z, x ∈ ms → y ∈ ms → z ∈ ms →
      compareMembers env sortConfig x y ≤ 0 → compareMembers env sortConfig y z ≤ 0 →
      compareMembers env sortConfig x z ≤ 0 := by
  induction sortConfig with
  | nil =>
    intro x y z _ _ _ _ _
    simp [compareMembers]
  | cons f rest ih =>
    intro x y z sx sy sz hxy hyz
    rw [compareMembers_cons] at hxy hyz ⊢
    exact lex_weak_trans (fun m => m ∈ ms) (compareMembers env [f]) (compareMembers env rest)
      (compareMembers_single_anti env henv f)
      (compareMembers_single_weak_trans env henv f ms (hkind f (List.mem_cons_self f rest)))
      (ih (fun g hg => hkind g (List.mem_cons_of_mem f hg)))
      x y z sx sy sz hxy hyz

/-- C26 (as the code has it): with a host string comparison that is itself consistent, the
comparator of `loadMembersDisplay` changes the sign of its result when its arguments are
swapped, for every sort field list and all members; and when it orders `a` before `b` and
`b` before `c` it orders `a` before `c`, provided that for each sort field the values of the
three members are of one kind: no number among them, or only numbers and missing values. -/
theorem C26_comparator_consistent_on_one_kind (env : JSEnv) (henv : ConsistentCompare env)
    (sortConfig : List String) :
    (∀ a b, (compareMembers env sortConfig a b < 0 ↔ 0 < compareMembers env sortConfig b a) ∧
      (compareMembers env sortConfig a b = 0 ↔ compareMembers env sortConfig b a = 0)) ∧
    (∀ a b c, (∀ f ∈ sortConfig, SameKind f [a, b, c]) →
      compareMembers env sortConfig a b < 0 → compareMembers env sortConfig b c < 0 →
      compareMembers env sortConfig a c < 0) := by
  constructor
  · intro a b
    have h1 := compareMembers_anti env henv sortConfig a b
    have h2 := compareMembers_anti env henv sortConfig b a
    exact ⟨h1, by omega⟩
  · intro a b c hkind hab hbc
    have hw := compareMembers_weak_trans env henv sortConfig [a, b, c] hkind
    have h1 := hw a b c (by simp) (by simp) (by simp) (by omega) (by omega)
    have h2 := hw c a b (by simp) (by simp) (by simp)
    have h3 := compareMembers_anti env henv sortConfig a c
    have h4 := compareMembers_anti env henv sortConfig c a
    have h5 := compareMembers_anti env henv sortConfig b c
    have h6 := compareMembers_anti env henv sortConfig c b
    omega

theorem compareChars_anti (s t : List Char) : compareChars s t < 0 ↔ 0 < compareChars t s := by
  induction s generalizing t with
  | nil => cases t <;> simp [compareChars]
  | cons a as ih =>
    cases t with
    | nil => simp [compareChars]
    | cons b bs =>
      simp only [compareChars]
      have := ih bs
      split_ifs <;> omega

theorem compareChars_trans (s t u : List Char) (h1 : compareChars s t ≤ 0)
    (h2 : compareChars t u ≤ 0) : compareChars s u ≤ 0 := by
  induction s generalizing t u with
  | nil => cases u <;> simp [compareChars]
  | cons a as ih =>
    cases t with
    | nil => simp [compareChars] at h1
    | cons b bs =>
      cases u with
      | nil => simp [compareChars] at h2
      | cons c cs =>
        simp only [compareChars] at h1 h2 ⊢
        have := ih bs cs
        split_ifs at h1 h2 ⊢ <;> omega

theorem consistentCompare_asciiEnv : ConsistentCompare asciiEnv :=
  ⟨fun s t => compareChars_anti s.data t.data,
   fun s t u => compareChars_trans s.data t.data u.data⟩

theorem C26_comparator_consistent_on_one_kind_witness :
    ConsistentCompare asciiEnv ∧
    ((∀ a b, (compareMembers asciiEnv ["trophies", "name"] a b < 0
          ↔ 0 < compareMembers asciiEnv ["trophies", "name"] b a) ∧
        (compareMembers asciiEnv ["trophies", "name"] a b = 0
          ↔ compareMembers asciiEnv ["trophies", "name"] b a = 0)) ∧
      (∀ a b c, (∀ f ∈ ["trophies", "name"], SameKind f [a, b, c]) →
        compareMembers asciiEnv ["trophies", "name"] a b < 0 →
        compareMembers asciiEnv ["trophies", "name"] b c < 0 →
        compareMembers asciiEnv ["trophies", "name"] a c < 0)) :=
  ⟨consistentCompare_asciiEnv,
    C26_comparator_consistent_on_one_kind asciiEnv consistentCompare_asciiEnv
      ["trophies", "name"]⟩

/-- C26 as stated fails when a sort field holds numbers in some members and a string in
another: with `trophies` 9, the string `5` and 10, under a host comparing by code points, the
comparator orders 9 before `5` (as strings) and `5` before 10 (as strings), but 10 before 9
(as numbers). -/
theorem C26_counterexample_number_and_string :
    compareMembers asciiEnv ["trophies"] (numMember "trophies" "#A" 9)
        (strMember "trophies" "#B" "5") < 0 ∧
    compareMembers asciiEnv ["trophies"] (strMember "trophies" "#B" "5")
        (numMember "trophies" "#C" 10) < 0 ∧
    ¬ compareMembers asciiEnv ["trophies"] (numMember "trophies" "#A" 9)
        (numMember "trophies" "#C" 10) < 0 ∧
    compareMembers asciiEnv ["trophies"] (numMember "trophies" "#C" 10)
        (numMember "trophies" "#A" 9) < 0 := by
  decide

theorem C30_selected_tag_round_trip_witness :
    jsTrim "Ann Lee".data ≠ [] ∧
    (∀ c ∈ "Ann Lee".data, isLineTerminator c = false) ∧
    "#AB12".data = '#' :: ['A', 'B', '1', '2'] ∧
    ['A', 'B', '1', '2'] ≠ [] ∧
    (∀ c ∈ ['A', 'B', '1', '2'], isTagChar c = true) ∧
    selectMember "#AB12" "Ann Lee" = "Ann Lee (#AB12)" ∧
    (playerTagOf id (String.mk (jsTrim (selectMember "#AB12" "Ann Lee").data)) = "#AB12" ∧
      (∀ (backend : Backend) (p : Page) (categoryValue : String), ∃ more,
        (addMemberDirectly backend id p (selectMember "#AB12" "Ann Lee")
            categoryValue).requests
          = p.requests ++
            (⟨Method.POST, Endpoint.members p.currentRosterId,
              Body.add [⟨JSVal.str "#AB12", orNull categoryValue⟩]⟩ :: more)) ∧
      (∀ searchValue : String, (playerTagOf id searchValue).data.head? = some '#') ∧
      (∀ (backend : Backend) (p : Page) (inputValue categoryValue : String),
        (addMemberDirectly backend id p inputValue categoryValue).requests = p.requests ∨
        ∃ playerTag more, playerTag.data.head? = some '#' ∧
          (addMemberDirectly backend id p inputValue categoryValue).requests
            = p.requests ++
              (⟨Method.POST, Endpoint.members p.currentRosterId,
                Body.add [⟨JSVal.str playerTag, orNull categoryValue⟩]⟩ :: more))) :=
  ⟨by decide, by decide, rfl, by decide, by decide, by decide,
    C30_selected_tag_round_trip id "Ann Lee" "#AB12" ['A', 'B', '1', '2']
      (by decide) (by decide) rfl (by decide) (by decide)⟩

/-! ### Runs that overlap -/

theorem startComparison_eq_resumed (backend : Backend) (p : Page)
    (roster1Id roster2Id : String) (layout : Except String Unit) :
    startComparison backend p roster1Id roster2Id layout
      = match startComparisonBegin p roster1Id roster2Id with
        | (q, none) => q
        | (q, some run) =>
          match resume q run
              (backend p.requests ⟨Method.GET, Endpoint.roster roster1Id, Body.none⟩)
              layout with
          | (q', none) => q'
          | (q', some run') =>
            (resume q' run'
              (backend q.requests ⟨Method.GET, Endpoint.roster roster2Id, Body.none⟩)
              layout).1 := by
  unfold startComparison startComparisonBegin
  by_cases h1 : roster1Id = ""
  · simp [h1]
  · have hreq : ({ (p.emit (Effect.dom "comparison-panel removed")) with
        comparisonRosters := [] } : Page).requests = p.requests := requests_emit_dom p _
    simp only [h1, if_false, apiCall, hreq]
    cases backend p.requests ⟨Method.GET, Endpoint.roster roster1Id, Body.none⟩ with
    | error e => simp [resume]
    | ok response1 =>
      by_cases h2 : roster2Id = ""
      · simp [resume, h2]
      · simp only [resume, h2, ne_eq, not_false_eq_true, if_true]
        have hreq2 : ({ (({ (p.emit (Effect.dom "comparison-panel removed")) with
            comparisonRosters := [] } : Page).emit (Effect.request
              ⟨Method.GET, Endpoint.roster roster1Id, Body.none⟩)) with
            comparisonRosters := [] ++ [response1.roster] } : Page).requests
            = ((({ (p.emit (Effect.dom "comparison-panel removed")) with
                comparisonRosters := [] } : Page).emit (Effect.request
              ⟨Method.GET, Endpoint.roster roster1Id, Body.none⟩))).requests := rfl
        simp only [Page.emit, List.nil_append] at hreq2 ⊢
        rw [hreq2]
        cases backend _ ⟨Method.GET, Endpoint.roster roster2Id, Body.none⟩ with
        | error e => rfl
        | ok response2 => rfl

/-- C23 as stated fails when runs overlap: `startComparison`, started while a run of
`reloadComparisonData` waits for the roster of index 0, empties `comparisonRosters`; the
reload then writes its answer at index 0 and the two pushes of `startComparison` follow, so
three comparison rosters, four with the current one, are held. -/
theorem C23_counterexample_overlapping_runs :
    InterleavedReachable overlappedRuns [] ∧
    overlappedRuns.comparisonRosters.map (Option.map rosterUrlId)
      = [some "r2", some "r3", some "r4"] ∧
    overlappedRuns.comparisonRosters.length = 3 ∧
    (heldRosters overlappedRuns).length = 4 ∧
    overlappedRuns.requests
      = [⟨Method.GET, Endpoint.roster "r2", Body.none⟩,
         ⟨Method.GET, Endpoint.roster "r1", Body.none⟩,
         ⟨Method.GET, Endpoint.roster "r2", Body.none⟩,
         ⟨Method.GET, Endpoint.roster "r3", Body.none⟩,
         ⟨Method.GET, Endpoint.roster "r4", Body.none⟩] := by
  refine ⟨?_, by decide, by decide, by decide, by decide⟩
  have h0 : InterleavedReachable freshPage [] := InterleavedReachable.loaded freshPage rfl
  have h1 : InterleavedReachable (startComparisonBegin freshPage "r2" "").1
      ([] ++ Suspended.startFirst "" :: []) :=
    InterleavedReachable.started freshPage [] "r2" "" h0
  have h2 : InterleavedReachable comparingR2 [] :=
    InterleavedReachable.answered _ [] [] (Suspended.startFirst "") (answerRoster "r2")
      (Except.ok ()) h1
  have h3 : InterleavedReachable (reloadComparisonDataBegin comparingR2).1
      ([] ++ Suspended.reloadMain :: []) :=
    InterleavedReachable.reloading comparingR2 [] h2
  have h4 : InterleavedReachable
      (resume (reloadComparisonDataBegin comparingR2).1 Suspended.reloadMain
        (answerRoster "r1") (Except.ok ())).1 [Suspended.reloadEntry 0] :=
    InterleavedReachable.answered _ [] [] Suspended.reloadMain (answerRoster "r1")
      (Except.ok ()) h3
  have h5 : InterleavedReachable startedDuringReload
      ([] ++ Suspended.reloadEntry 0 :: [Suspended.startFirst "r4"]) :=
    InterleavedReachable.started _ [Suspended.reloadEntry 0] "r3" "r4" h4
  have h6 : InterleavedReachable
      (resume startedDuringReload (Suspended.reloadEntry 0) (answerRoster "r2")
        (Except.ok ())).1 ([] ++ Suspended.startFirst "r4" :: []) :=
    InterleavedReachable.answered _ [] [Suspended.startFirst "r4"] (Suspended.reloadEntry 0)
      (answerRoster "r2") (Except.ok ()) h5
  have h7 : InterleavedReachable
      (resume (resume startedDuringReload (Suspended.reloadEntry 0) (answerRoster "r2")
        (Except.ok ())).1 (Suspended.startFirst "r4") (answerRoster "r3") (Except.ok ())).1
      ([] ++ Suspended.startSecond :: []) :=
    InterleavedReachable.answered _ [] [] (Suspended.startFirst "r4") (answerRoster "r3")
      (Except.ok ()) h6
  exact InterleavedReachable.answered _ [] [] Suspended.startSecond (answerRoster "r4")
    (Except.ok ()) h7

theorem setIndex_append_cons (reloaded rest : List (Option Roster)) (old new : Option Roster) :
    setIndex (reloaded ++ old :: rest) reloaded.length new = (reloaded ++ [new]) ++ rest := by
  unfold setIndex
  simp

theorem getD_append_cons (reloaded rest : List (Option Roster)) (x : Option Roster) :
    (reloaded ++ x :: rest).getD reloaded.length none = x := by
  induction reloaded with
  | nil => rfl
  | cons y ys ih => simpa [List.getD] using ih

theorem reloadComparisonLoop_at (q : Page) (reloaded rest : List (Option Roster))
    (x : Option Roster) :
    reloadComparisonLoop { q with comparisonRosters := reloaded ++ x :: rest } reloaded.length
      = match x with
        | none =>
          (({ q with comparisonRosters := reloaded ++ x :: rest } : Page).showAlert
            ("Failed to refresh display: " ++
              "TypeError: cannot read properties of undefined (reading 'id')") "error", none)
        | some roster =>
          (({ q with comparisonRosters := reloaded ++ x :: rest } : Page).emit
            (Effect.request ⟨Method.GET, Endpoint.roster (rosterUrlId roster), Body.none⟩),
            some (Suspended.reloadEntry reloaded.length)) := by
  unfold reloadComparisonLoop
  have hlt : reloaded.length < (reloaded ++ x :: rest).length := by simp
  simp only [hlt, if_true]
  rw [getD_append_cons]

theorem interleaved_reloadComparisonLoop (backend : Backend) (rest : List (Option Roster)) :
    ∀ (reloaded : List (Option Roster)) (q : Page),
      InterleavedReachable
        (reloadComparisonLoop { q with comparisonRosters := reloaded ++ rest }
          reloaded.length).1
        (reloadComparisonLoop { q with comparisonRosters := reloaded ++ rest }
          reloaded.length).2.toList →
      InterleavedReachable
        (match reloadComparisonRosters backend q reloaded rest with
          | (p, some message) => p.showAlert ("Failed to refresh display: " ++ message) "error"
          | (p, none) => p.emit Effect.renderComparison) [] := by
  induction rest with
  | nil =>
    intro reloaded q h
    simpa [reloadComparisonLoop, reloadComparisonRosters] using h
  | cons r rest ih =>
    intro reloaded q h
    cases r with
    | none =>
      rw [reloadComparisonLoop_at] at h
      simpa [reloadComparisonRosters] using h
    | some roster =>
      rw [reloadComparisonLoop_at] at h
      simp only [Option.toList] at h
      have hstep := InterleavedReachable.answered _ [] []
        (Suspended.reloadEntry reloaded.length)
        (backend q.requests ⟨Method.GET, Endpoint.roster (rosterUrlId roster), Body.none⟩)
        (Except.ok ()) h
      simp only [reloadComparisonRosters, apiCall]
      cases hans : backend q.requests
          ⟨Method.GET, Endpoint.roster (rosterUrlId roster), Body.none⟩ with
      | error e =>
        rw [hans] at hstep
        simpa [resume] using hstep
      | ok response =>
        rw [hans] at hstep
        simp only [resume, List.nil_append, List.append_nil] at hstep
        have hset : setIndex
            (({ q with comparisonRosters := reloaded ++ some roster :: rest } : Page).emit
              (Effect.request ⟨Method.GET, Endpoint.roster (rosterUrlId roster),
                Body.none⟩)).comparisonRosters
            reloaded.length response.roster = (reloaded ++ [response.roster]) ++ rest :=
          setIndex_append_cons reloaded rest (some roster) response.roster
        rw [hset] at hstep
        have hlen : reloaded.length + 1 = (reloaded ++ [response.roster]).length := by simp
        rw [hlen] at hstep
        exact ih (reloaded ++ [response.roster])
          (q.emit (Effect.request
            ⟨Method.GET, Endpoint.roster (rosterUrlId roster), Body.none⟩)) hstep

theorem interleaved_reloadComparisonData (backend : Backend) (p : Page)
    (h : InterleavedReachable p []) :
    InterleavedReachable (reloadComparisonData backend p) [] := by
  have h1 := InterleavedReachable.reloading p [] h
  have h2 := InterleavedReachable.answered _ [] [] Suspended.reloadMain
    (backend p.requests ⟨Method.GET, Endpoint.roster p.currentRosterId, Body.none⟩)
    (Except.ok ()) h1
  unfold reloadComparisonData
  simp only [apiCall]
  cases hans : backend p.requests
      ⟨Method.GET, Endpoint.roster p.currentRosterId, Body.none⟩ with
  | error e =>
    rw [hans] at h2
    simpa [resume, reloadComparisonDataBegin] using h2
  | ok response =>
    rw [hans] at h2
    simp only [resume, reloadComparisonDataBegin, List.nil_append, List.append_nil] at h2
    have := interleaved_reloadComparisonLoop backend p.comparisonRosters []
      { (p.emit (Effect.request
          ⟨Method.GET, Endpoint.roster p.currentRosterId, Body.none⟩)) with
        currentRosterData := response.roster }
    simp only [List.nil_append, List.length_nil] at this
    exact this h2

theorem startComparisonBegin_waits (p : Page) (roster1Id roster2Id : String)
    (run : Suspended) (h : (startComparisonBegin p roster1Id roster2Id).2 = some run) :
    run = Suspended.startFirst roster2Id := by
  unfold startComparisonBegin at h
  split_ifs at h
  injection h with h
  exact h.symm

theorem resume_startFirst_waits (q : Page) (roster2Id : String) (answer : ApiResult)
    (layout : Except String Unit) (run : Suspended)
    (h : (resume q (Suspended.startFirst roster2Id) answer layout).2 = some run) :
    run = Suspended.startSecond := by
  cases answer with
  | error e => simp [resume] at h
  | ok response =>
    simp only [resume] at h
    split_ifs at h
    injection h with h
    exact h.symm

theorem resume_startSecond_ends (q : Page) (answer : ApiResult)
    (layout : Except String Unit) :
    (resume q Suspended.startSecond answer layout).2 = none := by
  cases answer <;> rfl

theorem interleaved_startComparison (backend : Backend) (p : Page)
    (roster1Id roster2Id : String) (layout : Except String Unit)
    (h : InterleavedReachable p []) :
    InterleavedReachable (startComparison backend p roster1Id roster2Id layout) [] := by
  rw [startComparison_eq_resumed]
  have h1 := InterleavedReachable.started p [] roster1Id roster2Id h
  cases hb : startComparisonBegin p roster1Id roster2Id with
  | mk q run =>
    rw [hb] at h1
    cases run with
    | none => simpa using h1
    | some run =>
      simp only [Option.toList, List.nil_append] at h1
      have h2 := InterleavedReachable.answered q [] [] run
        (backend p.requests ⟨Method.GET, Endpoint.roster roster1Id, Body.none⟩) layout h1
      simp only
      cases hr : resume q run
          (backend p.requests ⟨Method.GET, Endpoint.roster roster1Id, Body.none⟩) layout with
      | mk q' run' =>
        rw [hr] at h2
        cases run' with
        | none => simpa using h2
        | some run' =>
          simp only [Option.toList, List.nil_append, List.append_nil] at h2
          have h3 := InterleavedReachable.answered q' [] [] run'
            (backend q.requests ⟨Method.GET, Endpoint.roster roster2Id, Body.none⟩) layout h2
          simp only
          have hrun : run = Suspended.startFirst roster2Id :=
            startComparisonBegin_waits p roster1Id roster2Id run (by rw [hb])
          subst hrun
          have hrun' : run' = Suspended.startSecond :=
            resume_startFirst_waits q roster2Id _ layout run' (by rw [hr])
          subst hrun'
          have hnone := resume_startSecond_ends q'
            (backend q.requests ⟨Method.GET, Endpoint.roster roster2Id, Body.none⟩) layout
          rw [hnone] at h3
          simpa using h3

/-- Every page state reached by whole runs is reached in the step model with no run
waiting. -/
theorem interleavedReachable_of_comparisonReachable (p : Page) (h : ComparisonReachable p) :
    InterleavedReachable p [] := by
  induction h with
  | loaded p h => exact InterleavedReachable.loaded p h
  | started backend p roster1Id roster2Id layout _ ih =>
    exact interleaved_startComparison backend p roster1Id roster2Id layout ih
  | reloaded backend p _ ih => exact interleaved_reloadComparisonData backend p ih
  | cancelled p _ ih => exact InterleavedReachable.cancelled p [] ih

end ClashKing
